import Mathlib

/-!
# Thicket: room configuration validation, room membership, client framing

A shallow embedding of `RoomConfigValidator::validate`
(`src/server/RoomConfigValidator.cpp`), of the seat management of
`ServerRoom` (`src/server/ServerRoom.cpp`), and of the framing and the
inventory handling of `Client` (`src/client/client.cpp`), with theorems about
them.

Conventions of the embedding:

* protobuf messages become structures holding the fields the code reads;
  repeated fields become lists, optional fields become `Option`;
* the integer fields of the protobuf messages are 32-bit values, held as the
  natural number of their bit pattern; where the source converts such a value
  to a C++ `int` (an explicit `(int)` cast or an assignment to an `int`
  variable) the embedding applies `toInt32`, the twos complement reading;
* the card database (`AllSetsData`) is external to the sources and is taken as
  a parameter: its list of set codes and its `hasBoosterSlots` predicate;
* a `return false` with a failure reason becomes a rejection value, and an
  access of a repeated field beyond its size becomes `Outcome.undefined_access`.
-/

namespace Thicket

/-! ## Data model of the validator -/

/-- Failure reasons of `proto::CreateRoomFailureRsp` that the validator assigns. -/
inductive ResultType
  | RESULT_INVALID_CHAIR_COUNT
  | RESULT_INVALID_BOT_COUNT
  | RESULT_INVALID_ROUND_COUNT
  | RESULT_INVALID_DISPENSER_COUNT
  | RESULT_INVALID_SET_CODE
  | RESULT_INVALID_DISPENSER_CONFIG
  | RESULT_INVALID_CUSTOM_CARD_LIST
  | RESULT_INVALID_DRAFT_TYPE
  | RESULT_INVALID_ROUND_CONFIG
  deriving DecidableEq, Repr

/-- One `CustomCardList::CardQuantity` entry; only `quantity` is read by the validator. -/
structure CardQuantity where
  quantity : Nat
  deriving DecidableEq, Repr

/-- Message `DraftConfig::CustomCardList`. -/
structure CustomCardList where
  card_quantities : List CardQuantity
  deriving DecidableEq, Repr

/-- Message `DraftConfig::CardDispenser`: its booster set codes and its optional
custom-card-list index. -/
structure CardDispenser where
  source_booster_set_codes : List String
  source_custom_card_list_index : Option Nat
  deriving DecidableEq, Repr

/-- Message `DraftConfig::CardDispensation`; only `dispenser_index` is read by the validator. -/
structure CardDispensation where
  dispenser_index : Nat
  deriving DecidableEq, Repr

/-- Modelled from the spec: the protobuf declaration of `DraftConfig::Round` is not
part of the sources; a round is exactly one of a booster round, a sealed round and
a grid round, or has none of them set (the last branch of the round loop). -/
inductive Round
  | booster_round (dispensations : List CardDispensation)
  | sealed_round (dispensations : List CardDispensation)
  | grid_round (dispenser_index : Nat)
  | not_set
  deriving DecidableEq, Repr

/-- Message `DraftConfig`. -/
structure DraftConfig where
  chair_count : Nat
  rounds : List Round
  dispensers : List CardDispenser
  custom_card_lists : List CustomCardList
  deriving DecidableEq, Repr

/-- Message `RoomConfig`. -/
structure RoomConfig where
  bot_count : Nat
  draft_config : DraftConfig
  deriving DecidableEq, Repr

/-- The card database as the validator uses it: `getSetCodes()` and `hasBoosterSlots()`. -/
structure AllSetsData where
  getSetCodes : List String
  hasBoosterSlots : String → Bool

/-- Result of one call of `validate`: `true`, `false` with the failure reason, or an
access of a repeated field beyond its size. -/
inductive Outcome
  | accepted
  | rejected (failureResult : ResultType)
  | undefined_access
  deriving DecidableEq, Repr

/-! ## Integer conversions -/

/-- Reduction of an integer to the range of a C++ `int` (32 bits, twos complement). -/
def wrapInt32 (z : Int) : Int :=
  let m := z % 4294967296
  if m < 2147483648 then m else m - 4294967296

/-- Conversion of a 32-bit field value to a C++ `int`. -/
def toInt32 (n : Nat) : Int := wrapInt32 (n : Int)

/-! ## The validator -/

/-- Inner loop over the booster set codes of one dispenser (source lines 74-98):
every set code must be in the database and have booster slots; each accepted set
code increments `sources`. -/
def checkSetCodes (db : AllSetsData) : List String → Nat → Except ResultType Nat
  | [], sources => Except.ok sources
  | setCode :: rest, sources =>
    if !(db.getSetCodes.contains setCode) then
      Except.error ResultType.RESULT_INVALID_SET_CODE
    else if !(db.hasBoosterSlots setCode) then
      Except.error ResultType.RESULT_INVALID_DISPENSER_CONFIG
    else checkSetCodes db rest (sources + 1)

/-- Custom-card-list index check of one dispenser (source lines 100-111): the index
is stored in an `int` and compared with `custom_card_lists_size()`. -/
def checkCustomListIndex (cclSize : Nat) (d : CardDispenser) (sources : Nat) :
    Except ResultType Nat :=
  match d.source_custom_card_list_index with
  | some idx =>
    if toInt32 idx ≥ (cclSize : Int) then
      Except.error ResultType.RESULT_INVALID_DISPENSER_CONFIG
    else Except.ok (sources + 1)
  | none => Except.ok sources

/-- Dispenser loop (source lines 71-119). The counter `sources` is declared before
the loop and carried from one dispenser to the next. -/
def checkDispensers (db : AllSetsData) (cclSize : Nat) :
    List CardDispenser → Nat → Except ResultType Nat
  | [], sources => Except.ok sources
  | d :: rest, sources =>
    match checkSetCodes db d.source_booster_set_codes sources with
    | Except.error r => Except.error r
    | Except.ok s1 =>
      match checkCustomListIndex cclSize d s1 with
      | Except.error r => Except.error r
      | Except.ok s2 =>
        if s2 < 1 then Except.error ResultType.RESULT_INVALID_DISPENSER_CONFIG
        else checkDispensers db cclSize rest s2

/-- Quantity loop of custom card list number `i` (source lines 135-140): it runs
`n` times and reads `card_quantities( i )` each time, adding its quantity to the
`int` accumulator; `none` when the index `i` is beyond the list. -/
def sumQuantities (ccl : CustomCardList) (i : Nat) : Nat → Int → Option Int
  | 0, qty => some qty
  | n + 1, qty =>
    match ccl.card_quantities[i]? with
    | none => none
    | some cq => sumQuantities ccl i n (wrapInt32 (qty + (cq.quantity : Int)))

/-- Custom card list loop (source lines 125-147), from list number `i` on. -/
def checkCustomCardLists : List CustomCardList → Nat → Outcome
  | [], _ => Outcome.accepted
  | ccl :: rest, i =>
    if ccl.card_quantities.length = 0 then
      Outcome.rejected ResultType.RESULT_INVALID_CUSTOM_CARD_LIST
    else
      match sumQuantities ccl i ccl.card_quantities.length 0 with
      | none => Outcome.undefined_access
      | some qty =>
        if qty ≤ 0 then Outcome.rejected ResultType.RESULT_INVALID_CUSTOM_CARD_LIST
        else checkCustomCardLists rest (i + 1)

/-- Loop over the dispensations of a round (source lines 224-232): `true` when no
dispensation has `(int) dispenser_index >= dispensers_size()`. -/
def checkDispensations (dispSize : Nat) : List CardDispensation → Bool
  | [] => true
  | d :: rest =>
    if toInt32 d.dispenser_index ≥ (dispSize : Int) then false
    else checkDispensations dispSize rest

/-- End of the body of the round loop (source lines 216-232), for the local
`dispensations` and the current value of `grid`. -/
def checkRoundDispensations (dispSize : Nat) (grid : Bool)
    (dispensations : List CardDispensation) (booster : Bool) :
    Except ResultType (Bool × Bool) :=
  if !grid && decide (dispensations.length ≤ 0) then
    Except.error ResultType.RESULT_INVALID_ROUND_CONFIG
  else if checkDispensations dispSize dispensations then Except.ok (booster, grid)
  else Except.error ResultType.RESULT_INVALID_ROUND_CONFIG

/-- Body of the round loop for round number `i` (source lines 159-232), from the
flags `booster` and `grid` to their new values. -/
def checkRound (dispSize : Nat) (i : Nat) (booster grid : Bool) (round : Round) :
    Except ResultType (Bool × Bool) :=
  match round with
  | Round.booster_round dispensations =>
    if decide (i > 0) && !booster then Except.error ResultType.RESULT_INVALID_DRAFT_TYPE
    else checkRoundDispensations dispSize grid dispensations true
  | Round.sealed_round dispensations =>
    if i > 0 then Except.error ResultType.RESULT_INVALID_DRAFT_TYPE
    else checkRoundDispensations dispSize grid dispensations booster
  | Round.grid_round dispenser_index =>
    if decide (i > 0) && !grid then Except.error ResultType.RESULT_INVALID_DRAFT_TYPE
    else if toInt32 dispenser_index ≥ (dispSize : Int) then
      Except.error ResultType.RESULT_INVALID_ROUND_CONFIG
    else checkRoundDispensations dispSize true [] booster
  | Round.not_set => Except.error ResultType.RESULT_INVALID_DRAFT_TYPE

/-- Round loop (source lines 155-233), from round number `i` on. -/
def checkRounds (dispSize : Nat) : List Round → Nat → Bool → Bool → Outcome
  | [], _, _, _ => Outcome.accepted
  | round :: rest, i, booster, grid =>
    match checkRound dispSize i booster grid round with
    | Except.error r => Outcome.rejected r
    | Except.ok (booster1, grid1) => checkRounds dispSize rest (i + 1) booster1 grid1

/-- Embedding of `RoomConfigValidator::validate` (source lines 14-236). -/
def validate (db : AllSetsData) (roomConfig : RoomConfig) : Outcome :=
  let draftConfig := roomConfig.draft_config
  if draftConfig.chair_count < 1 then
    Outcome.rejected ResultType.RESULT_INVALID_CHAIR_COUNT
  else if roomConfig.bot_count ≥ draftConfig.chair_count then
    Outcome.rejected ResultType.RESULT_INVALID_BOT_COUNT
  else if draftConfig.rounds.length ≤ 0 then
    Outcome.rejected ResultType.RESULT_INVALID_ROUND_COUNT
  else if draftConfig.dispensers.length < 1 then
    Outcome.rejected ResultType.RESULT_INVALID_DISPENSER_COUNT
  else
    match checkDispensers db draftConfig.custom_card_lists.length draftConfig.dispensers 0 with
    | Except.error r => Outcome.rejected r
    | Except.ok _ =>
      match checkCustomCardLists draftConfig.custom_card_lists 0 with
      | Outcome.accepted =>
        checkRounds draftConfig.dispensers.length draftConfig.rounds 0 false false
      | o => o

/-! ## Sample data -/

/-- A card database with a booster set `10E` and a non-booster set `EVG`, as in
the validator tests. -/
def sampleSets : AllSetsData where
  getSetCodes := ["10E", "EVG"]
  hasBoosterSlots := fun c => c == "10E"

/-- The booster-round model configuration of the validator tests: 8 chairs, no
bots, three `10E` dispensers and three booster rounds. -/
def boosterModelConfig : RoomConfig where
  bot_count := 0
  draft_config :=
    { chair_count := 8
      rounds := [Round.booster_round [⟨0⟩], Round.booster_round [⟨1⟩],
        Round.booster_round [⟨2⟩]]
      dispensers := [⟨["10E"], none⟩, ⟨["10E"], none⟩, ⟨["10E"], none⟩]
      custom_card_lists := [] }

/-- The sealed-round model configuration of the validator tests: 8 chairs, no
bots, six `10E` dispensers and one sealed round with a dispensation for each. -/
def sealedModelConfig : RoomConfig where
  bot_count := 0
  draft_config :=
    { chair_count := 8
      rounds := [Round.sealed_round [⟨0⟩, ⟨1⟩, ⟨2⟩, ⟨3⟩, ⟨4⟩, ⟨5⟩]]
      dispensers := [⟨["10E"], none⟩, ⟨["10E"], none⟩, ⟨["10E"], none⟩, ⟨["10E"], none⟩,
        ⟨["10E"], none⟩, ⟨["10E"], none⟩]
      custom_card_lists := [] }

/-- Replaces the rounds of a configuration. -/
def RoomConfig.withRounds (cfg : RoomConfig) (rounds : List Round) : RoomConfig :=
  { cfg with draft_config := { cfg.draft_config with rounds := rounds } }

/-- Replaces the dispensers of a configuration. -/
def RoomConfig.withDispensers (cfg : RoomConfig) (dispensers : List CardDispenser) :
    RoomConfig :=
  { cfg with draft_config := { cfg.draft_config with dispensers := dispensers } }

/-- Replaces the custom card lists of a configuration. -/
def RoomConfig.withCustomCardLists (cfg : RoomConfig) (lists : List CustomCardList) :
    RoomConfig :=
  { cfg with draft_config := { cfg.draft_config with custom_card_lists := lists } }

/-- Replaces the chair count of a configuration. -/
def RoomConfig.withChairCount (cfg : RoomConfig) (n : Nat) : RoomConfig :=
  { cfg with draft_config := { cfg.draft_config with chair_count := n } }

/-! ## The checks in the words of the specification -/

/-- Checks 1-4 pass: at least one chair, fewer bots than chairs, at least one
round, at least one dispenser. -/
def passesCountChecks (cfg : RoomConfig) : Prop :=
  1 ≤ cfg.draft_config.chair_count ∧ cfg.bot_count < cfg.draft_config.chair_count ∧
    cfg.draft_config.rounds ≠ [] ∧ cfg.draft_config.dispensers ≠ []

instance (cfg : RoomConfig) : Decidable (passesCountChecks cfg) := by
  unfold passesCountChecks; infer_instance

/-- The dispenser loop of `validate` runs to its end without a rejection. -/
def passesDispenserChecks (db : AllSetsData) (cfg : RoomConfig) : Prop :=
  ∃ sources, checkDispensers db cfg.draft_config.custom_card_lists.length
    cfg.draft_config.dispensers 0 = Except.ok sources

instance (db : AllSetsData) (cfg : RoomConfig) : Decidable (passesDispenserChecks db cfg) :=
  match h : checkDispensers db cfg.draft_config.custom_card_lists.length
      cfg.draft_config.dispensers 0 with
  | Except.ok s => isTrue ⟨s, h⟩
  | Except.error r => isFalse (fun ⟨s, hs⟩ => by
      unfold passesDispenserChecks at *
      rw [h] at hs
      cases hs)

/-- The custom card list loop of `validate` runs to its end without a rejection. -/
def passesCustomCardListChecks (cfg : RoomConfig) : Prop :=
  checkCustomCardLists cfg.draft_config.custom_card_lists 0 = Outcome.accepted

instance (cfg : RoomConfig) : Decidable (passesCustomCardListChecks cfg) := by
  unfold passesCustomCardListChecks; infer_instance

/-- A set code that exists in the card database and supports booster generation. -/
def goodSetCode (db : AllSetsData) (c : String) : Prop :=
  c ∈ db.getSetCodes ∧ db.hasBoosterSlots c = true

instance (db : AllSetsData) (c : String) : Decidable (goodSetCode db c) := by
  unfold goodSetCode; infer_instance

/-- A dispenser with at least one source: a booster set code or a custom-list index. -/
def hasSource (d : CardDispenser) : Prop :=
  d.source_booster_set_codes ≠ [] ∨ d.source_custom_card_list_index ≠ none

instance (d : CardDispenser) : Decidable (hasSource d) := by
  unfold hasSource; infer_instance

/-- Sum of the quantities of all entries of a custom card list. -/
def totalQuantity (ccl : CustomCardList) : Nat :=
  (ccl.card_quantities.map CardQuantity.quantity).sum

/-- The four kinds of round the validator distinguishes. -/
inductive RoundKind
  | booster
  | sealed
  | grid
  | unsupported
  deriving DecidableEq, Repr

/-- Kind of a round. -/
def Round.kind : Round → RoundKind
  | Round.booster_round _ => RoundKind.booster
  | Round.sealed_round _ => RoundKind.sealed
  | Round.grid_round _ => RoundKind.grid
  | Round.not_set => RoundKind.unsupported

/-- Check 7 in the words of the specification: the rounds are all booster rounds,
or exactly one sealed round, or all grid rounds. -/
def Homogeneous (rounds : List Round) : Prop :=
  (∀ r ∈ rounds, r.kind = RoundKind.booster) ∨
    (∃ ds, rounds = [Round.sealed_round ds]) ∨
    (∀ r ∈ rounds, r.kind = RoundKind.grid)

instance (rounds : List Round) : Decidable (Homogeneous rounds) :=
  decidable_of_iff
    ((∀ r ∈ rounds, r.kind = RoundKind.booster) ∨
      (rounds.length = 1 ∧ ∀ r ∈ rounds, r.kind = RoundKind.sealed) ∨
      (∀ r ∈ rounds, r.kind = RoundKind.grid))
    (by
      unfold Homogeneous
      refine or_congr Iff.rfl (or_congr ?_ Iff.rfl)
      constructor
      · rintro ⟨hlen, hall⟩
        obtain ⟨r, hr⟩ := List.length_eq_one.1 hlen
        subst hr
        have hk := hall r (List.mem_singleton_self r)
        cases r with
        | sealed_round ds => exact ⟨ds, rfl⟩
        | booster_round ds => cases hk
        | grid_round idx => cases hk
        | not_set => cases hk
      · rintro ⟨ds, hs⟩
        subst hs
        refine ⟨rfl, ?_⟩
        intro r hr
        rw [List.mem_singleton.1 hr]
        rfl)

/-- Checks 8-9 in the words of the specification, for one round and `n`
dispensers: a booster or sealed round has at least one dispensation and each
points to a valid dispenser index; a grid round references a valid dispenser index. -/
def roundConfigOk (n : Nat) : Round → Prop
  | Round.booster_round ds => ds ≠ [] ∧ ∀ d ∈ ds, d.dispenser_index < n
  | Round.sealed_round ds => ds ≠ [] ∧ ∀ d ∈ ds, d.dispenser_index < n
  | Round.grid_round idx => idx < n
  | Round.not_set => True

instance (n : Nat) (r : Round) : Decidable (roundConfigOk n r) := by
  cases r <;> unfold roundConfigOk <;> infer_instance

instance (o : Option Nat) (n : Nat) : Decidable (∀ idx, o = some idx → idx < n) :=
  match o with
  | none => isTrue (fun _ h => by cases h)
  | some i =>
    if h : i < n then isTrue (fun idx hidx => by cases hidx; exact h)
    else isFalse (fun hall => h (hall i rfl))

/-- The nine checks of the specification (section 4.4), against the card database. -/
def specValid (db : AllSetsData) (cfg : RoomConfig) : Prop :=
  1 ≤ cfg.draft_config.chair_count ∧
  cfg.bot_count < cfg.draft_config.chair_count ∧
  1 ≤ cfg.draft_config.rounds.length ∧
  1 ≤ cfg.draft_config.dispensers.length ∧
  (∀ d ∈ cfg.draft_config.dispensers, hasSource d ∧
    (∀ c ∈ d.source_booster_set_codes, goodSetCode db c) ∧
    (∀ idx, d.source_custom_card_list_index = some idx →
      idx < cfg.draft_config.custom_card_lists.length)) ∧
  (∀ ccl ∈ cfg.draft_config.custom_card_lists,
    ccl.card_quantities ≠ [] ∧ 0 < totalQuantity ccl) ∧
  Homogeneous cfg.draft_config.rounds ∧
  (∀ r ∈ cfg.draft_config.rounds, roundConfigOk cfg.draft_config.dispensers.length r)

instance (db : AllSetsData) (cfg : RoomConfig) : Decidable (specValid db cfg) := by
  unfold specValid; infer_instance

/-! ## Sample configurations -/

/-- The custom-card-list model configuration of the validator tests: one list
with one card of quantity 1, one dispenser drawing from it, one booster round. -/
def customListModelConfig : RoomConfig where
  bot_count := 0
  draft_config :=
    { chair_count := 8
      rounds := [Round.booster_round [⟨0⟩]]
      dispensers := [⟨[], some 0⟩]
      custom_card_lists := [⟨[⟨1⟩]⟩] }

/-- The booster model configuration with a second dispenser that has no source. -/
def sourcelessSecondConfig : RoomConfig where
  bot_count := 0
  draft_config :=
    { chair_count := 8
      rounds := [Round.booster_round [⟨0⟩]]
      dispensers := [⟨["10E"], none⟩, ⟨[], none⟩]
      custom_card_lists := [] }

/-- The custom-list model configuration with a list of two entries, of
quantities 0 and 5. -/
def zeroThenFiveConfig : RoomConfig where
  bot_count := 0
  draft_config :=
    { chair_count := 8
      rounds := [Round.booster_round [⟨0⟩]]
      dispensers := [⟨[], some 0⟩]
      custom_card_lists := [⟨[⟨0⟩, ⟨5⟩]⟩] }

/-- A configuration whose first dispenser has no source and whose second
dispenser names the unknown set code `XXXX`. -/
def sourcelessThenUnknownConfig : RoomConfig where
  bot_count := 0
  draft_config :=
    { chair_count := 8
      rounds := [Round.booster_round [⟨0⟩]]
      dispensers := [⟨[], none⟩, ⟨["XXXX"], none⟩]
      custom_card_lists := [] }

/-- The custom-list model configuration with the custom-list index 4294967295
(all 32 bits set). -/
def hugeListIndexConfig : RoomConfig where
  bot_count := 0
  draft_config :=
    { chair_count := 8
      rounds := [Round.booster_round [⟨0⟩]]
      dispensers := [⟨[], some 4294967295⟩]
      custom_card_lists := [⟨[⟨1⟩]⟩] }

/-- A one-dispenser booster configuration whose dispensation has the dispenser
index 4294967295 (all 32 bits set). -/
def hugeDispenserIndexConfig : RoomConfig where
  bot_count := 0
  draft_config :=
    { chair_count := 8
      rounds := [Round.booster_round [⟨4294967295⟩]]
      dispensers := [⟨["10E"], none⟩]
      custom_card_lists := [] }

/-- A configuration whose first round is a booster round without dispensations
and whose second round is a sealed round. -/
def emptyBoosterThenSealedConfig : RoomConfig where
  bot_count := 0
  draft_config :=
    { chair_count := 8
      rounds := [Round.booster_round [], Round.sealed_round [⟨0⟩]]
      dispensers := [⟨["10E"], none⟩]
      custom_card_lists := [] }

/-- The booster model configuration followed by a sealed round without
dispensations, as in the test "Bad Draft Type - mixed". -/
def boosterThenEmptySealedConfig : RoomConfig where
  bot_count := 0
  draft_config :=
    { chair_count := 8
      rounds := [Round.booster_round [⟨0⟩], Round.sealed_round []]
      dispensers := [⟨["10E"], none⟩]
      custom_card_lists := [] }

/-- A configuration with 8 chairs and 7 bots and two custom card lists, the
second with entries of quantities 3 and 0. -/
def twoListsConfig : RoomConfig where
  bot_count := 7
  draft_config :=
    { chair_count := 8
      rounds := [Round.sealed_round [⟨0⟩, ⟨1⟩]]
      dispensers := [⟨["10E"], some 0⟩, ⟨[], some 1⟩]
      custom_card_lists := [⟨[⟨1⟩, ⟨1⟩]⟩, ⟨[⟨3⟩, ⟨0⟩]⟩] }


/-- The rounds mix types: two of them have different kinds. -/
def mixesTypes (rounds : List Round) : Prop :=
  ∃ r1 ∈ rounds, ∃ r2 ∈ rounds, r1.kind ≠ r2.kind

/-- The rounds contain a round of no supported type. -/
def hasUnsupportedRound (rounds : List Round) : Prop :=
  ∃ r ∈ rounds, r.kind = RoundKind.unsupported

instance (rounds : List Round) : Decidable (mixesTypes rounds) := by
  unfold mixesTypes; infer_instance

instance (rounds : List Round) : Decidable (hasUnsupportedRound rounds) := by
  unfold hasUnsupportedRound; infer_instance

/-- Number of sealed rounds. -/
def sealedCount (rounds : List Round) : Nat :=
  rounds.countP (fun r => decide (r.kind = RoundKind.sealed))

/-- A configuration whose second dispenser names the known booster set `10E` and
then the unknown set code `XXXX`. -/
def knownThenUnknownConfig : RoomConfig where
  bot_count := 0
  draft_config :=
    { chair_count := 8
      rounds := [Round.booster_round [⟨0⟩]]
      dispensers := [⟨["10E"], none⟩, ⟨["10E", "XXXX"], none⟩]
      custom_card_lists := [] }

/-- A configuration whose first dispenser has no source and whose second
dispenser names the known set `EVG`, which has no booster slots. -/
def sourcelessThenNonBoosterConfig : RoomConfig where
  bot_count := 0
  draft_config :=
    { chair_count := 8
      rounds := [Round.booster_round [⟨0⟩]]
      dispensers := [⟨[], none⟩, ⟨["EVG"], none⟩]
      custom_card_lists := [] }

/-- A configuration with a booster round followed by a sealed round, each with a
valid dispensation. -/
def boosterThenSealedConfig : RoomConfig where
  bot_count := 0
  draft_config :=
    { chair_count := 8
      rounds := [Round.booster_round [⟨0⟩], Round.sealed_round [⟨0⟩]]
      dispensers := [⟨["10E"], none⟩]
      custom_card_lists := [] }

/-- What the round loop has checked of a round it let through, for `n` dispensers:
a booster or sealed round has a dispensation and its dispensations pass
`checkDispensations`; the index of a grid round, read as an `int`, is below `n`. -/
def roundChecked (n : Nat) : Round → Prop
  | Round.booster_round ds => ds ≠ [] ∧ checkDispensations n ds = true
  | Round.sealed_round ds => ds ≠ [] ∧ checkDispensations n ds = true
  | Round.grid_round idx => toInt32 idx < (n : Int)
  | Round.not_set => False

instance (n : Nat) (r : Round) : Decidable (roundChecked n r) := by
  cases r <;> unfold roundChecked <;> infer_instance

/-! ## Data model of the room

`ServerRoom` keeps a list of players per chair (`mPlayerList`, null for a free
chair), a list of chair states (`mChairStateList`), the humans and the bots it
owns, and a map from client connections to humans. The classes `HumanPlayer`,
`BotPlayer`, `ClientConnection` and the draft engine are external to the sources;
the embedding keeps of them what the room code reads, and records the calls the
room makes to them, the messages it sends and the signals it emits in a log. -/

/-- States of a chair (`ChairState`). -/
inductive ChairState
  | CHAIR_STATE_EMPTY
  | CHAIR_STATE_STANDBY
  | CHAIR_STATE_READY
  | CHAIR_STATE_ACTIVE
  | CHAIR_STATE_DEPARTED
  deriving DecidableEq, Repr

/-- Identity of a client connection (the pointer `ClientConnection*`). -/
abbrev ClientConnection := Nat

/-- A `HumanPlayer` object as the room sees it: `id` stands for the identity of
the allocated object, `name` is set once by `join`, `chairIndex` is fixed by the
constructor. -/
structure HumanPlayer where
  id : Nat
  name : String
  chairIndex : Nat
  deriving DecidableEq, Repr

/-- A `BotPlayer` object as the room sees it. -/
structure BotPlayer where
  chairIndex : Nat
  deriving DecidableEq, Repr

/-- A non-null entry of `mPlayerList`. -/
inductive Player
  | human (h : HumanPlayer)
  | bot (b : BotPlayer)
  deriving DecidableEq, Repr

/-- Results of `proto::JoinRoomFailureRsp` that the room assigns. -/
inductive JoinRoomFailureResult
  | RESULT_INVALID_PASSWORD
  | RESULT_ROOM_FULL
  deriving DecidableEq, Repr

/-- Player states of `proto::RoomOccupantsInfoInd::Player`. -/
inductive OccupantState
  | STATE_STANDBY
  | STATE_READY
  | STATE_ACTIVE
  | STATE_DEPARTED
  deriving DecidableEq, Repr

/-- One player entry of `RoomOccupantsInfoInd`; the name in the message is the
name of `player`; `state` is left unset for an unexpected chair state. -/
structure OccupantInfo where
  chair_index : Nat
  player : Player
  is_bot : Bool
  state : Option OccupantState
  deriving DecidableEq, Repr

/-- States of the draft engine that the room distinguishes. -/
inductive DraftState
  | STATE_NEW
  | STATE_RUNNING
  | STATE_COMPLETE
  deriving DecidableEq, Repr

/-- Stages of `proto::RoomStageInd`. -/
inductive Stage
  | STAGE_NEW
  | STAGE_RUNNING
  | STAGE_COMPLETE
  deriving DecidableEq, Repr

/-- Round information of `RoomStageInd`: the round, and the post-round ticks
remaining when the post-round timer is active (the message carries the
corresponding milliseconds, which depend on the wall clock). -/
structure RoundInfo where
  round : Nat
  post_round_ticks_remaining : Option Int
  deriving DecidableEq, Repr

/-- Messages the room sends to clients, with the fields the room code sets. -/
inductive ServerToClientMsg
  | join_room_success_rspind (room_id : Nat) (rejoin : Bool) (chair_idx : Int)
  | join_room_failure_rsp (result : JoinRoomFailureResult) (room_id : Nat)
  | room_occupants_info_ind (room_id : Nat) (players : List OccupantInfo)
  | room_stage_ind (stage : Stage) (round_info : Option RoundInfo)
  | public_state_ind
  | room_chairs_deck_info_ind (chairs : List Nat)
  | booster_draft_state_ind
  | room_error_ind
  deriving DecidableEq, Repr

/-- What the room does towards the outside, in order: messages sent on a
connection, signals emitted, and calls to the humans (attaching and detaching
their connection, sending their inventory and current pack) and to the draft
engine. -/
inductive Action
  | sendProtoMsg (clientConnection : ClientConnection) (msg : ServerToClientMsg)
  | roomExpired
  | playerCountChanged
  | setClientConnection (human : HumanPlayer) (clientConnection : ClientConnection)
  | removeClientConnection (human : HumanPlayer)
  | addObserver (player : Player)
  | removeObserver (player : Player)
  | sendInventoryToClient (human : HumanPlayer) (clientConnection : ClientConnection)
  | sendCurrentPackToClient (human : HumanPlayer) (clientConnection : ClientConnection)
  | draftStart
  | draftTick
  | roomError
  deriving DecidableEq, Repr

/-- Modelled from the spec: the draft engine (`DraftType`) is not part of the
sources; the room reads its state and its current round, and `start()` sets the
state to RUNNING. -/
structure Draft where
  state : DraftState
  currentRound : Nat
  deriving DecidableEq, Repr

/-- Modelled from the spec: `start()` of the draft engine, which is not part of the
sources; valid only in NEW, it sets the state to RUNNING and begins round 0. -/
def Draft.start (d : Draft) : Draft :=
  match d.state with
  | DraftState.STATE_NEW => { state := DraftState.STATE_RUNNING, currentRound := 0 }
  | _ => d

/-- State of a `ServerRoom`. A timer is `some ms` while it runs with interval `ms`
and `none` while it is stopped. `nextHumanId` is the identity the next allocated
`HumanPlayer` gets. -/
structure ServerRoom where
  mRoomId : Nat
  mPassword : String
  mChairCount : Nat
  mBotPlayerCount : Nat
  mDraftComplete : Bool
  mPublicStatePresent : Bool
  mPostRoundTimerActive : Bool
  mPostRoundTimerTicksRemaining : Int
  mPlayerList : List (Option Player)
  mChairStateList : List ChairState
  mHumanList : List HumanPlayer
  mBotList : List BotPlayer
  mClientConnectionMap : List (ClientConnection × HumanPlayer)
  mRoomExpirationTimer : Option Nat
  mDraftTimer : Option Nat
  mDraft : Draft
  nextHumanId : Nat
  log : List Action
  deriving DecidableEq, Repr

/-- Result of `join`: the room afterwards, the returned flag and the value of the
output parameter `chairIndex`. -/
structure JoinResult where
  room : ServerRoom
  result : Bool
  chairIndex : Int
  deriving DecidableEq, Repr

/-- Seconds until a created room that nobody joined expires. -/
def CREATED_ROOM_EXPIRATION_SECONDS : Nat := 10

/-- Seconds until a room that all connections have left expires. -/
def ABANDONED_ROOM_EXPIRATION_SECONDS : Nat := 120

/-! ## The connection map -/

/-- Insertion into the connection map (`QMap::insert`): keys are kept in
ascending order and the value of an existing key is replaced. -/
def mapInsert (k : ClientConnection) (v : HumanPlayer) :
    List (ClientConnection × HumanPlayer) → List (ClientConnection × HumanPlayer)
  | [] => [(k, v)]
  | (k1, v1) :: rest =>
    if k < k1 then (k, v) :: (k1, v1) :: rest
    else if k = k1 then (k, v) :: rest
    else (k1, v1) :: mapInsert k v rest

/-- Lookup in the connection map (`QMap::find`). -/
def mapFind (k : ClientConnection) :
    List (ClientConnection × HumanPlayer) → Option HumanPlayer
  | [] => none
  | (k1, v1) :: rest => if k = k1 then some v1 else mapFind k rest

/-- Removal from the connection map (`QMap::remove`). -/
def mapRemove (k : ClientConnection) (m : List (ClientConnection × HumanPlayer)) :
    List (ClientConnection × HumanPlayer) :=
  m.filter (fun e => decide (e.1 ≠ k))

/-- Keys of the connection map (`QMap::keys`). -/
def mapKeys (m : List (ClientConnection × HumanPlayer)) : List ClientConnection :=
  m.map Prod.fst

/-! ## Operations of the room -/

/-- Index of the first element satisfying `p`, counted from `i`, or -1
(`QList::indexOf`). -/
def indexOfFrom {α : Type} (p : α → Bool) : List α → Nat → Int
  | [], _ => -1
  | x :: xs, i => if p x then (i : Int) else indexOfFrom p xs (i + 1)

/-- Embedding of `ServerRoom::getNextAvailablePlayerIndex`: the first null entry
of `mPlayerList`. -/
def ServerRoom.getNextAvailablePlayerIndex (s : ServerRoom) : Int :=
  indexOfFrom (fun p : Option Player => p.isNone) s.mPlayerList 0

/-- Embedding of `ServerRoom::getHumanPlayer`: the first human of that name. -/
def ServerRoom.getHumanPlayer (s : ServerRoom) (name : String) : Option HumanPlayer :=
  s.mHumanList.find? (fun human => human.name == name)

/-- Appends actions to the log. -/
def ServerRoom.emit (s : ServerRoom) (actions : List Action) : ServerRoom :=
  { s with log := s.log ++ actions }

/-- Embedding of `ServerRoom::sendJoinRoomSuccessRspInd`. -/
def ServerRoom.sendJoinRoomSuccessRspInd (s : ServerRoom) (clientConnection : ClientConnection)
    (roomId : Nat) (rejoin : Bool) (chairIndex : Int) : ServerRoom :=
  s.emit [Action.sendProtoMsg clientConnection
    (ServerToClientMsg.join_room_success_rspind roomId rejoin chairIndex)]

/-- Embedding of `ServerRoom::sendJoinRoomFailureRsp`. -/
def ServerRoom.sendJoinRoomFailureRsp (s : ServerRoom) (clientConnection : ClientConnection)
    (result : JoinRoomFailureResult) (roomId : Nat) : ServerRoom :=
  s.emit [Action.sendProtoMsg clientConnection
    (ServerToClientMsg.join_room_failure_rsp result roomId)]

/-- State reported for a chair in `RoomOccupantsInfoInd`; none for EMPTY, which
the source logs as unexpected. -/
def occupantState : ChairState → Option OccupantState
  | ChairState.CHAIR_STATE_STANDBY => some OccupantState.STATE_STANDBY
  | ChairState.CHAIR_STATE_READY => some OccupantState.STATE_READY
  | ChairState.CHAIR_STATE_ACTIVE => some OccupantState.STATE_ACTIVE
  | ChairState.CHAIR_STATE_DEPARTED => some OccupantState.STATE_DEPARTED
  | ChairState.CHAIR_STATE_EMPTY => none

/-- Player entries of `RoomOccupantsInfoInd`, for the chairs from number `i` on:
one entry per non-null player. -/
def occupantInfos (botList : List BotPlayer) :
    List (Option Player) → List ChairState → Nat → List OccupantInfo
  | [], _, _ => []
  | none :: players, states, i => occupantInfos botList players states.tail (i + 1)
  | some p :: players, states, i =>
    { chair_index := i
      player := p
      is_bot := (match p with
        | Player.bot b => botList.contains b
        | Player.human _ => false)
      state := (match states.head? with
        | some st => occupantState st
        | none => none) } :: occupantInfos botList players states.tail (i + 1)

/-- Embedding of `ServerRoom::broadcastRoomOccupantsInfo`: one message, sent to
every connection of the map. -/
def ServerRoom.broadcastRoomOccupantsInfo (s : ServerRoom) : ServerRoom :=
  let msg := ServerToClientMsg.room_occupants_info_ind s.mRoomId
    (occupantInfos s.mBotList s.mPlayerList s.mChairStateList 0)
  s.emit ((mapKeys s.mClientConnectionMap).map (fun c => Action.sendProtoMsg c msg))

/-- Embedding of `ServerRoom::sendPublicState`. -/
def ServerRoom.sendPublicState (s : ServerRoom) (clientConnections : List ClientConnection) :
    ServerRoom :=
  if !s.mPublicStatePresent then s
  else s.emit (clientConnections.map
    (fun c => Action.sendProtoMsg c ServerToClientMsg.public_state_ind))

/-- The `RoomStageInd` that `rejoin` assembles from the state of the draft. -/
def ServerRoom.roomStageInd (s : ServerRoom) : ServerToClientMsg :=
  match s.mDraft.state with
  | DraftState.STATE_NEW => ServerToClientMsg.room_stage_ind Stage.STAGE_NEW none
  | DraftState.STATE_RUNNING =>
    ServerToClientMsg.room_stage_ind Stage.STAGE_RUNNING
      (some { round := s.mDraft.currentRound
              post_round_ticks_remaining :=
                if s.mPostRoundTimerActive then some s.mPostRoundTimerTicksRemaining
                else none })
  | DraftState.STATE_COMPLETE => ServerToClientMsg.room_stage_ind Stage.STAGE_COMPLETE none

/-- Embedding of `ServerRoom::rejoin` (source lines 248-355). -/
def ServerRoom.rejoin (s : ServerRoom) (clientConnection : ClientConnection) (name : String) :
    ServerRoom × Bool :=
  match s.getHumanPlayer name with
  | none => (s, false)
  | some humanPlayer =>
    let chairIndex := humanPlayer.chairIndex
    if s.mChairStateList[chairIndex]? ≠ some ChairState.CHAIR_STATE_DEPARTED then (s, false)
    else
      let s1 := { s with
        mClientConnectionMap := mapInsert clientConnection humanPlayer s.mClientConnectionMap
        mChairStateList := s.mChairStateList.set chairIndex ChairState.CHAIR_STATE_ACTIVE
        mRoomExpirationTimer := none }
      let s2 := (s1.emit [Action.setClientConnection humanPlayer clientConnection]
        ).sendJoinRoomSuccessRspInd clientConnection s1.mRoomId true (chairIndex : Int)
      let s3 := s2.emit [Action.playerCountChanged]
      let s4 := s3.broadcastRoomOccupantsInfo
      let s5 := s4.emit [Action.sendInventoryToClient humanPlayer clientConnection]
      let s6 := s5.emit [Action.sendProtoMsg clientConnection s5.roomStageInd]
      let s7 :=
        if s6.mDraft.state = DraftState.STATE_RUNNING then
          (s6.emit [Action.sendCurrentPackToClient humanPlayer clientConnection]).sendPublicState
            [clientConnection]
        else s6
      let s8 :=
        if s7.mDraft.state = DraftState.STATE_COMPLETE then
          s7.emit [Action.sendProtoMsg clientConnection
            (ServerToClientMsg.room_chairs_deck_info_ind
              (s7.mHumanList.map HumanPlayer.chairIndex))]
        else s7
      (s8, true)

/-- Embedding of `ServerRoom::join` (source lines 127-185); `chairIndex` is the
value the output variable of the caller holds before the call. -/
def ServerRoom.join (s : ServerRoom) (clientConnection : ClientConnection)
    (name password : String) (chairIndex : Int) : JoinResult :=
  match s.getHumanPlayer name with
  | some _ =>
    let r := s.rejoin clientConnection name
    { room := r.1, result := r.2, chairIndex := chairIndex }
  | none =>
    if !s.mPassword.isEmpty && password != s.mPassword then
      { room := s.sendJoinRoomFailureRsp clientConnection
          JoinRoomFailureResult.RESULT_INVALID_PASSWORD s.mRoomId
        result := false, chairIndex := chairIndex }
    else
      let playerIdx := s.getNextAvailablePlayerIndex
      if playerIdx = -1 then
        { room := s.sendJoinRoomFailureRsp clientConnection
            JoinRoomFailureResult.RESULT_ROOM_FULL s.mRoomId
          result := false, chairIndex := chairIndex }
      else
        let human : HumanPlayer :=
          { id := s.nextHumanId, name := name, chairIndex := playerIdx.toNat }
        let s1 := { s with
          nextHumanId := s.nextHumanId + 1
          mClientConnectionMap := mapInsert clientConnection human s.mClientConnectionMap
          mHumanList := s.mHumanList ++ [human]
          mPlayerList := s.mPlayerList.set playerIdx.toNat (some (Player.human human))
          mChairStateList :=
            s.mChairStateList.set playerIdx.toNat ChairState.CHAIR_STATE_STANDBY
          mRoomExpirationTimer := none }
        let s2 := s1.emit [Action.setClientConnection human clientConnection,
          Action.addObserver (Player.human human)]
        let s3 := s2.sendJoinRoomSuccessRspInd clientConnection s2.mRoomId false playerIdx
        let s4 := s3.emit [Action.playerCountChanged]
        { room := s4.broadcastRoomOccupantsInfo, result := true, chairIndex := playerIdx }

/-- Embedding of `ServerRoom::leave` (source lines 188-245). -/
def ServerRoom.leave (s : ServerRoom) (clientConnection : ClientConnection) : ServerRoom :=
  match mapFind clientConnection s.mClientConnectionMap with
  | none => s
  | some human =>
    let chairIndex := human.chairIndex
    let s1 := { s.emit [Action.removeClientConnection human] with
      mClientConnectionMap := mapRemove clientConnection s.mClientConnectionMap }
    let s2 :=
      if s1.mChairStateList[chairIndex]? = some ChairState.CHAIR_STATE_ACTIVE then
        let s3 := { s1 with
          mChairStateList :=
            s1.mChairStateList.set chairIndex ChairState.CHAIR_STATE_DEPARTED }
        if s3.mClientConnectionMap.isEmpty then
          { s3 with mRoomExpirationTimer := some (ABANDONED_ROOM_EXPIRATION_SECONDS * 1000) }
        else s3
      else
        let s3 := { s1.emit [Action.removeObserver (Player.human human)] with
          mHumanList := s1.mHumanList.erase human
          mPlayerList := s1.mPlayerList.set chairIndex none
          mChairStateList := s1.mChairStateList.set chairIndex ChairState.CHAIR_STATE_EMPTY }
        if s3.mClientConnectionMap.isEmpty then s3.emit [Action.roomExpired] else s3
    (s2.emit [Action.playerCountChanged]).broadcastRoomOccupantsInfo

/-- Embedding of `ServerRoom::handleHumanReadyUpdate` (source lines 579-631) for
the human that sent the signal. -/
def ServerRoom.handleHumanReadyUpdate (s : ServerRoom) (human : HumanPlayer) (ready : Bool) :
    ServerRoom :=
  let chairIndex := human.chairIndex
  let state := s.mChairStateList[chairIndex]?
  if state = some ChairState.CHAIR_STATE_READY ∧ ready = false then
    { s with mChairStateList := s.mChairStateList.set chairIndex ChairState.CHAIR_STATE_STANDBY
      }.broadcastRoomOccupantsInfo
  else if state = some ChairState.CHAIR_STATE_STANDBY ∧ ready = true then
    let s1 := { s with
      mChairStateList := s.mChairStateList.set chairIndex ChairState.CHAIR_STATE_READY }
    let allChairsReady :=
      s1.mChairStateList.all (fun st => decide (st = ChairState.CHAIR_STATE_READY))
    if allChairsReady then
      let s2 := { s1 with
        mChairStateList := s1.mChairStateList.map (fun _ => ChairState.CHAIR_STATE_ACTIVE) }
      let s3 := s2.broadcastRoomOccupantsInfo
      { s3.emit [Action.draftStart] with
        mDraftTimer := some 1000
        mDraft := s3.mDraft.start }
    else s1.broadcastRoomOccupantsInfo
  else s.broadcastRoomOccupantsInfo

/-- The room as the constructor of `ServerRoom` leaves it (source lines 16-40). -/
def ServerRoom.create (roomId : Nat) (password : String) (roomConfig : RoomConfig) :
    ServerRoom where
  mRoomId := roomId
  mPassword := password
  mChairCount := roomConfig.draft_config.chair_count
  mBotPlayerCount := roomConfig.bot_count
  mDraftComplete := false
  mPublicStatePresent := false
  mPostRoundTimerActive := false
  mPostRoundTimerTicksRemaining := 0
  mPlayerList := []
  mChairStateList := []
  mHumanList := []
  mBotList := []
  mClientConnectionMap := []
  mRoomExpirationTimer := none
  mDraftTimer := none
  mDraft := { state := DraftState.STATE_NEW, currentRound := 0 }
  nextHumanId := 0
  log := []

/-- Bot loop of `initialize` (source lines 82-103): `n` bots remain to be placed
and the next one goes to chair `chairIndex`. The `unsigned int` sum
`chairIndex + 2` is at most `mChairCount + 1`, and the loop before has appended
`mChairCount` entries to a `QList`, whose size is an `int`: it does not wrap. -/
def placeBots : Nat → Nat → ServerRoom → ServerRoom
  | 0, _, s => s
  | n + 1, chairIndex, s =>
    let bot : BotPlayer := { chairIndex := chairIndex }
    let s1 := { s with
      mBotList := s.mBotList ++ [bot]
      mPlayerList := s.mPlayerList.set chairIndex (some (Player.bot bot))
      mChairStateList := s.mChairStateList.set chairIndex ChairState.CHAIR_STATE_READY }
    let s2 := s1.emit [Action.addObserver (Player.bot bot)]
    let next := chairIndex + 2
    placeBots n (if next ≥ s.mChairCount then 1 else next) s2

/-- Embedding of `ServerRoom::initialize` (source lines 43-109). -/
def ServerRoom.initialize (s : ServerRoom) : ServerRoom :=
  if s.mChairCount ≤ 0 then s.emit [Action.roomExpired]
  else
    let s1 := { s with
      mPlayerList := s.mPlayerList ++ List.replicate s.mChairCount none
      mChairStateList :=
        s.mChairStateList ++ List.replicate s.mChairCount ChairState.CHAIR_STATE_EMPTY
      mRoomExpirationTimer := some (CREATED_ROOM_EXPIRATION_SECONDS * 1000) }
    let botPlayerCount := if s1.mBotPlayerCount > s1.mChairCount then s1.mChairCount
      else s1.mBotPlayerCount
    let s2 := placeBots botPlayerCount 0 s1
    if botPlayerCount > 0 then s2.emit [Action.playerCountChanged] else s2

/-- States of a room that are reachable from `initialize` by `join` (which
includes `rejoin`), `leave` and ready updates of the humans of the room. -/
inductive Reachable : ServerRoom → Prop
  | init (roomId : Nat) (password : String) (roomConfig : RoomConfig) :
    Reachable ( ServerRoom.initialize (ServerRoom.create roomId password roomConfig))
  | join (s : ServerRoom) (clientConnection : ClientConnection) (name password : String)
    (chairIndex : Int) :
    Reachable s → Reachable (s.join clientConnection name password chairIndex).room
  | leave (s : ServerRoom) (clientConnection : ClientConnection) :
    Reachable s → Reachable (s.leave clientConnection)
  | ready (s : ServerRoom) (human : HumanPlayer) (ready : Bool) :
    Reachable s → human ∈ s.mHumanList → Reachable (s.handleHumanReadyUpdate human ready)

/-- A room with two chairs, one bot and no password. -/
def sampleRoom : ServerRoom :=
  ServerRoom.initialize (ServerRoom.create 7 ""
    { bot_count := 1
      draft_config :=
        { chair_count := 2, rounds := [Round.booster_round [⟨0⟩]],
          dispensers := [⟨["10E"], none⟩], custom_card_lists := [] } })

/-- Null entries of the player list and EMPTY entries of the chair state list
are at the same indices, and the two lists have the same length. -/
def seatsConsistent (players : List (Option Player)) (chairs : List ChairState) : Prop :=
  players.length = chairs.length ∧
    ∀ i : Nat, players[i]? = some none ↔ chairs[i]? = some ChairState.CHAIR_STATE_EMPTY

/-- The seats of a room are consistent. -/
def ServerRoom.SeatsConsistent (s : ServerRoom) : Prop :=
  seatsConsistent s.mPlayerList s.mChairStateList

/-! ## Draft callbacks and timer tick of the room

The draft engine calls the room back through its observer interface. The engine
is not part of the sources: the callbacks it makes during a call, and what it
answers to the queries of the room, are inputs of the embedding. -/

/-- Sends one message to every connection of the map ("send the message to all
active client connections" in the source). -/
def ServerRoom.broadcast (s : ServerRoom) (msg : ServerToClientMsg) : ServerRoom :=
  s.emit ((mapKeys s.mClientConnectionMap).map (fun c => Action.sendProtoMsg c msg))

/-- Embedding of `ServerRoom::broadcastBoosterDraftState` (source lines 468-497): one
BoosterDraftStateInd, sent to every connection of the map. Its contents (pack
queue sizes and timer values per chair) are read from the draft engine and the
wall clock and are not modelled. -/
def ServerRoom.broadcastBoosterDraftState (s : ServerRoom) : ServerRoom :=
  s.broadcast ServerToClientMsg.booster_draft_state_ind

/-- Embedding of `ServerRoom::broadcastRoomChairsDeckInfo` (source lines 539-560): one
RoomChairsDeckInfoInd with the chair of the human and its deck hash (kept by the
human, not modelled), sent to every connection of the map. -/
def ServerRoom.broadcastRoomChairsDeckInfo (s : ServerRoom) (human : HumanPlayer) :
    ServerRoom :=
  s.broadcast (ServerToClientMsg.room_chairs_deck_info_ind [human.chairIndex])

/-- Embedding of `ServerRoom::handleHumanDeckUpdate` (source lines 634-648) for the
human that sent the signal. -/
def ServerRoom.handleHumanDeckUpdate (s : ServerRoom) (human : HumanPlayer) : ServerRoom :=
  if s.mDraftComplete then s.broadcastRoomChairsDeckInfo human else s

/-- Embedding of `ServerRoom::notifyPackQueueSizeChanged` (source lines 651-657). -/
def ServerRoom.notifyPackQueueSizeChanged (s : ServerRoom) (_chairIndex _packQueueSize : Int) :
    ServerRoom :=
  s.broadcastBoosterDraftState

/-- Embedding of `ServerRoom::notifyPublicState` (source lines 660-672); the pack id,
card states and active chair it stores are not modelled. -/
def ServerRoom.notifyPublicState (s : ServerRoom) : ServerRoom :=
  let s1 := { s with mPublicStatePresent := true }
  s1.sendPublicState (mapKeys s1.mClientConnectionMap)

/-- Embedding of `ServerRoom::notifyPostRoundTimerStarted` (source lines 675-709). -/
def ServerRoom.notifyPostRoundTimerStarted (s : ServerRoom) (roundIndex : Nat)
    (ticksRemaining : Int) : ServerRoom :=
  let s1 := { s with
    mPostRoundTimerActive := true
    mPostRoundTimerTicksRemaining := ticksRemaining }
  if ticksRemaining ≤ 0 then s1
  else s1.broadcast (ServerToClientMsg.room_stage_ind Stage.STAGE_RUNNING
    (some { round := roundIndex, post_round_ticks_remaining := some ticksRemaining }))

/-- Embedding of `ServerRoom::notifyNewRound` (source lines 712-736). -/
def ServerRoom.notifyNewRound (s : ServerRoom) (roundIndex : Nat) : ServerRoom :=
  let s1 := { s with mPublicStatePresent := false, mPostRoundTimerActive := false }
  s1.broadcast (ServerToClientMsg.room_stage_ind Stage.STAGE_RUNNING
    (some { round := roundIndex, post_round_ticks_remaining := none }))

/-- Embedding of `ServerRoom::notifyDraftComplete` (source lines 739-772): the tick
timer is stopped, the completion flag set, STAGE_COMPLETE broadcast, and the deck
information of every human broadcast. -/
def ServerRoom.notifyDraftComplete (s : ServerRoom) : ServerRoom :=
  let s1 := { s with
    mDraftTimer := none
    mPostRoundTimerActive := false
    mDraftComplete := true }
  let s2 := s1.broadcast (ServerToClientMsg.room_stage_ind Stage.STAGE_COMPLETE none)
  s2.mHumanList.foldl (fun acc human => acc.broadcastRoomChairsDeckInfo human) s2

/-- Embedding of `ServerRoom::notifyDraftError` (source lines 775-792). -/
def ServerRoom.notifyDraftError (s : ServerRoom) : ServerRoom :=
  (s.broadcast ServerToClientMsg.room_error_ind).emit [Action.roomError]

/-- Callbacks the draft engine makes to the room. -/
inductive DraftEvent
  | packQueueSizeChanged (chairIndex packQueueSize : Int)
  | publicState
  | postRoundTimerStarted (roundIndex : Nat) (ticksRemaining : Int)
  | newRound (roundIndex : Nat)
  | draftComplete
  | draftError
  deriving DecidableEq, Repr

/-- Modelled from the spec: the state the draft engine, which is not part of the
sources, is in when it makes a callback. It sets its state to COMPLETE before it
reports completion, sets its current round before it reports a new round, and its
state only advances. -/
def Draft.after (d : Draft) : DraftEvent → Draft
  | DraftEvent.newRound roundIndex => { d with currentRound := roundIndex }
  | DraftEvent.draftComplete => { d with state := DraftState.STATE_COMPLETE }
  | _ => d

/-- One callback of the draft engine: the engine is in the state `Draft.after`
and the room runs the handler of the callback. -/
def ServerRoom.notify (s : ServerRoom) (e : DraftEvent) : ServerRoom :=
  let s1 := { s with mDraft := s.mDraft.after e }
  match e with
  | DraftEvent.packQueueSizeChanged chairIndex packQueueSize =>
    s1.notifyPackQueueSizeChanged chairIndex packQueueSize
  | DraftEvent.publicState => s1.notifyPublicState
  | DraftEvent.postRoundTimerStarted roundIndex ticksRemaining =>
    s1.notifyPostRoundTimerStarted roundIndex ticksRemaining
  | DraftEvent.newRound roundIndex => s1.notifyNewRound roundIndex
  | DraftEvent.draftComplete => s1.notifyDraftComplete
  | DraftEvent.draftError => s1.notifyDraftError

/-- Embedding of `ServerRoom::handleDraftTimerTick` (source lines 563-576). `events`
are the callbacks the engine makes during `tick()` and `isBoosterRound` is what
the engine answers afterwards. -/
def ServerRoom.handleDraftTimerTick (s : ServerRoom) (events : List DraftEvent)
    (isBoosterRound : Bool) : ServerRoom :=
  let s1 :=
    if s.mPostRoundTimerActive then
      { s with mPostRoundTimerTicksRemaining := s.mPostRoundTimerTicksRemaining - 1 }
    else s
  let s2 := events.foldl ServerRoom.notify (s1.emit [Action.draftTick])
  if s2.mDraft.state = DraftState.STATE_RUNNING ∧ isBoosterRound = true then
    s2.broadcastBoosterDraftState
  else s2

/-- States of a room that are reachable from `initialize` by `join`, `leave`,
ready updates and deck updates of its humans, callbacks of the draft engine and
ticks of the draft timer. -/
inductive ReachableWithDraft : ServerRoom → Prop
  | init (roomId : Nat) (password : String) (roomConfig : RoomConfig) :
    ReachableWithDraft ( ServerRoom.initialize (ServerRoom.create roomId password roomConfig))
  | join (s : ServerRoom) (clientConnection : ClientConnection) (name password : String)
    (chairIndex : Int) :
    ReachableWithDraft s →
      ReachableWithDraft (s.join clientConnection name password chairIndex).room
  | leave (s : ServerRoom) (clientConnection : ClientConnection) :
    ReachableWithDraft s → ReachableWithDraft (s.leave clientConnection)
  | ready (s : ServerRoom) (human : HumanPlayer) (ready : Bool) :
    ReachableWithDraft s → human ∈ s.mHumanList →
      ReachableWithDraft (s.handleHumanReadyUpdate human ready)
  | deckUpdate (s : ServerRoom) (human : HumanPlayer) :
    ReachableWithDraft s → human ∈ s.mHumanList →
      ReachableWithDraft (s.handleHumanDeckUpdate human)
  | notify (s : ServerRoom) (e : DraftEvent) :
    ReachableWithDraft s → ReachableWithDraft (s.notify e)
  | tick (s : ServerRoom) (events : List DraftEvent) (isBoosterRound : Bool) :
    ReachableWithDraft s → ReachableWithDraft (s.handleDraftTimerTick events isBoosterRound)

/-- A room with one chair, no bot and the password `secret`. -/
def lockedRoom : ServerRoom :=
  ServerRoom.initialize (ServerRoom.create 3 "secret"
    { bot_count := 0
      draft_config :=
        { chair_count := 1, rounds := [Round.booster_round [⟨0⟩]],
          dispensers := [⟨["10E"], none⟩], custom_card_lists := [] } })

/-- The sample room after `alice` has joined on connection 5. -/
def roomWithAlice : ServerRoom := (sampleRoom.join 5 "alice" "" 0).room

/-- The sample room after `alice` has joined and declared herself ready: the draft
has started. -/
def runningRoom : ServerRoom :=
  roomWithAlice.handleHumanReadyUpdate { id := 0, name := "alice", chairIndex := 1 } true

/-- The running sample room after the connection of `alice` has left. -/
def departedRoom : ServerRoom := runningRoom.leave 5

/-- A room with three chairs, one bot and no password, after `alice` has joined on
connection 5: chair 2 is EMPTY. -/
def threeChairRoom : ServerRoom :=
  (ServerRoom.join ( ServerRoom.initialize (ServerRoom.create 8 ""
    { bot_count := 1
      draft_config :=
        { chair_count := 3, rounds := [Round.booster_round [⟨0⟩]],
          dispensers := [⟨["10E"], none⟩], custom_card_lists := [] } })) 5 "alice" "" 0).room

/-- Invariant of the reachable states of a room: the seats are consistent; no two
humans of the roster have the same name; every human of the roster is the player
of its chair; the connection map holds humans of the roster, each at most once,
and none whose chair is DEPARTED; once the draft engine has been started every
chair is ACTIVE or DEPARTED; the engine has been started at most once; and while a
human is in the roster some chair is not READY. -/
structure RoomInv (s : ServerRoom) : Prop where
  seats : s.SeatsConsistent
  names : (s.mHumanList.map HumanPlayer.name).Nodup
  chairs : ∀ h ∈ s.mHumanList, s.mPlayerList[h.chairIndex]? = some (some (Player.human h))
  mapped : ∀ e ∈ s.mClientConnectionMap, e.2 ∈ s.mHumanList
  once : (s.mClientConnectionMap.map Prod.snd).Nodup
  connected : ∀ e ∈ s.mClientConnectionMap,
    s.mChairStateList[e.2.chairIndex]? ≠ some ChairState.CHAIR_STATE_DEPARTED
  started : Action.draftStart ∈ s.log → ∀ st ∈ s.mChairStateList,
    st = ChairState.CHAIR_STATE_ACTIVE ∨ st = ChairState.CHAIR_STATE_DEPARTED
  startedOnce : s.log.count Action.draftStart ≤ 1
  waiting : s.mHumanList ≠ [] →
    s.mChairStateList.all (fun st => decide (st = ChairState.CHAIR_STATE_READY)) = false

/-- What a draft callback, a tick of the draft timer or a deck update leaves alone
when it takes the room `s` to the room `t`: the seats, the roster and the
connection map. It never resets the completion flag, it reaches the state COMPLETE
of the engine only with the flag set, it does not start the engine, and it sends a
RoomChairsDeckInfoInd only with the flag set. -/
structure DraftFrame (s t : ServerRoom) : Prop where
  players : t.mPlayerList = s.mPlayerList
  chairs : t.mChairStateList = s.mChairStateList
  humans : t.mHumanList = s.mHumanList
  map : t.mClientConnectionMap = s.mClientConnectionMap
  complete : s.mDraftComplete = true → t.mDraftComplete = true
  state : t.mDraft.state = DraftState.STATE_COMPLETE →
    s.mDraft.state = DraftState.STATE_COMPLETE ∨ t.mDraftComplete = true
  log : ∃ added, t.log = s.log ++ added ∧ Action.draftStart ∉ added ∧
    ∀ c l, Action.sendProtoMsg c (ServerToClientMsg.room_chairs_deck_info_ind l) ∈ added →
      t.mDraftComplete = true

/-- Invariant of the deck information: the engine is in the state COMPLETE only
once the room has been notified of the completion of the draft, and a
RoomChairsDeckInfoInd is in the log only then. -/
structure DeckInv (s : ServerRoom) : Prop where
  state : s.mDraft.state = DraftState.STATE_COMPLETE → s.mDraftComplete = true
  sent : ∀ c l, Action.sendProtoMsg c (ServerToClientMsg.room_chairs_deck_info_ind l) ∈ s.log →
    s.mDraftComplete = true

/-- Messages that reach a client. -/
inductive ClientMsg
  | proto (msg : ServerToClientMsg)
  | player_inventory_ind
  | player_current_pack_ind
  deriving DecidableEq, Repr

/-- Modelled from the spec: `HumanPlayer` is not part of the sources. The messages
that reach the connection `c`, in order, given the actions of the room:
`sendInventoryToClient` sends one PlayerInventoryInd on the connection of the
human, and `sendCurrentPackToClient` sends one PlayerCurrentPackInd when the human
has a current pack (`hasCurrentPack`) and nothing otherwise. -/
def messagesTo (hasCurrentPack : HumanPlayer → Bool) (c : ClientConnection) :
    List Action → List ClientMsg
  | [] => []
  | Action.sendProtoMsg c1 msg :: rest =>
    if c1 = c then ClientMsg.proto msg :: messagesTo hasCurrentPack c rest
    else messagesTo hasCurrentPack c rest
  | Action.sendInventoryToClient _ c1 :: rest =>
    if c1 = c then ClientMsg.player_inventory_ind :: messagesTo hasCurrentPack c rest
    else messagesTo hasCurrentPack c rest
  | Action.sendCurrentPackToClient human c1 :: rest =>
    if c1 = c ∧ hasCurrentPack human = true then
      ClientMsg.player_current_pack_ind :: messagesTo hasCurrentPack c rest
    else messagesTo hasCurrentPack c rest
  | _ :: rest => messagesTo hasCurrentPack c rest

/-- The running sample room after the draft engine has reported completion. -/
def completeRoom : ServerRoom := runningRoom.notify DraftEvent.draftComplete

/-! ## The custom card list dispenser -/

/-- A configuration with two custom card lists of one entry each: list number 1
has no entry number 1. -/
def twoSingletonListsConfig : RoomConfig :=
  customListModelConfig.withCustomCardLists [⟨[⟨1⟩]⟩, ⟨[⟨1⟩]⟩]

/-- Modelled from the spec: `CustomCardListDispenser` is not part of the sources
(only its test is). The expanded pool of a custom card list holds every entry, here
by its number in the list from `i` on, as many times as its quantity. -/
def expandedPool : List CardQuantity → Nat → List Nat
  | [], _ => []
  | cq :: rest, i => List.replicate cq.quantity i ++ expandedPool rest (i + 1)

/-- Modelled from the spec: the dispenser built from a custom card list, which
precomputes the expanded pool. -/
structure CustomCardListDispenser where
  pool : List Nat
  deriving DecidableEq, Repr

/-- Modelled from the spec: construction of a `CustomCardListDispenser` from a
custom card list. -/
def CustomCardListDispenser.create (ccl : CustomCardList) : CustomCardListDispenser :=
  { pool := expandedPool ccl.card_quantities 0 }

/-- Modelled from the spec: `isValid()`; the construction is rejected when the
expanded pool is empty. -/
def CustomCardListDispenser.isValid (d : CustomCardListDispenser) : Bool :=
  !d.pool.isEmpty

/-- Modelled from the spec: `getPoolSize()`, the size of the expanded pool. -/
def CustomCardListDispenser.getPoolSize (d : CustomCardListDispenser) : Nat :=
  d.pool.length

/-! ## Framing of the client

`Client::sendProtoMsg` and `Client::readFromServer` (`src/client/client.cpp`).
The serialized message is a list of bytes; `qCompress` and `qUncompress` (zlib,
through Qt) are external to the sources and are parameters; the socket is what
the block is written to and what the bytes available are read from. -/

/-- A byte of a frame. -/
abbrev Byte := Fin 256

/-- The payload `sendProtoMsg` chooses, in the words of the specification: the
compressed bytes when they are strictly shorter than the raw bytes, otherwise the
raw bytes. -/
def chosenPayload (qCompress : List Byte → List Byte) (raw : List Byte) : List Byte :=
  if (qCompress raw).length < raw.length then qCompress raw else raw

/-- Embedding of `Client::sendProtoMsg` (source lines 1734-1783) for the serialized
message `msgByteArray`: the block it passes to `QTcpSocket::write`, or `none` when
it returns false without writing. The header is a `quint16`, written big-endian by
`QDataStream`. -/
def sendProtoMsg (qCompress : List Byte → List Byte) (msgByteArray : List Byte) :
    Option (List Byte) :=
  let protoSize := msgByteArray.length
  let compressedMsgByteArray := qCompress msgByteArray
  let compressed : Bool := decide (compressedMsgByteArray.length < protoSize)
  let header : Nat := if compressed then 0x0000 ||| 0x8000 else 0x0000
  let payloadMsgByteArray := if compressed then compressedMsgByteArray else msgByteArray
  let payloadSize := payloadMsgByteArray.length
  if payloadSize > 0x7FFF then none
  else
    let header := (header ||| payloadSize) % 65536
    some (Fin.ofNat (header / 256) :: Fin.ofNat (header % 256) :: payloadMsgByteArray)

/-- State of the reader: the member `mIncomingMsgHeader`, the bytes available on
the socket, and the byte arrays handed to `ParseFromArray` so far, in order. -/
structure ReadState where
  mIncomingMsgHeader : Nat
  available : List Byte
  parsed : List (List Byte)
  deriving DecidableEq, Repr

/-- A `quint16` read big-endian from the first two bytes (`in >> mIncomingMsgHeader`). -/
def readUInt16 : List Byte → Nat
  | b0 :: b1 :: _ => b0.val * 256 + b1.val
  | _ => 0

/-- The `while` loop of `Client::readFromServer` (source lines 614-661), at most
`fuel` iterations of it. -/
def readLoop (qUncompress : List Byte → List Byte) : Nat → ReadState → ReadState
  | 0, st => st
  | fuel + 1, st =>
    if st.available.length = 0 then st
    else if st.mIncomingMsgHeader = 0 ∧ st.available.length < 2 then st
    else
      let header :=
        if st.mIncomingMsgHeader = 0 then readUInt16 st.available else st.mIncomingMsgHeader
      let avail := if st.mIncomingMsgHeader = 0 then st.available.drop 2 else st.available
      let msgCompressed : Bool := decide (header &&& 0x8000 ≠ 0)
      let msgSize := header &&& 0x7FFF
      if avail.length < msgSize then
        { st with mIncomingMsgHeader := header, available := avail }
      else
        let msgByteArray := avail.take msgSize
        let msgByteArray := if msgCompressed then qUncompress msgByteArray else msgByteArray
        readLoop qUncompress fuel
          { mIncomingMsgHeader := 0
            available := avail.drop msgSize
            parsed := st.parsed ++ [msgByteArray] }

/-- Embedding of `Client::readFromServer`. An iteration that does not return takes
two bytes or more off the socket, or finds a header kept by an earlier call, which
only the first iteration can: as many iterations as there are bytes, and one, are
enough. -/
def readFromServer (qUncompress : List Byte → List Byte) (st : ReadState) : ReadState :=
  readLoop qUncompress (st.available.length + 1) st

/-- A toy compressor for examples: it shortens the four zero bytes to one byte and
makes every other message one byte longer. -/
def toyCompress (x : List Byte) : List Byte :=
  if x = [0, 0, 0, 0] then [1] else 0 :: x

/-- The inverse of `toyCompress`. -/
def toyUncompress : List Byte → List Byte
  | 0 :: x => x
  | _ => [0, 0, 0, 0]

/-! ## Inventory of the client

`Client::processMessageFromServer( const proto::PlayerInventoryInd& )` and
`Client::handleBasicLandQuantitiesUpdate` (`src/client/client.cpp`). The
enumerations of zones and basic lands, their conversions between the protobuf
and the local form, the arrays `gInventoryZoneArray` and `gBasicLandTypeArray`,
and the card data classes are not part of the sources: the embedding has one type
for a zone and one for a basic land type, in both forms, takes the two arrays as
parameters, and holds a card by its name and its set code. -/

/-- Modelled from the spec: the zones of the cards of a client; the enumeration
`CardZoneType` is not part of the sources. -/
inductive CardZoneType
  | CARD_ZONE_DRAFT
  | CARD_ZONE_AUTO
  | CARD_ZONE_MAIN
  | CARD_ZONE_SIDEBOARD
  | CARD_ZONE_JUNK
  deriving DecidableEq, Repr

/-- Modelled from the spec: the basic land types; the enumeration `BasicLandType`
is not part of the sources. -/
inductive BasicLandType
  | BASIC_LAND_PLAINS
  | BASIC_LAND_ISLAND
  | BASIC_LAND_SWAMP
  | BASIC_LAND_MOUNTAIN
  | BASIC_LAND_FOREST
  deriving DecidableEq, Repr

/-- Modelled from the spec: `SimpleCardData`, which is not part of the sources: a
card by its name and its set code. The local card lists hold `CardData` objects,
of which the code reads the name and the set code, and `createCardData` gives an
object with the set code and the name asked for. -/
structure SimpleCardData where
  name : String
  setCode : String
  deriving DecidableEq, Repr

/-- Entry `DraftedCard` of `PlayerInventoryInd`. -/
structure DraftedCard where
  card : SimpleCardData
  zone : CardZoneType
  deriving DecidableEq, Repr

/-- Entry `BasicLandQuantity` of `PlayerInventoryInd`. -/
structure BasicLandQuantity where
  basic_land : BasicLandType
  zone : CardZoneType
  quantity : Int
  deriving DecidableEq, Repr

/-- Message `PlayerInventoryInd`. -/
structure PlayerInventoryInd where
  drafted_cards : List DraftedCard
  basic_land_qtys : List BasicLandQuantity
  deriving DecidableEq, Repr

/-- Entry `BasicLandAdjustment` of `PlayerInventoryUpdateInd`. -/
structure BasicLandAdjustment where
  basic_land : BasicLandType
  zone : CardZoneType
  adjustment : Int
  deriving DecidableEq, Repr

/-- The inventory members of `Client`: the card list of every zone, the basic land
quantities of every zone (`BasicLandQuantities`, a quantity per basic land type)
and the flag of unsaved changes. -/
structure ClientInventory where
  mCardsList : CardZoneType → List SimpleCardData
  mBasicLandQtysMap : CardZoneType → BasicLandType → Int
  mUnsavedChanges : Bool

/-- Insertion of an element into a sorted list, in front of the first element that
is not less than it. -/
def insertSorted {α : Type} (lt : α → α → Bool) (x : α) : List α → List α
  | [] => [x]
  | y :: ys => if lt y x then y :: insertSorted lt x ys else x :: y :: ys

/-- The result of `std::sort` with the order `lt`: the sorted arrangement of the
list, computed here by insertion. -/
def stdSort {α : Type} (lt : α → α → Bool) : List α → List α
  | [] => []
  | x :: xs => insertSorted lt x (stdSort lt xs)

/-- The loop of `std::set_intersection` on two ranges, at most `fuel` iterations. -/
def setIntersectionLoop {α : Type} (lt : α → α → Bool) : Nat → List α → List α → List α
  | 0, _, _ => []
  | _ + 1, [], _ => []
  | _ + 1, _ :: _, [] => []
  | fuel + 1, a :: as, b :: bs =>
    if lt a b then setIntersectionLoop lt fuel as (b :: bs)
    else if lt b a then setIntersectionLoop lt fuel (a :: as) bs
    else a :: setIntersectionLoop lt fuel as bs

/-- The algorithm `std::set_intersection`: every iteration advances in one of the
two ranges, so that as many iterations as both have elements are enough. -/
def setIntersection {α : Type} (lt : α → α → Bool) (first second : List α) : List α :=
  setIntersectionLoop lt (first.length + second.length) first second

/-- The loop of `std::set_difference` on two ranges, at most `fuel` iterations. -/
def setDifferenceLoop {α : Type} (lt : α → α → Bool) : Nat → List α → List α → List α
  | 0, _, _ => []
  | _ + 1, [], _ => []
  | _ + 1, a :: as, [] => a :: as
  | fuel + 1, a :: as, b :: bs =>
    if lt a b then a :: setDifferenceLoop lt fuel as (b :: bs)
    else if lt b a then setDifferenceLoop lt fuel (a :: as) bs
    else setDifferenceLoop lt fuel as bs

/-- The algorithm `std::set_difference`. -/
def setDifference {α : Type} (lt : α → α → Bool) (first second : List α) : List α :=
  setDifferenceLoop lt (first.length + second.length) first second

/-- Body of the zone loop of `processMessageFromServer( PlayerInventoryInd )`
(source lines 1097-1159) on the card list of the zone: `cards` is the local list
and `after` the cards the indication lists for the zone; `lt` is the order
`operator<` of `SimpleCardData`. -/
def updateZoneCards (lt : SimpleCardData → SimpleCardData → Bool)
    (cards after : List SimpleCardData) : List SimpleCardData :=
  let beforeCardList := stdSort lt cards
  let afterCardList := stdSort lt after
  let intersectionCardList := setIntersection lt afterCardList beforeCardList
  let extraCardList := setDifference lt beforeCardList intersectionCardList
  let cards1 := extraCardList.foldl (fun l card => l.erase card) cards
  let newCardList := setDifference lt afterCardList intersectionCardList
  cards1 ++ newCardList

/-- The basic land quantities the indication gives for a zone (source lines
1168-1179), starting from quantities that are all zero. -/
def zoneBasicLandQtys (invZone : CardZoneType) :
    List BasicLandQuantity → (BasicLandType → Int) → (BasicLandType → Int)
  | [], qtys => qtys
  | q :: rest, qtys =>
    if q.zone = invZone then
      zoneBasicLandQtys invZone rest (Function.update qtys q.basic_land q.quantity)
    else zoneBasicLandQtys invZone rest qtys

/-- The cards the indication lists for a zone, in the order of the indication. -/
def PlayerInventoryInd.cardsOf (ind : PlayerInventoryInd) (invZone : CardZoneType) :
    List SimpleCardData :=
  (ind.drafted_cards.filter (fun d => decide (d.zone = invZone))).map DraftedCard.card

/-- One iteration of the zone loop, for the zone `invZone`. -/
def processInventoryZone (lt : SimpleCardData → SimpleCardData → Bool)
    (ind : PlayerInventoryInd) (inv : ClientInventory) (invZone : CardZoneType) :
    ClientInventory :=
  { inv with
    mCardsList := Function.update inv.mCardsList invZone
      (updateZoneCards lt (inv.mCardsList invZone) (ind.cardsOf invZone))
    mBasicLandQtysMap := Function.update inv.mBasicLandQtysMap invZone
      (zoneBasicLandQtys invZone ind.basic_land_qtys (fun _ => 0)) }

/-- Embedding of `Client::processMessageFromServer( const proto::PlayerInventoryInd& )`
(source lines 1085-1185). -/
def processPlayerInventoryInd (lt : SimpleCardData → SimpleCardData → Bool)
    (gInventoryZoneArray : List CardZoneType) (inv : ClientInventory)
    (ind : PlayerInventoryInd) : ClientInventory :=
  gInventoryZoneArray.foldl (processInventoryZone lt ind) inv

/-- The loop of `handleBasicLandQuantitiesUpdate` over the basic land types (source
lines 1511-1523): `ind` holds the adjustments added to the message so far, which
is declared before the loop, and `sent` the messages passed to `sendProtoMsg` so
far, each by its adjustments. -/
def sendBasicLandAdjustments (old qtys : BasicLandType → Int) (cardZone : CardZoneType) :
    List BasicLandType → List BasicLandAdjustment → List (List BasicLandAdjustment) →
      List (List BasicLandAdjustment)
  | [], _, sent => sent
  | basic :: rest, ind, sent =>
    let diff := qtys basic - old basic
    if diff ≠ 0 then
      sendBasicLandAdjustments old qtys cardZone rest
        (ind ++ [{ basic_land := basic, zone := cardZone, adjustment := diff }])
        (sent ++ [ind ++ [{ basic_land := basic, zone := cardZone, adjustment := diff }]])
    else sendBasicLandAdjustments old qtys cardZone rest ind sent

/-- Embedding of `Client::handleBasicLandQuantitiesUpdate` (source lines 1496-1531):
the inventory afterwards and the PlayerInventoryUpdateInd messages passed to
`sendProtoMsg`, in order; `connected` is whether the socket is in the connected
state. -/
def handleBasicLandQuantitiesUpdate (gBasicLandTypeArray : List BasicLandType)
    (connected : Bool) (inv : ClientInventory) (cardZone : CardZoneType)
    (qtys : BasicLandType → Int) : ClientInventory × List (List BasicLandAdjustment) :=
  ({ inv with
      mBasicLandQtysMap := Function.update inv.mBasicLandQtysMap cardZone qtys
      mUnsavedChanges := true },
    if connected then
      sendBasicLandAdjustments (inv.mBasicLandQtysMap cardZone) qtys cardZone
        gBasicLandTypeArray [] []
    else [])

/-- The adjustments of one basic land type, summed over all the messages. -/
def adjustmentSum (basic : BasicLandType) (sent : List (List BasicLandAdjustment)) : Int :=
  ((sent.flatten.filter (fun a => decide (a.basic_land = basic))).map
    BasicLandAdjustment.adjustment).sum

/-- An inventory with no cards and no basic lands. -/
def emptyInventory : ClientInventory where
  mCardsList := fun _ => []
  mBasicLandQtysMap := fun _ _ => 0
  mUnsavedChanges := false

/-- The basic land types in the order white, blue, black, red, green. -/
def sampleBasicLandTypes : List BasicLandType :=
  [BasicLandType.BASIC_LAND_PLAINS, BasicLandType.BASIC_LAND_ISLAND,
    BasicLandType.BASIC_LAND_SWAMP, BasicLandType.BASIC_LAND_MOUNTAIN,
    BasicLandType.BASIC_LAND_FOREST]

/-- Quantities of one plains and one island. -/
def plainsAndIsland : BasicLandType → Int
  | BasicLandType.BASIC_LAND_PLAINS => 1
  | BasicLandType.BASIC_LAND_ISLAND => 1
  | _ => 0

/-- The order `lt` is a strict total order: what `std::sort` and the set algorithms
require of `operator<`, with equivalent elements equal. -/
structure StrictTotal {α : Type} (lt : α → α → Bool) : Prop where
  irrefl : ∀ a, lt a a = false
  trans : ∀ a b c, lt a b = true → lt b c = true → lt a c = true
  total : ∀ a b, lt a b = false → lt b a = false → a = b

/-- The list is sorted by `lt`: no element is less than an earlier one. -/
def SortedBy {α : Type} (lt : α → α → Bool) (l : List α) : Prop :=
  l.Pairwise (fun a b => lt b a = false)

/-- An order of cards for examples: by name, then by set code, each compared
character by character. -/
def cardLt (a b : SimpleCardData) : Bool :=
  decide ((toLex (a.name.data, a.setCode.data) : Lex (List Char × List Char)) <
    toLex (b.name.data, b.setCode.data))

/-- An inventory with two cards in the main zone. -/
def sampleInventory : ClientInventory :=
  { emptyInventory with
    mCardsList := fun zone =>
      if zone = CardZoneType.CARD_ZONE_MAIN then [⟨"Bear", "TST"⟩, ⟨"Ape", "TST"⟩] else [] }

/-- An indication that lists, for the main zone, one of the two cards of
`sampleInventory` and another card twice, and one card for the sideboard. -/
def sampleInventoryInd : PlayerInventoryInd where
  drafted_cards :=
    [⟨⟨"Cat", "TST"⟩, CardZoneType.CARD_ZONE_MAIN⟩,
      ⟨⟨"Ape", "TST"⟩, CardZoneType.CARD_ZONE_MAIN⟩,
      ⟨⟨"Dog", "TST"⟩, CardZoneType.CARD_ZONE_SIDEBOARD⟩,
      ⟨⟨"Cat", "TST"⟩, CardZoneType.CARD_ZONE_MAIN⟩]
  basic_land_qtys := []

/-! ## Seats of the bots -/

/-- The chair of bot number `k` (from 0) in the words of the specification: the even
chairs 0, 2, 4, ... first, then the odd chairs 1, 3, ... -/
def botChair (chairCount k : Nat) : Nat :=
  if 2 * k < chairCount then 2 * k else 2 * (k - (chairCount + 1) / 2) + 1

/-- State of the bot loop of `initialize` once `k` bots are placed in a room of
`c` chairs: the bot list holds the bots of the chairs `botChair c 0`, ...,
`botChair c (k - 1)`, these chairs hold their bot and are READY, and every other
chair is null and EMPTY. -/
structure BotsPlaced (c k : Nat) (s : ServerRoom) : Prop where
  count : s.mChairCount = c
  players : s.mPlayerList.length = c
  chairs : s.mChairStateList.length = c
  bots : s.mBotList = (List.range k).map (fun j => ({ chairIndex := botChair c j } : BotPlayer))
  placed : ∀ j, j < k →
    s.mPlayerList[botChair c j]? = some (some (Player.bot { chairIndex := botChair c j })) ∧
    s.mChairStateList[botChair c j]? = some ChairState.CHAIR_STATE_READY
  others : ∀ (i : Nat) (p : Player), s.mPlayerList[i]? = some (some p) →
    ∃ j, j < k ∧ i = botChair c j
  states : ∀ st ∈ s.mChairStateList,
    st = ChairState.CHAIR_STATE_EMPTY ∨ st = ChairState.CHAIR_STATE_READY

/-- Invariant of the seats of a room: the player list has an entry per chair; every
bot of the bot list is the player of its chair, and once only in the list; every
player of a chair is a human of the roster or a bot of the bot list, and sits in
the chair it names; a bot chair is READY until the draft engine is started and
ACTIVE afterwards; and a DEPARTED chair holds a human. -/
structure SeatInv (s : ServerRoom) : Prop where
  length : s.mPlayerList.length = s.mChairCount
  bots : ∀ b ∈ s.mBotList, s.mPlayerList[b.chairIndex]? = some (some (Player.bot b))
  botsNodup : s.mBotList.Nodup
  humanAt : ∀ (i : Nat) (h : HumanPlayer), s.mPlayerList[i]? = some (some (Player.human h)) →
    h ∈ s.mHumanList ∧ h.chairIndex = i
  botAt : ∀ (i : Nat) (b : BotPlayer), s.mPlayerList[i]? = some (some (Player.bot b)) →
    b ∈ s.mBotList ∧ b.chairIndex = i
  botState : ∀ b ∈ s.mBotList,
    (Action.draftStart ∉ s.log →
      s.mChairStateList[b.chairIndex]? = some ChairState.CHAIR_STATE_READY) ∧
    (Action.draftStart ∈ s.log →
      s.mChairStateList[b.chairIndex]? = some ChairState.CHAIR_STATE_ACTIVE)
  departed : ∀ i : Nat, s.mChairStateList[i]? = some ChairState.CHAIR_STATE_DEPARTED →
    ∃ h, s.mPlayerList[i]? = some (some (Player.human h))

/-- States of a room that are reachable from the room `s0` by `join` (which
includes `rejoin`), `leave` and ready updates of the humans of the room. -/
inductive ReachableFrom (s0 : ServerRoom) : ServerRoom → Prop
  | start : ReachableFrom s0 s0
  | join (s : ServerRoom) (clientConnection : ClientConnection) (name password : String)
    (chairIndex : Int) :
    ReachableFrom s0 s → ReachableFrom s0 (s.join clientConnection name password chairIndex).room
  | leave (s : ServerRoom) (clientConnection : ClientConnection) :
    ReachableFrom s0 s → ReachableFrom s0 (s.leave clientConnection)
  | ready (s : ServerRoom) (human : HumanPlayer) (ready : Bool) :
    ReachableFrom s0 s → human ∈ s.mHumanList →
      ReachableFrom s0 (s.handleHumanReadyUpdate human ready)

/-- The configuration of a room with five chairs and four bots. -/
def fiveChairConfig : RoomConfig where
  bot_count := 4
  draft_config :=
    { chair_count := 5, rounds := [Round.booster_round [⟨0⟩]],
      dispensers := [⟨["10E"], none⟩], custom_card_lists := [] }

/-- Check 5 in the words of the specification: every dispenser has at least one
source, each of its set codes exists in the card database and supports booster
generation, and its custom-card-list index, if any, is below the number of custom
card lists. -/
def satisfiesDispenserCheck (db : AllSetsData) (cfg : RoomConfig) : Prop :=
  ∀ d ∈ cfg.draft_config.dispensers, hasSource d ∧
    (∀ c ∈ d.source_booster_set_codes, goodSetCode db c) ∧
    (∀ idx, d.source_custom_card_list_index = some idx →
      idx < cfg.draft_config.custom_card_lists.length)

instance (db : AllSetsData) (cfg : RoomConfig) : Decidable (satisfiesDispenserCheck db cfg) := by
  unfold satisfiesDispenserCheck; infer_instance

/-- Check 6 in the words of the specification: every custom card list has at least
one card-quantity entry, and the quantities of its entries sum to more than 0. -/
def satisfiesCustomCardListCheck (cfg : RoomConfig) : Prop :=
  ∀ ccl ∈ cfg.draft_config.custom_card_lists,
    ccl.card_quantities ≠ [] ∧ 0 < totalQuantity ccl

instance (cfg : RoomConfig) : Decidable (satisfiesCustomCardListCheck cfg) := by
  unfold satisfiesCustomCardListCheck; infer_instance

/-- A configuration with two custom card lists, of quantities 1, 1 and 3, 0, a
dispenser for each, and a booster round followed by a sealed round, each round with
a dispensation of dispenser 0. -/
def twoListsMixedRoundsConfig : RoomConfig where
  bot_count := 0
  draft_config :=
    { chair_count := 8
      rounds := [Round.booster_round [⟨0⟩], Round.sealed_round [⟨0⟩]]
      dispensers := [⟨["10E"], some 0⟩, ⟨[], some 1⟩]
      custom_card_lists := [⟨[⟨1⟩, ⟨1⟩]⟩, ⟨[⟨3⟩, ⟨0⟩]⟩] }

/-! ## Theorems: integer conversion -/

theorem toInt32_le (n : Nat) : toInt32 n ≤ (n : Int) := by
  unfold toInt32 wrapInt32
  simp only
  split <;> omega

theorem toInt32_not_ge_of_lt {idx n : Nat} (h : idx < n) : ¬ toInt32 idx ≥ (n : Int) := by
  have := toInt32_le idx
  omega

/-! ## Theorems: checks 1-4 -/

/-- C1: `validate` decides checks 1-4 in order, whatever the rest of the
configuration holds: INVALID_CHAIR_COUNT when `chair_count < 1`; otherwise
INVALID_BOT_COUNT when `bot_count >= chair_count`; otherwise INVALID_ROUND_COUNT when
there are no rounds; otherwise INVALID_DISPENSER_COUNT when there are no dispensers. -/
theorem validate_count_checks_in_order (db : AllSetsData) (cfg : RoomConfig) :
    (cfg.draft_config.chair_count < 1 →
      validate db cfg = Outcome.rejected ResultType.RESULT_INVALID_CHAIR_COUNT) ∧
    (¬ cfg.draft_config.chair_count < 1 → cfg.bot_count ≥ cfg.draft_config.chair_count →
      validate db cfg = Outcome.rejected ResultType.RESULT_INVALID_BOT_COUNT) ∧
    (¬ cfg.draft_config.chair_count < 1 → ¬ cfg.bot_count ≥ cfg.draft_config.chair_count →
      cfg.draft_config.rounds = [] →
      validate db cfg = Outcome.rejected ResultType.RESULT_INVALID_ROUND_COUNT) ∧
    (¬ cfg.draft_config.chair_count < 1 → ¬ cfg.bot_count ≥ cfg.draft_config.chair_count →
      cfg.draft_config.rounds ≠ [] → cfg.draft_config.dispensers = [] →
      validate db cfg = Outcome.rejected ResultType.RESULT_INVALID_DISPENSER_COUNT) := by
  refine ⟨?_, ?_, ?_, ?_⟩
  · intro h
    simp [validate, h]
  · intro h1 h2
    simp only [validate, if_neg h1, if_pos h2]
  · intro h1 h2 h3
    simp only [validate, if_neg h1, if_neg h2, h3]
    simp
  · intro h1 h2 h3 h4
    have h5 : ¬ cfg.draft_config.rounds.length ≤ 0 := by
      cases hr : cfg.draft_config.rounds with
      | nil => exact absurd hr h3
      | cons a l => simp
    simp only [validate, if_neg h1, if_neg h2, if_neg h5, h4]
    simp

/-- Instance of `validate_count_checks_in_order`: the four rejections on the booster
model configuration with, in turn, no chairs, 8 bots, no rounds and no dispensers. -/
theorem validate_count_checks_in_order_witness :
    validate sampleSets
        { boosterModelConfig with
          draft_config := { boosterModelConfig.draft_config with chair_count := 0 } } =
      Outcome.rejected ResultType.RESULT_INVALID_CHAIR_COUNT ∧
    validate sampleSets { boosterModelConfig with bot_count := 8 } =
      Outcome.rejected ResultType.RESULT_INVALID_BOT_COUNT ∧
    validate sampleSets
        { boosterModelConfig with
          draft_config := { boosterModelConfig.draft_config with rounds := [] } } =
      Outcome.rejected ResultType.RESULT_INVALID_ROUND_COUNT ∧
    validate sampleSets
        { boosterModelConfig with
          draft_config := { boosterModelConfig.draft_config with dispensers := [] } } =
      Outcome.rejected ResultType.RESULT_INVALID_DISPENSER_COUNT :=
  ⟨(validate_count_checks_in_order sampleSets _).1 (by decide),
   (validate_count_checks_in_order sampleSets _).2.1 (by decide) (by decide),
   (validate_count_checks_in_order sampleSets _).2.2.1 (by decide) (by decide) rfl,
   (validate_count_checks_in_order sampleSets _).2.2.2 (by decide) (by decide) (by decide) rfl⟩

/-- The embedding gives the results the validator tests expect
(`src/server/tests/testroomconfigvalidator.cpp`): the booster sections, the
sealed sections and the custom card list sections, in the order of the file. -/
theorem validate_test_expectations :
    validate sampleSets boosterModelConfig = Outcome.accepted ∧
    validate sampleSets (boosterModelConfig.withChairCount 0) =
      Outcome.rejected ResultType.RESULT_INVALID_CHAIR_COUNT ∧
    validate sampleSets { boosterModelConfig with bot_count := 8 } =
      Outcome.rejected ResultType.RESULT_INVALID_BOT_COUNT ∧
    validate sampleSets (boosterModelConfig.withRounds []) =
      Outcome.rejected ResultType.RESULT_INVALID_ROUND_COUNT ∧
    validate sampleSets (boosterModelConfig.withDispensers
        [⟨["BADSETCODE"], none⟩, ⟨["10E"], none⟩, ⟨["10E"], none⟩]) =
      Outcome.rejected ResultType.RESULT_INVALID_SET_CODE ∧
    validate sampleSets (boosterModelConfig.withDispensers
        [⟨["EVG"], none⟩, ⟨["10E"], none⟩, ⟨["10E"], none⟩]) =
      Outcome.rejected ResultType.RESULT_INVALID_DISPENSER_CONFIG ∧
    validate sampleSets (boosterModelConfig.withRounds
        [Round.booster_round [⟨0⟩], Round.booster_round [⟨1⟩], Round.booster_round [⟨2⟩],
          Round.sealed_round []]) =
      Outcome.rejected ResultType.RESULT_INVALID_DRAFT_TYPE ∧
    validate sampleSets (boosterModelConfig.withRounds
        [Round.booster_round [], Round.booster_round [⟨1⟩], Round.booster_round [⟨2⟩]]) =
      Outcome.rejected ResultType.RESULT_INVALID_ROUND_CONFIG ∧
    validate sampleSets (boosterModelConfig.withRounds
        [Round.booster_round [⟨10⟩], Round.booster_round [⟨1⟩], Round.booster_round [⟨2⟩]]) =
      Outcome.rejected ResultType.RESULT_INVALID_ROUND_CONFIG ∧
    validate sampleSets sealedModelConfig = Outcome.accepted ∧
    validate sampleSets (sealedModelConfig.withChairCount 0) =
      Outcome.rejected ResultType.RESULT_INVALID_CHAIR_COUNT ∧
    validate sampleSets { sealedModelConfig with bot_count := 8 } =
      Outcome.rejected ResultType.RESULT_INVALID_BOT_COUNT ∧
    validate sampleSets (sealedModelConfig.withRounds []) =
      Outcome.rejected ResultType.RESULT_INVALID_ROUND_COUNT ∧
    validate sampleSets (sealedModelConfig.withDispensers
        [⟨["BADSETCODE"], none⟩, ⟨["10E"], none⟩, ⟨["10E"], none⟩, ⟨["10E"], none⟩,
          ⟨["10E"], none⟩, ⟨["10E"], none⟩]) =
      Outcome.rejected ResultType.RESULT_INVALID_SET_CODE ∧
    validate sampleSets (sealedModelConfig.withDispensers
        [⟨["EVG"], none⟩, ⟨["10E"], none⟩, ⟨["10E"], none⟩, ⟨["10E"], none⟩,
          ⟨["10E"], none⟩, ⟨["10E"], none⟩]) =
      Outcome.rejected ResultType.RESULT_INVALID_DISPENSER_CONFIG ∧
    validate sampleSets (sealedModelConfig.withRounds
        [Round.sealed_round [⟨0⟩, ⟨1⟩, ⟨2⟩, ⟨3⟩, ⟨4⟩, ⟨5⟩], Round.sealed_round []]) =
      Outcome.rejected ResultType.RESULT_INVALID_DRAFT_TYPE ∧
    validate sampleSets (sealedModelConfig.withRounds [Round.sealed_round []]) =
      Outcome.rejected ResultType.RESULT_INVALID_ROUND_CONFIG ∧
    validate sampleSets (sealedModelConfig.withRounds
        [Round.sealed_round [⟨10⟩, ⟨1⟩, ⟨2⟩, ⟨3⟩, ⟨4⟩, ⟨5⟩]]) =
      Outcome.rejected ResultType.RESULT_INVALID_ROUND_CONFIG ∧
    validate sampleSets customListModelConfig = Outcome.accepted ∧
    validate sampleSets (customListModelConfig.withCustomCardLists []) =
      Outcome.rejected ResultType.RESULT_INVALID_DISPENSER_CONFIG ∧
    validate sampleSets (customListModelConfig.withCustomCardLists [⟨[]⟩]) =
      Outcome.rejected ResultType.RESULT_INVALID_CUSTOM_CARD_LIST ∧
    validate sampleSets (customListModelConfig.withCustomCardLists [⟨[⟨0⟩]⟩]) =
      Outcome.rejected ResultType.RESULT_INVALID_CUSTOM_CARD_LIST := by
  decide

/-- Unfolding of `validate` after checks 1-4 have passed. -/
theorem validate_of_passesCountChecks (db : AllSetsData) (cfg : RoomConfig)
    (h : passesCountChecks cfg) :
    validate db cfg =
      match checkDispensers db cfg.draft_config.custom_card_lists.length
          cfg.draft_config.dispensers 0 with
      | Except.error r => Outcome.rejected r
      | Except.ok _ =>
        match checkCustomCardLists cfg.draft_config.custom_card_lists 0 with
        | Outcome.accepted =>
          checkRounds cfg.draft_config.dispensers.length cfg.draft_config.rounds 0 false false
        | o => o := by
  obtain ⟨h1, h2, h3, h4⟩ := h
  have e1 : ¬ cfg.draft_config.chair_count < 1 := by omega
  have e2 : ¬ cfg.bot_count ≥ cfg.draft_config.chair_count := by omega
  have e3 : ¬ cfg.draft_config.rounds.length ≤ 0 := by
    cases hr : cfg.draft_config.rounds with
    | nil => exact absurd hr h3
    | cons a l => simp
  have e4 : ¬ cfg.draft_config.dispensers.length < 1 := by
    cases hr : cfg.draft_config.dispensers with
    | nil => exact absurd hr h4
    | cons a l => simp
  simp only [validate, if_neg e1, if_neg e2, if_neg e3, if_neg e4]

/-- An accepted configuration has passed checks 1-4. -/
theorem passesCountChecks_of_accepted (db : AllSetsData) (cfg : RoomConfig)
    (h : validate db cfg = Outcome.accepted) : passesCountChecks cfg := by
  unfold validate at h
  simp only at h
  split at h
  · cases h
  split at h
  · cases h
  split at h
  · cases h
  split at h
  · cases h
  rename_i e1 e2 e3 e4
  refine ⟨by omega, by omega, ?_, ?_⟩
  · intro hr
    rw [hr] at e3
    exact e3 (by simp)
  · intro hr
    rw [hr] at e4
    exact e4 (by simp)

/-- Unfolding of `validate` after checks 1-6 have passed: the round loop decides. -/
theorem validate_of_passes_one_to_six (db : AllSetsData) (cfg : RoomConfig)
    (h : passesCountChecks cfg) (hd : passesDispenserChecks db cfg)
    (hl : passesCustomCardListChecks cfg) :
    validate db cfg =
      checkRounds cfg.draft_config.dispensers.length cfg.draft_config.rounds 0 false false := by
  rw [validate_of_passesCountChecks db cfg h]
  obtain ⟨s, hs⟩ := hd
  unfold passesCustomCardListChecks at hl
  rw [hs, hl]

/-- An accepted configuration has passed checks 1-6 and the round loop. -/
theorem phases_of_accepted (db : AllSetsData) (cfg : RoomConfig)
    (h : validate db cfg = Outcome.accepted) :
    passesCountChecks cfg ∧ passesDispenserChecks db cfg ∧ passesCustomCardListChecks cfg ∧
      checkRounds cfg.draft_config.dispensers.length cfg.draft_config.rounds 0 false false =
        Outcome.accepted := by
  have hc := passesCountChecks_of_accepted db cfg h
  rw [validate_of_passesCountChecks db cfg hc] at h
  unfold passesDispenserChecks passesCustomCardListChecks
  cases hd : checkDispensers db cfg.draft_config.custom_card_lists.length
      cfg.draft_config.dispensers 0 with
  | error r => rw [hd] at h; cases h
  | ok s =>
    rw [hd] at h
    cases hl : checkCustomCardLists cfg.draft_config.custom_card_lists 0 with
    | accepted =>
      rw [hl] at h
      exact ⟨hc, ⟨s, rfl⟩, rfl, h⟩
    | rejected r => rw [hl] at h; cases h
    | undefined_access => rw [hl] at h; cases h

/-! ## Theorems: the dispenser loop (check 5) -/

theorem checkSetCodes_of_good (db : AllSetsData) (cs : List String) (sources : Nat)
    (h : ∀ c ∈ cs, goodSetCode db c) :
    checkSetCodes db cs sources = Except.ok (sources + cs.length) := by
  induction cs generalizing sources with
  | nil => simp [checkSetCodes]
  | cons c rest ih =>
    have hc := h c (List.mem_cons_self c rest)
    have hrest : ∀ c1 ∈ rest, goodSetCode db c1 := fun c1 h1 =>
      h c1 (List.mem_cons_of_mem c h1)
    have hmem : db.getSetCodes.contains c = true := by
      simpa using hc.1
    simp only [checkSetCodes, hmem, hc.2, Bool.not_true, Bool.false_eq_true, if_false]
    rw [ih (sources + 1) hrest]
    simp only [List.length_cons]
    congr 1
    omega

theorem checkSetCodes_ok_good (db : AllSetsData) (cs : List String) (sources s : Nat)
    (h : checkSetCodes db cs sources = Except.ok s) : ∀ c ∈ cs, goodSetCode db c := by
  induction cs generalizing sources with
  | nil => intro c hc; cases hc
  | cons c rest ih =>
    unfold checkSetCodes at h
    split at h
    · cases h
    split at h
    · cases h
    rename_i h1 h2
    intro c1 hc1
    rcases List.mem_cons.1 hc1 with rfl | hin
    · constructor
      · simpa using h1
      · simpa using h2
    · exact ih (sources + 1) h c1 hin

theorem checkSetCodes_first_bad (db : AllSetsData) (cs1 cs2 : List String) (c : String)
    (sources : Nat) (h1 : ∀ c1 ∈ cs1, goodSetCode db c1) (hbad : ¬ goodSetCode db c) :
    checkSetCodes db (cs1 ++ c :: cs2) sources =
      Except.error (if c ∈ db.getSetCodes then ResultType.RESULT_INVALID_DISPENSER_CONFIG
        else ResultType.RESULT_INVALID_SET_CODE) := by
  induction cs1 generalizing sources with
  | nil =>
    simp only [List.nil_append, checkSetCodes]
    by_cases hm : c ∈ db.getSetCodes
    · have hb : db.hasBoosterSlots c = false := by
        cases hx : db.hasBoosterSlots c with
        | false => rfl
        | true => exact absurd ⟨hm, hx⟩ hbad
      have hmem : db.getSetCodes.contains c = true := by simpa using hm
      simp [hmem, hb, hm]
    · have hmem : db.getSetCodes.contains c = false := by simpa using hm
      simp [hmem, hm]
  | cons a rest ih =>
    have ha := h1 a (List.mem_cons_self a rest)
    have hrest : ∀ c1 ∈ rest, goodSetCode db c1 := fun c1 hc1 =>
      h1 c1 (List.mem_cons_of_mem a hc1)
    have hmem : db.getSetCodes.contains a = true := by simpa using ha.1
    simp only [List.cons_append, checkSetCodes, hmem, ha.2, Bool.not_true,
      Bool.false_eq_true, if_false]
    exact ih (sources + 1) hrest

/-- The dispenser loop runs to its end only when every set code of every dispenser
is in the database and has booster slots. -/
theorem checkDispensers_ok_good (db : AllSetsData) (cclSize : Nat) (ds : List CardDispenser)
    (sources s : Nat) (h : checkDispensers db cclSize ds sources = Except.ok s) :
    ∀ d ∈ ds, ∀ c ∈ d.source_booster_set_codes, goodSetCode db c := by
  induction ds generalizing sources with
  | nil => intro d hd; cases hd
  | cons d rest ih =>
    unfold checkDispensers at h
    split at h
    · cases h
    rename_i s1 hs1
    split at h
    · cases h
    rename_i s2 hs2
    split at h
    · cases h
    intro d1 hd1
    rcases List.mem_cons.1 hd1 with rfl | hin
    · exact checkSetCodes_ok_good db _ sources s1 hs1
    · exact ih s2 h d1 hin

/-- A known set code without booster slots, first offending set code in scanning
order, makes the dispenser loop end with INVALID_DISPENSER_CONFIG. -/
theorem checkDispensers_first_nonbooster (db : AllSetsData) (cclSize : Nat)
    (pre post : List CardDispenser) (d : CardDispenser) (cs1 cs2 : List String) (c : String)
    (sources : Nat)
    (hpre : ∀ d1 ∈ pre, ∀ c1 ∈ d1.source_booster_set_codes, goodSetCode db c1)
    (hd : d.source_booster_set_codes = cs1 ++ c :: cs2)
    (hcs1 : ∀ c1 ∈ cs1, goodSetCode db c1)
    (hknown : c ∈ db.getSetCodes) (hbad : db.hasBoosterSlots c = false) :
    checkDispensers db cclSize (pre ++ d :: post) sources =
      Except.error ResultType.RESULT_INVALID_DISPENSER_CONFIG := by
  have hnot : ¬ goodSetCode db c := by
    intro hg
    rw [hg.2] at hbad
    cases hbad
  induction pre generalizing sources with
  | nil =>
    simp only [List.nil_append, checkDispensers, hd]
    rw [checkSetCodes_first_bad db cs1 cs2 c sources hcs1 hnot]
    simp [hknown]
  | cons d0 rest ih =>
    have h0 := hpre d0 (List.mem_cons_self d0 rest)
    have hrest : ∀ d1 ∈ rest, ∀ c1 ∈ d1.source_booster_set_codes, goodSetCode db c1 :=
      fun d1 hd1 => hpre d1 (List.mem_cons_of_mem d0 hd1)
    simp only [List.cons_append, checkDispensers]
    rw [checkSetCodes_of_good db _ sources h0]
    simp only
    cases hidx : checkCustomListIndex cclSize d0 (sources + d0.source_booster_set_codes.length) with
    | error r =>
      simp only
      unfold checkCustomListIndex at hidx
      split at hidx
      · split at hidx
        · cases hidx; rfl
        · cases hidx
      · cases hidx
    | ok s2 =>
      simp only
      split
      · rfl
      · exact ih s2 hrest

/-- An unknown set code, first offending set code in scanning order, makes the
dispenser loop end with INVALID_SET_CODE when no earlier dispenser fails its
custom-list-index check and the counter of sources is positive after the first
dispenser. -/
theorem checkDispensers_first_unknown (db : AllSetsData) (cclSize : Nat)
    (pre post : List CardDispenser) (d : CardDispenser) (cs1 cs2 : List String) (c : String)
    (sources : Nat)
    (hpre : ∀ d1 ∈ pre, ∀ c1 ∈ d1.source_booster_set_codes, goodSetCode db c1)
    (hd : d.source_booster_set_codes = cs1 ++ c :: cs2)
    (hcs1 : ∀ c1 ∈ cs1, goodSetCode db c1)
    (hunknown : c ∉ db.getSetCodes)
    (hidx : ∀ d1 ∈ pre, ∀ idx, d1.source_custom_card_list_index = some idx →
      ¬ toInt32 idx ≥ (cclSize : Int))
    (hsrc : 1 ≤ sources ∨ ∀ d0, pre.head? = some d0 → hasSource d0) :
    checkDispensers db cclSize (pre ++ d :: post) sources =
      Except.error ResultType.RESULT_INVALID_SET_CODE := by
  have hnot : ¬ goodSetCode db c := fun hg => hunknown hg.1
  induction pre generalizing sources with
  | nil =>
    simp only [List.nil_append, checkDispensers, hd]
    rw [checkSetCodes_first_bad db cs1 cs2 c sources hcs1 hnot]
    simp [hunknown]
  | cons d0 rest ih =>
    have h0 := hpre d0 (List.mem_cons_self d0 rest)
    have hrest : ∀ d1 ∈ rest, ∀ c1 ∈ d1.source_booster_set_codes, goodSetCode db c1 :=
      fun d1 hd1 => hpre d1 (List.mem_cons_of_mem d0 hd1)
    have hidx0 := hidx d0 (List.mem_cons_self d0 rest)
    have hidxrest : ∀ d1 ∈ rest, ∀ idx, d1.source_custom_card_list_index = some idx →
        ¬ toInt32 idx ≥ (cclSize : Int) :=
      fun d1 hd1 => hidx d1 (List.mem_cons_of_mem d0 hd1)
    simp only [List.cons_append, checkDispensers]
    rw [checkSetCodes_of_good db _ sources h0]
    simp only
    cases hi : d0.source_custom_card_list_index with
    | none =>
      have hpos : ¬ sources + d0.source_booster_set_codes.length < 1 := by
        rcases hsrc with h | h
        · omega
        · have hs := h d0 rfl
          rcases hs with hs | hs
          · have : 0 < d0.source_booster_set_codes.length := List.length_pos.2 hs
            omega
          · exact absurd hi hs
      simp only [checkCustomListIndex, hi, if_neg hpos]
      exact ih _ hrest hidxrest (Or.inl (by omega))
    | some idx =>
      have hok := hidx0 idx hi
      simp only [checkCustomListIndex, hi, if_neg hok]
      have hpos : ¬ sources + d0.source_booster_set_codes.length + 1 < 1 := by omega
      simp only [if_neg hpos]
      exact ih _ hrest hidxrest (Or.inl (by omega))

/-! ## Theorems: the round loop (checks 7-9) -/

theorem checkDispensations_of_valid (n : Nat) (ds : List CardDispensation)
    (h : ∀ d ∈ ds, d.dispenser_index < n) : checkDispensations n ds = true := by
  induction ds with
  | nil => rfl
  | cons d rest ih =>
    have hd := toInt32_not_ge_of_lt (h d (List.mem_cons_self d rest))
    simp only [checkDispensations, if_neg hd]
    exact ih (fun d1 h1 => h d1 (List.mem_cons_of_mem d h1))

/-- A round that satisfies checks 8-9 is never answered with INVALID_ROUND_CONFIG:
the loop body either continues or reports INVALID_DRAFT_TYPE. -/
theorem checkRound_of_roundConfigOk (n i : Nat) (booster grid : Bool) (r : Round)
    (h : roundConfigOk n r) :
    checkRound n i booster grid r = Except.error ResultType.RESULT_INVALID_DRAFT_TYPE ∨
      ∃ flags, checkRound n i booster grid r = Except.ok flags := by
  cases r with
  | booster_round ds =>
    obtain ⟨hne, hv⟩ := h
    have hlen : ¬ ds.length ≤ 0 := by
      have := List.length_pos.2 hne
      omega
    unfold checkRound
    simp only
    split
    · exact Or.inl rfl
    · right
      simp [checkRoundDispensations, hlen, checkDispensations_of_valid n ds hv]
  | sealed_round ds =>
    obtain ⟨hne, hv⟩ := h
    have hlen : ¬ ds.length ≤ 0 := by
      have := List.length_pos.2 hne
      omega
    unfold checkRound
    simp only
    split
    · exact Or.inl rfl
    · right
      simp [checkRoundDispensations, hlen, checkDispensations_of_valid n ds hv]
  | grid_round idx =>
    have hi := toInt32_not_ge_of_lt (show idx < n from h)
    unfold checkRound
    simp only
    split
    · exact Or.inl rfl
    · right
      simp [checkRoundDispensations, hi, checkDispensations]
  | not_set => exact Or.inl rfl

/-- When every round satisfies checks 8-9 the round loop accepts or reports
INVALID_DRAFT_TYPE. -/
theorem checkRounds_of_roundConfigOk (n : Nat) (rs : List Round) (i : Nat)
    (booster grid : Bool) (h : ∀ r ∈ rs, roundConfigOk n r) :
    checkRounds n rs i booster grid = Outcome.accepted ∨
      checkRounds n rs i booster grid =
        Outcome.rejected ResultType.RESULT_INVALID_DRAFT_TYPE := by
  induction rs generalizing i booster grid with
  | nil => exact Or.inl rfl
  | cons r rest ih =>
    have hrest : ∀ r1 ∈ rest, roundConfigOk n r1 := fun r1 h1 =>
      h r1 (List.mem_cons_of_mem r h1)
    unfold checkRounds
    rcases checkRound_of_roundConfigOk n i booster grid r (h r (List.mem_cons_self r rest))
      with he | ⟨flags, hf⟩
    · rw [he]; exact Or.inr rfl
    · rw [hf]
      exact ih (i + 1) flags.1 flags.2 hrest

/-- Flags of the round loop after a successful round: the kind of the round decides them. -/
theorem checkRound_ok_flags (n i : Nat) (booster grid : Bool) (r : Round)
    (flags : Bool × Bool) (h : checkRound n i booster grid r = Except.ok flags) :
    (r.kind = RoundKind.booster ∧ flags = (true, grid) ∧ (0 < i → booster = true)) ∨
    (r.kind = RoundKind.sealed ∧ flags = (booster, grid) ∧ i = 0) ∨
    (r.kind = RoundKind.grid ∧ flags = (booster, true) ∧ (0 < i → grid = true)) := by
  cases r with
  | booster_round ds =>
    left
    unfold checkRound at h
    simp only at h
    split at h
    · cases h
    rename_i hc
    unfold checkRoundDispensations at h
    split at h
    · cases h
    split at h
    · cases h
      refine ⟨rfl, rfl, ?_⟩
      intro hi
      cases booster with
      | true => rfl
      | false => simp [hi] at hc
    · cases h
  | sealed_round ds =>
    right; left
    unfold checkRound at h
    simp only at h
    split at h
    · cases h
    rename_i hc
    unfold checkRoundDispensations at h
    split at h
    · cases h
    split at h
    · cases h
      exact ⟨rfl, rfl, by omega⟩
    · cases h
  | grid_round idx =>
    right; right
    unfold checkRound at h
    simp only at h
    split at h
    · cases h
    rename_i hc
    split at h
    · cases h
    unfold checkRoundDispensations at h
    split at h
    · cases h
    split at h
    · cases h
      refine ⟨rfl, rfl, ?_⟩
      intro hi
      cases grid with
      | true => rfl
      | false => simp [hi] at hc
    · cases h
  | not_set =>
    unfold checkRound at h
    cases h

/-- After a first round, a loop state with `booster` set and `grid` clear accepts
booster rounds only. -/
theorem checkRounds_booster_state (n : Nat) (rs : List Round) (i : Nat) (hi : 0 < i)
    (h : checkRounds n rs i true false = Outcome.accepted) :
    ∀ r ∈ rs, r.kind = RoundKind.booster := by
  induction rs generalizing i with
  | nil => intro r hr; cases hr
  | cons r rest ih =>
    unfold checkRounds at h
    split at h
    · cases h
    rename_i b1 g1 hf
    rcases checkRound_ok_flags n i true false r (b1, g1) hf with
      ⟨hk, hfl, _⟩ | ⟨_, _, h0⟩ | ⟨_, _, hg⟩
    · cases hfl
      intro r1 hr1
      rcases List.mem_cons.1 hr1 with rfl | hin
      · exact hk
      · exact ih (i + 1) (by omega) h r1 hin
    · omega
    · exact absurd (hg hi) (by decide)

/-- After a first round, a loop state with `grid` set and `booster` clear accepts
grid rounds only. -/
theorem checkRounds_grid_state (n : Nat) (rs : List Round) (i : Nat) (hi : 0 < i)
    (h : checkRounds n rs i false true = Outcome.accepted) :
    ∀ r ∈ rs, r.kind = RoundKind.grid := by
  induction rs generalizing i with
  | nil => intro r hr; cases hr
  | cons r rest ih =>
    unfold checkRounds at h
    split at h
    · cases h
    rename_i b1 g1 hf
    rcases checkRound_ok_flags n i false true r (b1, g1) hf with
      ⟨_, _, hb⟩ | ⟨_, _, h0⟩ | ⟨hk, hfl, _⟩
    · exact absurd (hb hi) (by decide)
    · omega
    · cases hfl
      intro r1 hr1
      rcases List.mem_cons.1 hr1 with rfl | hin
      · exact hk
      · exact ih (i + 1) (by omega) h r1 hin

/-- After a first round, a loop state with both flags clear accepts no further round. -/
theorem checkRounds_sealed_state (n : Nat) (rs : List Round) (i : Nat) (hi : 0 < i)
    (h : checkRounds n rs i false false = Outcome.accepted) : rs = [] := by
  cases rs with
  | nil => rfl
  | cons r rest =>
    unfold checkRounds at h
    split at h
    · cases h
    rename_i b1 g1 hf
    rcases checkRound_ok_flags n i false false r (b1, g1) hf with
      ⟨_, _, hb⟩ | ⟨_, _, h0⟩ | ⟨_, _, hg⟩
    · exact absurd (hb hi) (by decide)
    · omega
    · exact absurd (hg hi) (by decide)

/-- The round loop accepts homogeneous rounds only. -/
theorem homogeneous_of_checkRounds (n : Nat) (rs : List Round)
    (h : checkRounds n rs 0 false false = Outcome.accepted) : Homogeneous rs := by
  cases rs with
  | nil => exact Or.inl (fun r hr => by cases hr)
  | cons r rest =>
    unfold checkRounds at h
    split at h
    · cases h
    rename_i b1 g1 hf
    rcases checkRound_ok_flags n 0 false false r (b1, g1) hf with
      ⟨hk, hfl, _⟩ | ⟨hk, hfl, _⟩ | ⟨hk, hfl, _⟩
    · cases hfl
      left
      have hrest := checkRounds_booster_state n rest 1 (by omega) h
      intro r1 hr1
      rcases List.mem_cons.1 hr1 with rfl | hin
      · exact hk
      · exact hrest r1 hin
    · cases hfl
      right; left
      have hrest := checkRounds_sealed_state n rest 1 (by omega) h
      subst hrest
      cases r with
      | sealed_round ds => exact ⟨ds, rfl⟩
      | booster_round ds => cases hk
      | grid_round idx => cases hk
      | not_set => cases hk
    · cases hfl
      right; right
      have hrest := checkRounds_grid_state n rest 1 (by omega) h
      intro r1 hr1
      rcases List.mem_cons.1 hr1 with rfl | hin
      · exact hk
      · exact hrest r1 hin

theorem not_homogeneous_of_mixesTypes (rs : List Round) (h : mixesTypes rs) :
    ¬ Homogeneous rs := by
  obtain ⟨r1, h1, r2, h2, hne⟩ := h
  rintro (hb | ⟨ds, hs⟩ | hg)
  · exact hne ((hb r1 h1).trans (hb r2 h2).symm)
  · subst hs
    simp only [List.mem_singleton] at h1 h2
    subst h1; subst h2
    exact hne rfl
  · exact hne ((hg r1 h1).trans (hg r2 h2).symm)

theorem not_homogeneous_of_hasUnsupportedRound (rs : List Round)
    (h : hasUnsupportedRound rs) : ¬ Homogeneous rs := by
  obtain ⟨r, hr, hk⟩ := h
  rintro (hb | ⟨ds, hs⟩ | hg)
  · have := hb r hr
    rw [hk] at this
    cases this
  · subst hs
    simp only [List.mem_singleton] at hr
    subst hr
    cases hk
  · have := hg r hr
    rw [hk] at this
    cases this

theorem not_homogeneous_of_sealedCount (rs : List Round) (h : 1 < sealedCount rs) :
    ¬ Homogeneous rs := by
  unfold sealedCount at h
  rintro (hb | ⟨ds, hs⟩ | hg)
  · have h0 : rs.countP (fun r => decide (r.kind = RoundKind.sealed)) = 0 := by
      rw [List.countP_eq_zero]
      intro r hr
      simp [hb r hr]
    omega
  · subst hs
    simp [Round.kind] at h
  · have h0 : rs.countP (fun r => decide (r.kind = RoundKind.sealed)) = 0 := by
      rw [List.countP_eq_zero]
      intro r hr
      simp [hg r hr]
    omega

/-- Check 7 as `validate` makes it: every configuration that `validate` accepts has
rounds that are all booster rounds, or exactly one sealed round, or all grid
rounds; and a configuration that satisfies checks 1-4, that the dispenser loop and
the custom card list loop of `validate` let through, whose every round satisfies
checks 8-9, and whose rounds mix types, contain a round of no supported type, or
contain more than one sealed round is rejected with INVALID_DRAFT_TYPE. -/
theorem validate_draft_type (db : AllSetsData) (cfg : RoomConfig) :
    (validate db cfg = Outcome.accepted → Homogeneous cfg.draft_config.rounds) ∧
    (passesCountChecks cfg → passesDispenserChecks db cfg → passesCustomCardListChecks cfg →
      (∀ r ∈ cfg.draft_config.rounds,
        roundConfigOk cfg.draft_config.dispensers.length r) →
      (mixesTypes cfg.draft_config.rounds ∨ hasUnsupportedRound cfg.draft_config.rounds ∨
        1 < sealedCount cfg.draft_config.rounds) →
      validate db cfg = Outcome.rejected ResultType.RESULT_INVALID_DRAFT_TYPE) := by
  constructor
  · intro h
    exact homogeneous_of_checkRounds _ _ (phases_of_accepted db cfg h).2.2.2
  · intro hc hd hl hok hnh
    have hnot : ¬ Homogeneous cfg.draft_config.rounds := by
      rcases hnh with h | h | h
      · exact not_homogeneous_of_mixesTypes _ h
      · exact not_homogeneous_of_hasUnsupportedRound _ h
      · exact not_homogeneous_of_sealedCount _ h
    rw [validate_of_passes_one_to_six db cfg hc hd hl]
    rcases checkRounds_of_roundConfigOk cfg.draft_config.dispensers.length
      cfg.draft_config.rounds 0 false false hok with h | h
    · exact absurd (homogeneous_of_checkRounds _ _ h) hnot
    · exact h

/-- Instance of `validate_draft_type`: the accepted booster model configuration is
homogeneous, and a booster round followed by a sealed round, each with a valid
dispensation, is rejected with INVALID_DRAFT_TYPE. -/
theorem validate_draft_type_witness :
    Homogeneous boosterModelConfig.draft_config.rounds ∧
    validate sampleSets boosterThenSealedConfig =
      Outcome.rejected ResultType.RESULT_INVALID_DRAFT_TYPE :=
  ⟨(validate_draft_type sampleSets boosterModelConfig).1 (by decide),
   (validate_draft_type sampleSets boosterThenSealedConfig).2 (by decide) ⟨1, rfl⟩
      (by decide) (by decide)
      (Or.inl ⟨Round.booster_round [⟨0⟩], by decide, Round.sealed_round [⟨0⟩], by decide,
        by decide⟩)⟩

/-! ### Order of the round checks -/

theorem checkRounds_booster_run (n : Nat) (pre rest : List Round) (i : Nat)
    (h : ∀ r ∈ pre, r.kind = RoundKind.booster ∧ roundConfigOk n r) :
    checkRounds n (pre ++ rest) i true false = checkRounds n rest (i + pre.length) true false := by
  induction pre generalizing i with
  | nil => simp
  | cons r ps ih =>
    have hr := h r (List.mem_cons_self r ps)
    have hps : ∀ r1 ∈ ps, r1.kind = RoundKind.booster ∧ roundConfigOk n r1 := fun r1 h1 =>
      h r1 (List.mem_cons_of_mem r h1)
    cases r with
    | booster_round ds =>
      obtain ⟨hne, hv⟩ := hr.2
      have hlen : ¬ ds.length ≤ 0 := by
        have := List.length_pos.2 hne
        omega
      have hstep : checkRound n i true false (Round.booster_round ds) =
          Except.ok (true, false) := by
        simp [checkRound, checkRoundDispensations, hlen, checkDispensations_of_valid n ds hv]
      rw [List.cons_append, checkRounds, hstep]
      simp only [List.length_cons]
      rw [ih (i + 1) hps]
      congr 1
      omega
    | sealed_round ds => exact absurd hr.1 (by simp [Round.kind])
    | grid_round idx => exact absurd hr.1 (by simp [Round.kind])
    | not_set => exact absurd hr.1 (by simp [Round.kind])

theorem checkRounds_grid_run (n : Nat) (pre rest : List Round) (i : Nat)
    (h : ∀ r ∈ pre, r.kind = RoundKind.grid ∧ roundConfigOk n r) :
    checkRounds n (pre ++ rest) i false true = checkRounds n rest (i + pre.length) false true := by
  induction pre generalizing i with
  | nil => simp
  | cons r ps ih =>
    have hr := h r (List.mem_cons_self r ps)
    have hps : ∀ r1 ∈ ps, r1.kind = RoundKind.grid ∧ roundConfigOk n r1 := fun r1 h1 =>
      h r1 (List.mem_cons_of_mem r h1)
    cases r with
    | grid_round idx =>
      have hi := toInt32_not_ge_of_lt (show idx < n from hr.2)
      have hstep : checkRound n i false true (Round.grid_round idx) =
          Except.ok (false, true) := by
        simp [checkRound, checkRoundDispensations, hi, checkDispensations]
      rw [List.cons_append, checkRounds, hstep]
      simp only [List.length_cons]
      rw [ih (i + 1) hps]
      congr 1
      omega
    | sealed_round ds => exact absurd hr.1 (by simp [Round.kind])
    | booster_round ds => exact absurd hr.1 (by simp [Round.kind])
    | not_set => exact absurd hr.1 (by simp [Round.kind])

/-- The type check of a round comes before its dispensation checks: after the
first round, a round whose kind does not match the flags is answered with
INVALID_DRAFT_TYPE whatever its dispensations are. -/
theorem checkRounds_offending (n : Nat) (r : Round) (post : List Round) (i : Nat)
    (booster grid : Bool) (hi : 0 < i)
    (h : (booster = true ∧ grid = false ∧ r.kind ≠ RoundKind.booster) ∨
      (booster = false ∧ grid = true ∧ r.kind ≠ RoundKind.grid) ∨
      (booster = false ∧ grid = false)) :
    checkRounds n (r :: post) i booster grid =
      Outcome.rejected ResultType.RESULT_INVALID_DRAFT_TYPE := by
  have hstep : checkRound n i booster grid r =
      Except.error ResultType.RESULT_INVALID_DRAFT_TYPE := by
    rcases h with ⟨hb, hg, hk⟩ | ⟨hb, hg, hk⟩ | ⟨hb, hg⟩
    · subst hb; subst hg
      cases r with
      | booster_round ds => exact absurd rfl hk
      | sealed_round ds => simp [checkRound, hi]
      | grid_round idx => simp [checkRound, hi]
      | not_set => rfl
    · subst hb; subst hg
      cases r with
      | booster_round ds => simp [checkRound, hi]
      | sealed_round ds => simp [checkRound, hi]
      | grid_round idx => exact absurd rfl hk
      | not_set => rfl
    · subst hb; subst hg
      cases r with
      | booster_round ds => simp [checkRound, hi]
      | sealed_round ds => simp [checkRound, hi]
      | grid_round idx => simp [checkRound, hi]
      | not_set => rfl
  simp only [checkRounds, hstep]

/-- The round loop reports INVALID_DRAFT_TYPE at the first round with which the
rounds stop being homogeneous, when every round before it satisfies checks 8-9. -/
theorem checkRounds_first_offending (n : Nat) (pre post : List Round) (r : Round)
    (hpre : Homogeneous pre) (hoff : ¬ Homogeneous (pre ++ [r]))
    (hok : ∀ r1 ∈ pre, roundConfigOk n r1) :
    checkRounds n (pre ++ r :: post) 0 false false =
      Outcome.rejected ResultType.RESULT_INVALID_DRAFT_TYPE := by
  cases pre with
  | nil =>
    cases r with
    | booster_round ds =>
      exact absurd (Or.inl (fun r1 h1 => by
        simp only [List.nil_append, List.mem_singleton] at h1
        subst h1; rfl)) hoff
    | sealed_round ds => exact absurd (Or.inr (Or.inl ⟨ds, rfl⟩)) hoff
    | grid_round idx =>
      exact absurd (Or.inr (Or.inr (fun r1 h1 => by
        simp only [List.nil_append, List.mem_singleton] at h1
        subst h1; rfl))) hoff
    | not_set => rfl
  | cons p ps =>
    have hp := hok p (List.mem_cons_self p ps)
    cases p with
    | booster_round ds =>
      have hall : ∀ r1 ∈ Round.booster_round ds :: ps, r1.kind = RoundKind.booster := by
        rcases hpre with hb | ⟨ds1, hs⟩ | hg
        · exact hb
        · cases hs
        · exact absurd (hg _ (List.mem_cons_self _ ps)) (by simp [Round.kind])
      have hrk : r.kind ≠ RoundKind.booster := by
        intro hk
        apply hoff
        left
        intro r1 h1
        rcases List.mem_append.1 h1 with h2 | h2
        · exact hall r1 h2
        · simp only [List.mem_singleton] at h2
          subst h2; exact hk
      obtain ⟨hne, hv⟩ := hp
      have hlen : ¬ ds.length ≤ 0 := by
        have := List.length_pos.2 hne
        omega
      have hstep : checkRound n 0 false false (Round.booster_round ds) =
          Except.ok (true, false) := by
        simp [checkRound, checkRoundDispensations, hlen, checkDispensations_of_valid n ds hv]
      rw [List.cons_append, checkRounds, hstep]
      simp only
      rw [checkRounds_booster_run n ps (r :: post) (0 + 1) (fun r1 h1 =>
        ⟨hall r1 (List.mem_cons_of_mem _ h1), hok r1 (List.mem_cons_of_mem _ h1)⟩)]
      exact checkRounds_offending n r post _ true false (by omega) (Or.inl ⟨rfl, rfl, hrk⟩)
    | sealed_round ds =>
      have hps : ps = [] := by
        rcases hpre with hb | ⟨ds1, hs⟩ | hg
        · exact absurd (hb _ (List.mem_cons_self _ ps)) (by simp [Round.kind])
        · cases hs; rfl
        · exact absurd (hg _ (List.mem_cons_self _ ps)) (by simp [Round.kind])
      subst hps
      obtain ⟨hne, hv⟩ := hp
      have hlen : ¬ ds.length ≤ 0 := by
        have := List.length_pos.2 hne
        omega
      have hstep : checkRound n 0 false false (Round.sealed_round ds) =
          Except.ok (false, false) := by
        simp [checkRound, checkRoundDispensations, hlen, checkDispensations_of_valid n ds hv]
      rw [List.cons_append, List.nil_append, checkRounds, hstep]
      simp only
      exact checkRounds_offending n r post _ false false (by omega) (Or.inr (Or.inr ⟨rfl, rfl⟩))
    | grid_round idx =>
      have hall : ∀ r1 ∈ Round.grid_round idx :: ps, r1.kind = RoundKind.grid := by
        rcases hpre with hb | ⟨ds1, hs⟩ | hg
        · exact absurd (hb _ (List.mem_cons_self _ ps)) (by simp [Round.kind])
        · cases hs
        · exact hg
      have hrk : r.kind ≠ RoundKind.grid := by
        intro hk
        apply hoff
        right; right
        intro r1 h1
        rcases List.mem_append.1 h1 with h2 | h2
        · exact hall r1 h2
        · simp only [List.mem_singleton] at h2
          subst h2; exact hk
      have hi := toInt32_not_ge_of_lt (show idx < n from hp)
      have hstep : checkRound n 0 false false (Round.grid_round idx) =
          Except.ok (false, true) := by
        simp [checkRound, checkRoundDispensations, hi, checkDispensations]
      rw [List.cons_append, checkRounds, hstep]
      simp only
      rw [checkRounds_grid_run n ps (r :: post) (0 + 1) (fun r1 h1 =>
        ⟨hall r1 (List.mem_cons_of_mem _ h1), hok r1 (List.mem_cons_of_mem _ h1)⟩)]
      exact checkRounds_offending n r post _ false true (by omega)
        (Or.inr (Or.inl ⟨rfl, rfl, hrk⟩))
    | not_set =>
      rcases hpre with hb | ⟨ds1, hs⟩ | hg
      · exact absurd (hb _ (List.mem_cons_self _ ps)) (by simp [Round.kind])
      · cases hs
      · exact absurd (hg _ (List.mem_cons_self _ ps)) (by simp [Round.kind])

/-- Rounds that are not homogeneous have a first offending round: the rounds before
it are homogeneous and stop being so with it. -/
theorem exists_first_offending (rs : List Round) (h : ¬ Homogeneous rs) :
    ∃ pre r post, rs = pre ++ r :: post ∧ Homogeneous pre ∧ ¬ Homogeneous (pre ++ [r]) := by
  induction rs using List.reverseRecOn with
  | nil => exact absurd (Or.inl (fun r hr => by cases hr)) h
  | append_singleton init last ih =>
    by_cases hinit : Homogeneous init
    · exact ⟨init, last, [], rfl, hinit, h⟩
    · obtain ⟨pre, r, post, hrs, hp, hn⟩ := ih hinit
      exact ⟨pre, r, post ++ [last], by simp [hrs], hp, hn⟩

/-! ## Theorems: what `validate` guarantees and what it accepts -/

theorem checkDispensations_eq_true (n : Nat) (ds : List CardDispensation) :
    checkDispensations n ds = true ↔ ∀ d ∈ ds, toInt32 d.dispenser_index < (n : Int) := by
  induction ds with
  | nil => simp [checkDispensations]
  | cons d rest ih =>
    by_cases hd : toInt32 d.dispenser_index ≥ (n : Int)
    · simp only [checkDispensations, if_pos hd, Bool.false_eq_true, false_iff]
      intro h
      have := h d (List.mem_cons_self d rest)
      omega
    · simp only [checkDispensations, if_neg hd, ih, List.mem_cons, forall_eq_or_imp]
      constructor
      · intro h
        exact ⟨by omega, h⟩
      · intro h
        exact h.2

/-- The round loop, started with flags that are not both set and that are clear
before the first round, lets through only rounds whose dispensations it has checked. -/
theorem roundChecked_of_checkRounds (n : Nat) (rs : List Round) (i : Nat) (booster grid : Bool)
    (hflags : booster = true → grid = false)
    (hstart : i = 0 → booster = false ∧ grid = false)
    (h : checkRounds n rs i booster grid = Outcome.accepted) :
    ∀ r ∈ rs, roundChecked n r := by
  induction rs generalizing i booster grid with
  | nil => intro r hr; cases hr
  | cons r rest ih =>
    unfold checkRounds at h
    split at h
    · cases h
    rename_i b1 g1 hf
    have hgridfalse : (0 < i → booster = true) → grid = false := by
      intro hb
      by_cases hi : i = 0
      · exact (hstart hi).2
      · exact hflags (hb (by omega))
    have hboosterfalse : (0 < i → grid = true) → booster = false := by
      intro hg
      by_cases hi : i = 0
      · exact (hstart hi).1
      · have hgt := hg (by omega)
        cases hb : booster with
        | false => rfl
        | true =>
          have := hflags hb
          rw [hgt] at this
          cases this
    have hhead : roundChecked n r ∧ (b1 = true → g1 = false) := by
      cases r with
      | booster_round ds =>
        unfold checkRound at hf
        simp only at hf
        split at hf
        · cases hf
        rename_i hc
        have hg : grid = false := by
          apply hgridfalse
          intro hi
          cases hb : booster with
          | true => rfl
          | false => simp [hi, hb] at hc
        subst hg
        unfold checkRoundDispensations at hf
        split at hf
        · cases hf
        rename_i hlen
        split at hf
        · rename_i hcd
          cases hf
          refine ⟨⟨?_, hcd⟩, fun _ => rfl⟩
          intro hnil
          subst hnil
          simp at hlen
        · cases hf
      | sealed_round ds =>
        unfold checkRound at hf
        simp only at hf
        split at hf
        · cases hf
        rename_i hc
        have hi : i = 0 := by omega
        obtain ⟨hb, hg⟩ := hstart hi
        subst hb; subst hg
        unfold checkRoundDispensations at hf
        split at hf
        · cases hf
        rename_i hlen
        split at hf
        · rename_i hcd
          cases hf
          refine ⟨⟨?_, hcd⟩, fun hx => by cases hx⟩
          intro hnil
          subst hnil
          simp at hlen
        · cases hf
      | grid_round idx =>
        unfold checkRound at hf
        simp only at hf
        split at hf
        · cases hf
        rename_i hc
        have hb : booster = false := by
          apply hboosterfalse
          intro hi
          cases hg : grid with
          | true => rfl
          | false => simp [hi, hg] at hc
        subst hb
        split at hf
        · cases hf
        rename_i hidx
        unfold checkRoundDispensations at hf
        split at hf
        · cases hf
        split at hf
        · cases hf
          exact ⟨show toInt32 idx < (n : Int) by omega, fun hx => by cases hx⟩
        · cases hf
      | not_set =>
        unfold checkRound at hf
        cases hf
    intro r1 hr1
    rcases List.mem_cons.1 hr1 with rfl | hin
    · exact hhead.1
    · exact ih (i + 1) b1 g1 hhead.2 (fun h0 => by omega) h r1 hin

/-- Every accepted configuration: each booster or sealed round has a dispensation,
and each dispenser index of a dispensation or of a grid round, read as an `int`,
is below the number of dispensers. -/
theorem accepted_rounds_checked (db : AllSetsData) (cfg : RoomConfig)
    (h : validate db cfg = Outcome.accepted) :
    ∀ r ∈ cfg.draft_config.rounds, roundChecked cfg.draft_config.dispensers.length r :=
  roundChecked_of_checkRounds _ _ 0 false false (fun hx => by cases hx)
    (fun _ => ⟨rfl, rfl⟩) (phases_of_accepted db cfg h).2.2.2

theorem checkDispensers_ok_index (db : AllSetsData) (cclSize : Nat) (ds : List CardDispenser)
    (sources s : Nat) (h : checkDispensers db cclSize ds sources = Except.ok s) :
    ∀ d ∈ ds, ∀ idx, d.source_custom_card_list_index = some idx →
      toInt32 idx < (cclSize : Int) := by
  induction ds generalizing sources with
  | nil => intro d hd; cases hd
  | cons d rest ih =>
    unfold checkDispensers at h
    split at h
    · cases h
    rename_i s1 hs1
    split at h
    · cases h
    rename_i s2 hs2
    split at h
    · cases h
    intro d1 hd1
    rcases List.mem_cons.1 hd1 with rfl | hin
    · intro idx hidx
      unfold checkCustomListIndex at hs2
      rw [hidx] at hs2
      simp only at hs2
      split at hs2
      · cases hs2
      · omega
    · exact ih s2 h d1 hin

/-- Every accepted configuration: each custom-card-list index of a dispenser, read
as an `int`, is below the number of custom card lists. -/
theorem accepted_custom_list_index (db : AllSetsData) (cfg : RoomConfig)
    (h : validate db cfg = Outcome.accepted) :
    ∀ d ∈ cfg.draft_config.dispensers, ∀ idx, d.source_custom_card_list_index = some idx →
      toInt32 idx < (cfg.draft_config.custom_card_lists.length : Int) := by
  obtain ⟨s, hs⟩ := (phases_of_accepted db cfg h).2.1
  exact checkDispensers_ok_index db _ _ 0 s hs

theorem checkDispensers_of_spec (db : AllSetsData) (cclSize : Nat) (ds : List CardDispenser)
    (sources : Nat)
    (h : ∀ d ∈ ds, hasSource d ∧ (∀ c ∈ d.source_booster_set_codes, goodSetCode db c) ∧
      (∀ idx, d.source_custom_card_list_index = some idx → idx < cclSize)) :
    ∃ s, checkDispensers db cclSize ds sources = Except.ok s := by
  induction ds generalizing sources with
  | nil => exact ⟨sources, rfl⟩
  | cons d rest ih =>
    obtain ⟨hsrc, hgood, hidx⟩ := h d (List.mem_cons_self d rest)
    have hrest := fun d1 (h1 : d1 ∈ rest) => h d1 (List.mem_cons_of_mem d h1)
    unfold checkDispensers
    rw [checkSetCodes_of_good db _ sources hgood]
    simp only
    cases hi : d.source_custom_card_list_index with
    | none =>
      have hpos : ¬ sources + d.source_booster_set_codes.length < 1 := by
        rcases hsrc with hs | hs
        · have : 0 < d.source_booster_set_codes.length := List.length_pos.2 hs
          omega
        · exact absurd hi hs
      simp only [checkCustomListIndex, hi, if_neg hpos]
      exact ih _ hrest
    | some idx =>
      have hok := toInt32_not_ge_of_lt (hidx idx hi)
      have hpos : ¬ sources + d.source_booster_set_codes.length + 1 < 1 := by omega
      simp only [checkCustomListIndex, hi, if_neg hok, if_neg hpos]
      exact ih _ hrest

theorem checkRounds_of_spec (n : Nat) (rs : List Round) (hh : Homogeneous rs)
    (hok : ∀ r ∈ rs, roundConfigOk n r) :
    checkRounds n rs 0 false false = Outcome.accepted := by
  rcases checkRounds_of_roundConfigOk n rs 0 false false hok with h | h
  · exact h
  · exfalso
    cases rs with
    | nil => cases h
    | cons r rest =>
      have hr := hok r (List.mem_cons_self r rest)
      have hrest := fun r1 (h1 : r1 ∈ rest) => hok r1 (List.mem_cons_of_mem r h1)
      cases r with
      | booster_round ds =>
        have hall : ∀ r1 ∈ Round.booster_round ds :: rest, r1.kind = RoundKind.booster := by
          rcases hh with hb | ⟨ds1, hs⟩ | hg
          · exact hb
          · cases hs
          · exact absurd (hg _ (List.mem_cons_self _ rest)) (by simp [Round.kind])
        obtain ⟨hne, hv⟩ := hr
        have hlen : ¬ ds.length ≤ 0 := by
          have := List.length_pos.2 hne
          omega
        have hstep : checkRound n 0 false false (Round.booster_round ds) =
            Except.ok (true, false) := by
          simp [checkRound, checkRoundDispensations, hlen, checkDispensations_of_valid n ds hv]
        rw [checkRounds, hstep] at h
        simp only at h
        have hrun := checkRounds_booster_run n rest [] (0 + 1) (fun r1 h1 =>
          ⟨hall r1 (List.mem_cons_of_mem _ h1), hrest r1 h1⟩)
        rw [List.append_nil] at hrun
        rw [hrun] at h
        cases h
      | sealed_round ds =>
        have hnil : rest = [] := by
          rcases hh with hb | ⟨ds1, hs⟩ | hg
          · exact absurd (hb _ (List.mem_cons_self _ rest)) (by simp [Round.kind])
          · cases hs; rfl
          · exact absurd (hg _ (List.mem_cons_self _ rest)) (by simp [Round.kind])
        subst hnil
        obtain ⟨hne, hv⟩ := hr
        have hlen : ¬ ds.length ≤ 0 := by
          have := List.length_pos.2 hne
          omega
        have hstep : checkRound n 0 false false (Round.sealed_round ds) =
            Except.ok (false, false) := by
          simp [checkRound, checkRoundDispensations, hlen, checkDispensations_of_valid n ds hv]
        rw [checkRounds, hstep] at h
        cases h
      | grid_round idx =>
        have hall : ∀ r1 ∈ Round.grid_round idx :: rest, r1.kind = RoundKind.grid := by
          rcases hh with hb | ⟨ds1, hs⟩ | hg
          · exact absurd (hb _ (List.mem_cons_self _ rest)) (by simp [Round.kind])
          · cases hs
          · exact hg
        have hi := toInt32_not_ge_of_lt (show idx < n from hr)
        have hstep : checkRound n 0 false false (Round.grid_round idx) =
            Except.ok (false, true) := by
          simp [checkRound, checkRoundDispensations, hi, checkDispensations]
        rw [checkRounds, hstep] at h
        simp only at h
        have hrun := checkRounds_grid_run n rest [] (0 + 1) (fun r1 h1 =>
          ⟨hall r1 (List.mem_cons_of_mem _ h1), hrest r1 h1⟩)
        rw [List.append_nil] at hrun
        rw [hrun] at h
        cases h
      | not_set =>
        rcases hh with hb | ⟨ds1, hs⟩ | hg
        · exact absurd (hb _ (List.mem_cons_self _ rest)) (by simp [Round.kind])
        · cases hs
        · exact absurd (hg _ (List.mem_cons_self _ rest)) (by simp [Round.kind])

/-- A configuration that satisfies the nine checks of the specification is
accepted as soon as the custom card list loop of `validate` lets it through; in
particular when it has no custom card list. -/
theorem validate_accepts_of_specValid (db : AllSetsData) (cfg : RoomConfig)
    (h : specValid db cfg) (hl : passesCustomCardListChecks cfg) :
    validate db cfg = Outcome.accepted := by
  obtain ⟨h1, h2, h3, h4, h5, _, h7, h8⟩ := h
  have hc : passesCountChecks cfg := by
    refine ⟨h1, h2, ?_, ?_⟩
    · intro hr
      rw [hr] at h3
      simp at h3
    · intro hr
      rw [hr] at h4
      simp at h4
  rw [validate_of_passes_one_to_six db cfg hc (checkDispensers_of_spec db _ _ 0 h5) hl]
  exact checkRounds_of_spec _ _ h7 h8

/-! ## Theorems: the claims on checks 5-9 -/

/-- C2 (the code departs from the claim): a dispenser with no booster set code and
no custom-card-list index that follows a dispenser with a source is not rejected;
`validate` accepts the configuration, because the counter `sources` is not reset
between dispensers. -/
theorem validate_accepts_sourceless_second_dispenser :
    passesCountChecks sourcelessSecondConfig ∧
    sourcelessSecondConfig.draft_config.dispensers = [⟨["10E"], none⟩, ⟨[], none⟩] ∧
    goodSetCode sampleSets "10E" ∧
    ¬ hasSource ⟨[], none⟩ ∧
    validate sampleSets sourcelessSecondConfig = Outcome.accepted := by
  decide

/-- C3 (the code departs from the claim): a configuration that passes checks 1-5
and whose only custom card list has two entries with quantities 0 and 5, summing
to 5, is rejected with INVALID_CUSTOM_CARD_LIST, because the quantity loop reads
entry number `i` (the list number) at every step. -/
theorem validate_rejects_list_with_positive_total :
    passesCountChecks zeroThenFiveConfig ∧
    passesDispenserChecks sampleSets zeroThenFiveConfig ∧
    zeroThenFiveConfig.draft_config.dispensers = [⟨[], some 0⟩] ∧
    zeroThenFiveConfig.draft_config.custom_card_lists = [⟨[⟨0⟩, ⟨5⟩]⟩] ∧
    (∀ ccl ∈ zeroThenFiveConfig.draft_config.custom_card_lists,
      ccl.card_quantities ≠ [] ∧ 0 < totalQuantity ccl) ∧
    validate sampleSets zeroThenFiveConfig =
      Outcome.rejected ResultType.RESULT_INVALID_CUSTOM_CARD_LIST :=
  ⟨by decide, ⟨1, rfl⟩, rfl, rfl, by decide, by decide⟩

/-- C4, as stated, fails: the first dispenser has no source and fails no set-code or
custom-list-index check, the second names the unknown set code `XXXX`, which is the
first offending set code, and `validate` rejects with INVALID_DISPENSER_CONFIG, not
with INVALID_SET_CODE. -/
theorem validate_unknown_set_code_counterexample :
    passesCountChecks sourcelessThenUnknownConfig ∧
    sourcelessThenUnknownConfig.draft_config.dispensers =
      [⟨[], none⟩] ++ ⟨["XXXX"], none⟩ :: [] ∧
    "XXXX" ∉ sampleSets.getSetCodes ∧
    validate sampleSets sourcelessThenUnknownConfig =
      Outcome.rejected ResultType.RESULT_INVALID_DISPENSER_CONFIG ∧
    validate sampleSets sourcelessThenUnknownConfig ≠
      Outcome.rejected ResultType.RESULT_INVALID_SET_CODE := by
  decide

/-- C4, amended: for a configuration that passes checks 1-4, let `c` be the first
set code, scanning dispensers and their set codes in order, that is unknown to the
card database or lacks booster slots. If `c` is unknown, `validate` rejects with
INVALID_SET_CODE provided no earlier dispenser fails its custom-list-index check and
the first dispenser, when it comes before the offending one, has a source (so that
no earlier dispenser is rejected for having no sources). If `c` is known but lacks
booster slots, `validate` rejects with INVALID_DISPENSER_CONFIG. And no accepted
configuration names an unknown or non-booster set code. -/
theorem validate_first_offending_set_code (db : AllSetsData) (cfg : RoomConfig) :
    (∀ (pre post : List CardDispenser) (d : CardDispenser) (cs1 cs2 : List String)
        (c : String),
      passesCountChecks cfg →
      cfg.draft_config.dispensers = pre ++ d :: post →
      d.source_booster_set_codes = cs1 ++ c :: cs2 →
      (∀ d1 ∈ pre, ∀ c1 ∈ d1.source_booster_set_codes, goodSetCode db c1) →
      (∀ c1 ∈ cs1, goodSetCode db c1) →
      ¬ goodSetCode db c →
      (c ∉ db.getSetCodes →
        (∀ d1 ∈ pre, ∀ idx, d1.source_custom_card_list_index = some idx →
          ¬ toInt32 idx ≥ (cfg.draft_config.custom_card_lists.length : Int)) →
        (∀ d0, pre.head? = some d0 → hasSource d0) →
        validate db cfg = Outcome.rejected ResultType.RESULT_INVALID_SET_CODE) ∧
      (c ∈ db.getSetCodes →
        validate db cfg = Outcome.rejected ResultType.RESULT_INVALID_DISPENSER_CONFIG)) ∧
    (validate db cfg = Outcome.accepted →
      ∀ d ∈ cfg.draft_config.dispensers, ∀ c ∈ d.source_booster_set_codes,
        goodSetCode db c) := by
  constructor
  · intro pre post d cs1 cs2 c hc hds hd hpre hcs1 hbad
    constructor
    · intro hunknown hidx hsrc
      rw [validate_of_passesCountChecks db cfg hc, hds,
        checkDispensers_first_unknown db _ pre post d cs1 cs2 c 0 hpre hd hcs1 hunknown hidx
          (Or.inr hsrc)]
    · intro hknown
      have hb : db.hasBoosterSlots c = false := by
        cases hx : db.hasBoosterSlots c with
        | false => rfl
        | true => exact absurd ⟨hknown, hx⟩ hbad
      rw [validate_of_passesCountChecks db cfg hc, hds,
        checkDispensers_first_nonbooster db _ pre post d cs1 cs2 c 0 hpre hd hcs1 hknown hb]
  · intro h d hd c hcd
    obtain ⟨s, hs⟩ := (phases_of_accepted db cfg h).2.1
    exact checkDispensers_ok_good db _ _ 0 s hs d hd c hcd

/-- Instance of `validate_first_offending_set_code`: the unknown set code `XXXX`
after a known one, with a first dispenser that has a source, gives INVALID_SET_CODE;
the non-booster set code `EVG` gives INVALID_DISPENSER_CONFIG; the set codes of the
accepted booster model configuration are all good. -/
theorem validate_first_offending_set_code_witness :
    validate sampleSets knownThenUnknownConfig =
      Outcome.rejected ResultType.RESULT_INVALID_SET_CODE ∧
    validate sampleSets sourcelessThenNonBoosterConfig =
      Outcome.rejected ResultType.RESULT_INVALID_DISPENSER_CONFIG ∧
    (∀ d ∈ boosterModelConfig.draft_config.dispensers, ∀ c ∈ d.source_booster_set_codes,
      goodSetCode sampleSets c) :=
  ⟨((validate_first_offending_set_code sampleSets knownThenUnknownConfig).1
      [⟨["10E"], none⟩] [] ⟨["10E", "XXXX"], none⟩ ["10E"] [] "XXXX"
      (by decide) rfl rfl (by decide) (by decide) (by decide)).1
      (by decide) (by intro d1 h1 idx hidx; simp at h1; subst h1; cases hidx)
      (by intro d0 h0; simp at h0; subst h0; decide),
   ((validate_first_offending_set_code sampleSets sourcelessThenNonBoosterConfig).1
      [⟨[], none⟩] [] ⟨["EVG"], none⟩ [] [] "EVG"
      (by decide) rfl rfl (by decide) (by decide) (by decide)).2 (by decide),
   (validate_first_offending_set_code sampleSets boosterModelConfig).2 (by decide)⟩

/-- C5 (the code departs from the claim): a dispenser whose custom-card-list index
is 4294967295, with a single custom card list, is accepted: the index is stored in
an `int`, where it reads as -1, and -1 is not `>=` the number of lists. -/
theorem validate_accepts_huge_custom_list_index :
    hugeListIndexConfig.draft_config.dispensers = [⟨[], some 4294967295⟩] ∧
    ¬ (4294967295 < hugeListIndexConfig.draft_config.custom_card_lists.length) ∧
    toInt32 4294967295 = -1 ∧
    validate sampleSets hugeListIndexConfig = Outcome.accepted := by
  decide

/-- C7 (the code departs from the claim): a booster round whose dispensation has
the dispenser index 4294967295, with a single dispenser, is accepted: the cast
`(int)` reads the index as -1, and -1 is not `>=` the number of dispensers. -/
theorem validate_accepts_huge_dispenser_index :
    hugeDispenserIndexConfig.draft_config.rounds = [Round.booster_round [⟨4294967295⟩]] ∧
    ¬ (4294967295 < hugeDispenserIndexConfig.draft_config.dispensers.length) ∧
    toInt32 4294967295 = -1 ∧
    validate sampleSets hugeDispenserIndexConfig = Outcome.accepted := by
  decide

/-- A configuration that satisfies check 5 in the words of the specification gets
through the dispenser loop of `validate`. -/
theorem passesDispenserChecks_of_satisfies (db : AllSetsData) (cfg : RoomConfig)
    (h : satisfiesDispenserCheck db cfg) : passesDispenserChecks db cfg :=
  checkDispensers_of_spec db _ _ 0 h

/-- A configuration without custom card lists gets through the custom card list
loop of `validate`. -/
theorem passesCustomCardListChecks_of_no_lists (cfg : RoomConfig)
    (h : cfg.draft_config.custom_card_lists = []) : passesCustomCardListChecks cfg := by
  unfold passesCustomCardListChecks
  rw [h]
  rfl

/-- C6 (the code departs from the claim): the configuration satisfies checks 1-6 in
the words of the specification (its two custom card lists have entries whose
quantities sum to 2 and 3), each of its rounds satisfies checks 8-9, and its rounds
mix a booster round with a sealed round; `validate` rejects it with
INVALID_CUSTOM_CARD_LIST, not with INVALID_DRAFT_TYPE, because for the second list
the quantity loop reads entry number 1, of quantity 0, twice. -/
theorem validate_mixed_rounds_custom_list :
    passesCountChecks twoListsMixedRoundsConfig ∧
    satisfiesDispenserCheck sampleSets twoListsMixedRoundsConfig ∧
    satisfiesCustomCardListCheck twoListsMixedRoundsConfig ∧
    twoListsMixedRoundsConfig.draft_config.custom_card_lists =
      [⟨[⟨1⟩, ⟨1⟩]⟩, ⟨[⟨3⟩, ⟨0⟩]⟩] ∧
    (twoListsMixedRoundsConfig.draft_config.custom_card_lists.map totalQuantity) = [2, 3] ∧
    twoListsMixedRoundsConfig.draft_config.rounds =
      [Round.booster_round [⟨0⟩], Round.sealed_round [⟨0⟩]] ∧
    (∀ r ∈ twoListsMixedRoundsConfig.draft_config.rounds,
      roundConfigOk twoListsMixedRoundsConfig.draft_config.dispensers.length r) ∧
    mixesTypes twoListsMixedRoundsConfig.draft_config.rounds ∧
    validate sampleSets twoListsMixedRoundsConfig =
      Outcome.rejected ResultType.RESULT_INVALID_CUSTOM_CARD_LIST ∧
    validate sampleSets twoListsMixedRoundsConfig ≠
      Outcome.rejected ResultType.RESULT_INVALID_DRAFT_TYPE := by
  decide

/-- C8, as stated, fails: the configuration satisfies checks 1-6 in the words of the
specification, `validate` does not reject it at any of them, and it mixes a booster
round with a sealed round; its first round, before the offending sealed round, has
no dispensations, and `validate` rejects with INVALID_ROUND_CONFIG, not with
INVALID_DRAFT_TYPE. -/
theorem validate_first_offending_round_counterexample :
    passesCountChecks emptyBoosterThenSealedConfig ∧
    satisfiesDispenserCheck sampleSets emptyBoosterThenSealedConfig ∧
    satisfiesCustomCardListCheck emptyBoosterThenSealedConfig ∧
    passesDispenserChecks sampleSets emptyBoosterThenSealedConfig ∧
    passesCustomCardListChecks emptyBoosterThenSealedConfig ∧
    emptyBoosterThenSealedConfig.draft_config.rounds =
      [Round.booster_round [], Round.sealed_round [⟨0⟩]] ∧
    mixesTypes emptyBoosterThenSealedConfig.draft_config.rounds ∧
    ¬ Homogeneous emptyBoosterThenSealedConfig.draft_config.rounds ∧
    validate sampleSets emptyBoosterThenSealedConfig =
      Outcome.rejected ResultType.RESULT_INVALID_ROUND_CONFIG ∧
    validate sampleSets emptyBoosterThenSealedConfig ≠
      Outcome.rejected ResultType.RESULT_INVALID_DRAFT_TYPE := by
  decide

/-- C8, amended: for a configuration that `validate` does not reject at checks 1-6
(checks 1-4 hold, and its dispenser loop and its custom card list loop run to
their end) and whose rounds are not homogeneous, let `r` be the first offending
round, the one with which the rounds stop being homogeneous. `validate` rejects
with INVALID_DRAFT_TYPE, also when `r` or a round after it has no dispensations or
an invalid dispenser index, provided every round before `r` satisfies checks 8-9. -/
theorem validate_first_offending_round (db : AllSetsData) (cfg : RoomConfig)
    (pre post : List Round) (r : Round)
    (hc : passesCountChecks cfg) (hd : passesDispenserChecks db cfg)
    (hl : passesCustomCardListChecks cfg)
    (hrs : cfg.draft_config.rounds = pre ++ r :: post)
    (hpre : Homogeneous pre) (hoff : ¬ Homogeneous (pre ++ [r]))
    (hok : ∀ r1 ∈ pre, roundConfigOk cfg.draft_config.dispensers.length r1) :
    validate db cfg = Outcome.rejected ResultType.RESULT_INVALID_DRAFT_TYPE := by
  rw [validate_of_passes_one_to_six db cfg hc hd hl, hrs]
  exact checkRounds_first_offending _ pre post r hpre hoff hok

/-- Instance of `validate_first_offending_round`: a valid booster round followed by a
sealed round without dispensations is rejected with INVALID_DRAFT_TYPE. -/
theorem validate_first_offending_round_witness :
    validate sampleSets boosterThenEmptySealedConfig =
      Outcome.rejected ResultType.RESULT_INVALID_DRAFT_TYPE :=
  validate_first_offending_round sampleSets boosterThenEmptySealedConfig
    [Round.booster_round [⟨0⟩]] [] (Round.sealed_round [])
    (by decide) ⟨1, rfl⟩ (by decide) rfl
    (Or.inl (fun r1 h1 => by simp at h1; subst h1; rfl))
    (not_homogeneous_of_mixesTypes _
      ⟨Round.booster_round [⟨0⟩], by decide, Round.sealed_round [], by decide, by decide⟩)
    (by decide)

/-- C9 (the code departs from the claim): a configuration with 8 chairs and 7 bots
that satisfies all nine checks of the specification, with two custom card lists
whose quantities sum to 2 and 3, is rejected with INVALID_CUSTOM_CARD_LIST: for the
second list the quantity loop reads entry number 1, of quantity 0, twice. -/
theorem validate_rejects_spec_valid_config :
    specValid sampleSets twoListsConfig ∧
    twoListsConfig.bot_count = twoListsConfig.draft_config.chair_count - 1 ∧
    twoListsConfig.draft_config.custom_card_lists = [⟨[⟨1⟩, ⟨1⟩]⟩, ⟨[⟨3⟩, ⟨0⟩]⟩] ∧
    validate sampleSets twoListsConfig =
      Outcome.rejected ResultType.RESULT_INVALID_CUSTOM_CARD_LIST := by
  decide

/-! ## Theorems: the log leaves the rest of the room unchanged -/

@[simp] theorem emit_mPassword (s : ServerRoom) (actions : List Action) :
    (s.emit actions).mPassword = s.mPassword := rfl

@[simp] theorem emit_mChairCount (s : ServerRoom) (actions : List Action) :
    (s.emit actions).mChairCount = s.mChairCount := rfl

@[simp] theorem emit_mBotPlayerCount (s : ServerRoom) (actions : List Action) :
    (s.emit actions).mBotPlayerCount = s.mBotPlayerCount := rfl

@[simp] theorem emit_mDraftComplete (s : ServerRoom) (actions : List Action) :
    (s.emit actions).mDraftComplete = s.mDraftComplete := rfl

@[simp] theorem emit_mPublicStatePresent (s : ServerRoom) (actions : List Action) :
    (s.emit actions).mPublicStatePresent = s.mPublicStatePresent := rfl

@[simp] theorem emit_mPostRoundTimerActive (s : ServerRoom) (actions : List Action) :
    (s.emit actions).mPostRoundTimerActive = s.mPostRoundTimerActive := rfl

@[simp] theorem emit_mPostRoundTimerTicksRemaining (s : ServerRoom) (actions : List Action) :
    (s.emit actions).mPostRoundTimerTicksRemaining = s.mPostRoundTimerTicksRemaining := rfl

@[simp] theorem emit_mChairStateList (s : ServerRoom) (actions : List Action) :
    (s.emit actions).mChairStateList = s.mChairStateList := rfl

@[simp] theorem emit_mBotList (s : ServerRoom) (actions : List Action) :
    (s.emit actions).mBotList = s.mBotList := rfl

@[simp] theorem emit_mClientConnectionMap (s : ServerRoom) (actions : List Action) :
    (s.emit actions).mClientConnectionMap = s.mClientConnectionMap := rfl

@[simp] theorem emit_mRoomExpirationTimer (s : ServerRoom) (actions : List Action) :
    (s.emit actions).mRoomExpirationTimer = s.mRoomExpirationTimer := rfl

@[simp] theorem emit_mDraftTimer (s : ServerRoom) (actions : List Action) :
    (s.emit actions).mDraftTimer = s.mDraftTimer := rfl

@[simp] theorem emit_mDraft (s : ServerRoom) (actions : List Action) :
    (s.emit actions).mDraft = s.mDraft := rfl

@[simp] theorem emit_nextHumanId (s : ServerRoom) (actions : List Action) :
    (s.emit actions).nextHumanId = s.nextHumanId := rfl

@[simp] theorem emit_log (s : ServerRoom) (actions : List Action) :
    (s.emit actions).log = s.log ++ actions := rfl

@[simp] theorem emit_emit (s : ServerRoom) (a b : List Action) :
    (s.emit a).emit b = s.emit (a ++ b) := by
  simp [ServerRoom.emit]

theorem emit_nil (s : ServerRoom) : s.emit [] = s := by
  simp [ServerRoom.emit]

theorem sendJoinRoomSuccessRspInd_eq_emit (s : ServerRoom) (c : ClientConnection) (roomId : Nat)
    (rejoin : Bool) (chairIndex : Int) :
    s.sendJoinRoomSuccessRspInd c roomId rejoin chairIndex =
      s.emit [Action.sendProtoMsg c
        (ServerToClientMsg.join_room_success_rspind roomId rejoin chairIndex)] := rfl

theorem sendJoinRoomFailureRsp_eq_emit (s : ServerRoom) (c : ClientConnection)
    (result : JoinRoomFailureResult) (roomId : Nat) :
    s.sendJoinRoomFailureRsp c result roomId =
      s.emit [Action.sendProtoMsg c (ServerToClientMsg.join_room_failure_rsp result roomId)] :=
  rfl

theorem broadcastRoomOccupantsInfo_eq_emit (s : ServerRoom) :
    s.broadcastRoomOccupantsInfo =
      s.emit ((mapKeys s.mClientConnectionMap).map (fun c => Action.sendProtoMsg c
        (ServerToClientMsg.room_occupants_info_ind s.mRoomId
          (occupantInfos s.mBotList s.mPlayerList s.mChairStateList 0)))) := rfl

theorem sendPublicState_eq_emit (s : ServerRoom) (cs : List ClientConnection) :
    s.sendPublicState cs =
      s.emit (if s.mPublicStatePresent then
        cs.map (fun c => Action.sendProtoMsg c ServerToClientMsg.public_state_ind) else []) := by
  unfold ServerRoom.sendPublicState
  cases s.mPublicStatePresent with
  | true => simp
  | false => simp [emit_nil]

/-- The state `rejoin` returns differs from the room with the connection mapped
and the chair ACTIVE by its log only. -/
theorem rejoin_eq_emit (s : ServerRoom) (c : ClientConnection) (name : String)
    (humanPlayer : HumanPlayer) (hfind : s.getHumanPlayer name = some humanPlayer)
    (hdep : s.mChairStateList[humanPlayer.chairIndex]? = some ChairState.CHAIR_STATE_DEPARTED) :
    ∃ actions, s.rejoin c name =
      (({ s with
          mClientConnectionMap := mapInsert c humanPlayer s.mClientConnectionMap
          mChairStateList :=
            s.mChairStateList.set humanPlayer.chairIndex ChairState.CHAIR_STATE_ACTIVE
          mRoomExpirationTimer := none } : ServerRoom).emit actions, true) := by
  unfold ServerRoom.rejoin
  simp only [hfind, hdep, ne_eq, not_true_eq_false, if_false]
  simp only [sendJoinRoomSuccessRspInd_eq_emit, broadcastRoomOccupantsInfo_eq_emit,
    sendPublicState_eq_emit, emit_emit, emit_mDraft]
  cases hst : s.mDraft.state <;> simp [hst]

/-! ## Theorems: seats of the room -/

theorem seatsConsistent_set_occupied {ps : List (Option Player)} {cs : List ChairState}
    (h : seatsConsistent ps cs) (k : Nat) (p : Player) (st : ChairState)
    (hst : st ≠ ChairState.CHAIR_STATE_EMPTY) :
    seatsConsistent (ps.set k (some p)) (cs.set k st) := by
  refine ⟨by simp [h.1], ?_⟩
  intro i
  rw [List.getElem?_set, List.getElem?_set]
  by_cases hki : k = i
  · subst hki
    by_cases hk : k < ps.length
    · have hk2 : k < cs.length := h.1 ▸ hk
      simp [hk, hk2, hst]
    · have hk2 : ¬ k < cs.length := h.1 ▸ hk
      simp [hk, hk2]
  · simp only [if_neg hki]
    exact h.2 i

theorem seatsConsistent_set_empty {ps : List (Option Player)} {cs : List ChairState}
    (h : seatsConsistent ps cs) (k : Nat) :
    seatsConsistent (ps.set k none) (cs.set k ChairState.CHAIR_STATE_EMPTY) := by
  refine ⟨by simp [h.1], ?_⟩
  intro i
  rw [List.getElem?_set, List.getElem?_set]
  by_cases hki : k = i
  · subst hki
    by_cases hk : k < ps.length
    · have hk2 : k < cs.length := h.1 ▸ hk
      simp [hk, hk2]
    · have hk2 : ¬ k < cs.length := h.1 ▸ hk
      simp [hk, hk2]
  · simp only [if_neg hki]
    exact h.2 i

theorem seatsConsistent_set_state {ps : List (Option Player)} {cs : List ChairState}
    (h : seatsConsistent ps cs) (k : Nat) (st st1 : ChairState) (hk : cs[k]? = some st)
    (hst : st ≠ ChairState.CHAIR_STATE_EMPTY) (hst1 : st1 ≠ ChairState.CHAIR_STATE_EMPTY) :
    seatsConsistent ps (cs.set k st1) := by
  refine ⟨by simp [h.1], ?_⟩
  intro i
  rw [List.getElem?_set]
  by_cases hki : k = i
  · subst hki
    have hlt : k < cs.length := (List.getElem?_eq_some.1 hk).1
    have hp : ¬ ps[k]? = some none := by
      intro hp
      have := (h.2 k).1 hp
      rw [hk] at this
      exact hst (Option.some.inj this)
    simp [hlt, hst1, hp]
  · simp only [if_neg hki]
    exact h.2 i

theorem seatsConsistent_all_active {ps : List (Option Player)} {cs : List ChairState}
    (h : seatsConsistent ps cs)
    (hall : cs.all (fun st => decide (st = ChairState.CHAIR_STATE_READY)) = true) :
    seatsConsistent ps (cs.map (fun _ => ChairState.CHAIR_STATE_ACTIVE)) := by
  refine ⟨by simp [h.1], ?_⟩
  intro i
  rw [List.getElem?_map]
  have hready : ∀ st, cs[i]? = some st → st = ChairState.CHAIR_STATE_READY := by
    intro st hst
    have hmem : st ∈ cs := List.mem_iff_getElem?.2 ⟨i, hst⟩
    have := List.all_eq_true.1 hall st hmem
    simpa using this
  cases hci : cs[i]? with
  | none =>
    have hp : ¬ ps[i]? = some none := by
      intro hp
      have := (h.2 i).1 hp
      rw [hci] at this
      cases this
    simp [hp]
  | some st =>
    have hst := hready st hci
    have hp : ¬ ps[i]? = some none := by
      intro hp
      have := (h.2 i).1 hp
      rw [hci, hst] at this
      cases this
    simp [hp]

theorem placeBots_seatsConsistent (n chairIndex : Nat) (s : ServerRoom)
    (h : s.SeatsConsistent) : (placeBots n chairIndex s).SeatsConsistent := by
  induction n generalizing chairIndex s with
  | zero => exact h
  | succ n ih =>
    unfold placeBots
    apply ih
    exact seatsConsistent_set_occupied h chairIndex _ _ (by decide)

theorem initialize_seatsConsistent (roomId : Nat) (password : String) (roomConfig : RoomConfig) :
    ServerRoom.SeatsConsistent ( ServerRoom.initialize (ServerRoom.create roomId password roomConfig)) := by
  unfold ServerRoom.initialize
  split
  · refine ⟨rfl, ?_⟩
    intro i
    simp [ServerRoom.emit, ServerRoom.create]
  · have hbase : ({ ServerRoom.create roomId password roomConfig with
        mPlayerList := (ServerRoom.create roomId password roomConfig).mPlayerList ++
          List.replicate (ServerRoom.create roomId password roomConfig).mChairCount none
        mChairStateList := (ServerRoom.create roomId password roomConfig).mChairStateList ++
          List.replicate (ServerRoom.create roomId password roomConfig).mChairCount
            ChairState.CHAIR_STATE_EMPTY
        mRoomExpirationTimer := some (CREATED_ROOM_EXPIRATION_SECONDS * 1000) } :
          ServerRoom).SeatsConsistent := by
      refine ⟨by simp [ServerRoom.create], ?_⟩
      intro i
      simp only [ServerRoom.create, List.nil_append, List.getElem?_replicate]
      split <;> simp
    have key := fun n => placeBots_seatsConsistent n 0 _ hbase
    simp only
    split <;> split <;> exact key _

theorem getHumanPlayer_eq_none (s : ServerRoom) (name : String)
    (h : ∀ human ∈ s.mHumanList, human.name ≠ name) : s.getHumanPlayer name = none := by
  unfold ServerRoom.getHumanPlayer
  rw [List.find?_eq_none]
  intro x hx
  simpa using h x hx

theorem password_check_passes (s : ServerRoom) (password : String)
    (h : s.mPassword = "" ∨ password = s.mPassword) :
    (!s.mPassword.isEmpty && password != s.mPassword) = false := by
  rcases h with h | h
  · rw [h]
    rfl
  · rw [h]
    simp

/-- The answer of `join` to a wrong password: nothing but the failure response. -/
theorem join_wrong_password (s : ServerRoom) (clientConnection : ClientConnection)
    (name password : String) (chairIndex : Int)
    (hname : ∀ human ∈ s.mHumanList, human.name ≠ name)
    (hpw : s.mPassword ≠ "" ∧ password ≠ s.mPassword) :
    s.join clientConnection name password chairIndex =
      { room := s.emit [Action.sendProtoMsg clientConnection
          (ServerToClientMsg.join_room_failure_rsp
            JoinRoomFailureResult.RESULT_INVALID_PASSWORD s.mRoomId)]
        result := false
        chairIndex := chairIndex } := by
  have hfind := getHumanPlayer_eq_none s name hname
  have hne : s.mPassword.isEmpty = false := by
    cases he : s.mPassword.isEmpty with
    | false => rfl
    | true => exact absurd ((String.isEmpty_iff _).1 he) hpw.1
  have hcond : (!s.mPassword.isEmpty && password != s.mPassword) = true := by
    simp [hne, hpw.2]
  unfold ServerRoom.join
  simp only [hfind, hcond, if_true, sendJoinRoomFailureRsp_eq_emit]

/-- The log of `join` for a new name and an acceptable password: the actions added
hold no INVALID_PASSWORD response. -/
theorem join_acceptable_password (s : ServerRoom) (clientConnection : ClientConnection)
    (name password : String) (chairIndex : Int)
    (hname : ∀ human ∈ s.mHumanList, human.name ≠ name)
    (hpw : s.mPassword = "" ∨ password = s.mPassword) :
    ∃ added, (s.join clientConnection name password chairIndex).room.log = s.log ++ added ∧
      ∀ c roomId, Action.sendProtoMsg c (ServerToClientMsg.join_room_failure_rsp
        JoinRoomFailureResult.RESULT_INVALID_PASSWORD roomId) ∉ added := by
  have hfind := getHumanPlayer_eq_none s name hname
  have hcond := password_check_passes s password hpw
  unfold ServerRoom.join
  simp only [hfind, hcond, Bool.false_eq_true, if_false]
  split
  · refine ⟨_, rfl, ?_⟩
    intro c roomId hmem
    simp at hmem
  · simp only [sendJoinRoomSuccessRspInd_eq_emit, broadcastRoomOccupantsInfo_eq_emit,
      emit_emit, emit_log]
    refine ⟨_, rfl, ?_⟩
    intro c roomId hmem
    simp at hmem

/-- C11: for every room, a `join` by a name held by no human of the room fails with
JoinRoomFailureRsp INVALID_PASSWORD (the response is sent, `join` returns false and
nothing else happens) exactly when the room has a password and the candidate
differs from it, whatever the chairs are, full room included; with an acceptable
password, and so in a room with no password, no INVALID_PASSWORD response is sent. -/
theorem join_invalid_password_iff (s : ServerRoom) (clientConnection : ClientConnection)
    (name password : String) (chairIndex : Int)
    (hname : ∀ human ∈ s.mHumanList, human.name ≠ name) :
    ((s.join clientConnection name password chairIndex).result = false ∧
      (s.join clientConnection name password chairIndex).room =
        s.emit [Action.sendProtoMsg clientConnection
          (ServerToClientMsg.join_room_failure_rsp
            JoinRoomFailureResult.RESULT_INVALID_PASSWORD s.mRoomId)] ↔
      s.mPassword ≠ "" ∧ password ≠ s.mPassword) ∧
    (¬ (s.mPassword ≠ "" ∧ password ≠ s.mPassword) →
      ∃ added, (s.join clientConnection name password chairIndex).room.log = s.log ++ added ∧
        ∀ c roomId, Action.sendProtoMsg c (ServerToClientMsg.join_room_failure_rsp
          JoinRoomFailureResult.RESULT_INVALID_PASSWORD roomId) ∉ added) := by
  have hacc : ¬ (s.mPassword ≠ "" ∧ password ≠ s.mPassword) →
      (s.mPassword = "" ∨ password = s.mPassword) := by
    intro h
    by_cases h1 : s.mPassword = ""
    · exact Or.inl h1
    · by_cases h2 : password = s.mPassword
      · exact Or.inr h2
      · exact absurd ⟨h1, h2⟩ h
  constructor
  · constructor
    · rintro ⟨_, hroom⟩
      by_contra hnot
      obtain ⟨added, hlog, hno⟩ :=
        join_acceptable_password s clientConnection name password chairIndex hname (hacc hnot)
      rw [hroom, emit_log] at hlog
      have := List.append_cancel_left hlog
      exact hno clientConnection s.mRoomId (this ▸ List.mem_singleton_self _)
    · intro hpw
      rw [join_wrong_password s clientConnection name password chairIndex hname hpw]
      exact ⟨rfl, rfl⟩
  · intro hnot
    exact join_acceptable_password s clientConnection name password chairIndex hname (hacc hnot)

/-- Instance of `join_invalid_password_iff`: in a room with the password `secret`
a wrong candidate gets INVALID_PASSWORD, also once the only chair is taken, and the
right candidate gets no such response. -/
theorem join_invalid_password_iff_witness :
    ((lockedRoom.join 5 "alice" "wrong" 0).result = false ∧
      (lockedRoom.join 5 "alice" "wrong" 0).room =
        lockedRoom.emit [Action.sendProtoMsg 5
          (ServerToClientMsg.join_room_failure_rsp
            JoinRoomFailureResult.RESULT_INVALID_PASSWORD lockedRoom.mRoomId)]) ∧
    (((lockedRoom.join 5 "alice" "secret" 0).room.join 6 "bob" "wrong" 0).result = false ∧
      ((lockedRoom.join 5 "alice" "secret" 0).room.join 6 "bob" "wrong" 0).room =
        (lockedRoom.join 5 "alice" "secret" 0).room.emit [Action.sendProtoMsg 6
          (ServerToClientMsg.join_room_failure_rsp
            JoinRoomFailureResult.RESULT_INVALID_PASSWORD
            (lockedRoom.join 5 "alice" "secret" 0).room.mRoomId)]) ∧
    (∃ added, (lockedRoom.join 5 "alice" "secret" 0).room.log = lockedRoom.log ++ added ∧
      ∀ c roomId, Action.sendProtoMsg c (ServerToClientMsg.join_room_failure_rsp
        JoinRoomFailureResult.RESULT_INVALID_PASSWORD roomId) ∉ added) :=
  ⟨(join_invalid_password_iff lockedRoom 5 "alice" "wrong" 0 (by decide)).1.2 (by decide),
   (join_invalid_password_iff (lockedRoom.join 5 "alice" "secret" 0).room 6 "bob" "wrong" 0
      (by decide)).1.2 (by decide),
   (join_invalid_password_iff lockedRoom 5 "alice" "secret" 0 (by decide)).2 (by decide)⟩

/-! ## Theorems: failing joins -/

/-- A `join` that returns false leaves the room as it was, up to the log. -/
theorem join_failure_unchanged (s : ServerRoom) (clientConnection : ClientConnection)
    (name password : String) (chairIndex : Int)
    (h : (s.join clientConnection name password chairIndex).result = false) :
    ∃ added, (s.join clientConnection name password chairIndex).room = s.emit added := by
  unfold ServerRoom.join at h ⊢
  split at h
  · rename_i human hfind
    cases hdep : decide (s.mChairStateList[human.chairIndex]? =
        some ChairState.CHAIR_STATE_DEPARTED) with
    | true =>
      have hdep1 := of_decide_eq_true hdep
      obtain ⟨actions, hr⟩ := rejoin_eq_emit s clientConnection name human hfind hdep1
      simp only [hr] at h
      cases h
    | false =>
      have hdep1 := of_decide_eq_false hdep
      simp only [hfind]
      unfold ServerRoom.rejoin
      simp only [hfind, ne_eq, hdep1, not_false_eq_true, if_true]
      exact ⟨[], (emit_nil s).symm⟩
  · rename_i hfind
    simp only [hfind]
    split
    · exact ⟨_, rfl⟩
    · rename_i hc
      simp only [hc, if_false] at h
      split
      · exact ⟨_, rfl⟩
      · rename_i hidx
        simp only [hidx, if_false] at h
        cases h

/-- C13 (the code departs from the claim): `alice` sits in chair 1 in state STANDBY;
a `join` under the name `alice` from connection 6 returns false and leaves the
room, log included, exactly as it was: no JoinRoomFailureRsp, nor any other
message, is sent to the requesting client. -/
theorem join_name_in_use_sends_nothing :
    roomWithAlice.mHumanList = [{ id := 0, name := "alice", chairIndex := 1 }] ∧
    roomWithAlice.mChairStateList =
      [ChairState.CHAIR_STATE_READY, ChairState.CHAIR_STATE_STANDBY] ∧
    (roomWithAlice.join 6 "alice" "" 0).result = false ∧
    (roomWithAlice.join 6 "alice" "" 0).room = roomWithAlice ∧
    (roomWithAlice.join 6 "alice" "" 0).room.log = roomWithAlice.log := by
  decide

/-! ## Theorems: leaving a room -/

/-- Effect of `leave` when the chair of the leaving human is ACTIVE. -/
theorem leave_active_eq (s : ServerRoom) (clientConnection : ClientConnection)
    (human : HumanPlayer)
    (hfind : mapFind clientConnection s.mClientConnectionMap = some human)
    (hact : s.mChairStateList[human.chairIndex]? = some ChairState.CHAIR_STATE_ACTIVE) :
    s.leave clientConnection =
      ({ s with
          mClientConnectionMap := mapRemove clientConnection s.mClientConnectionMap
          mChairStateList :=
            s.mChairStateList.set human.chairIndex ChairState.CHAIR_STATE_DEPARTED
          mRoomExpirationTimer :=
            if (mapRemove clientConnection s.mClientConnectionMap).isEmpty then some 120000
            else s.mRoomExpirationTimer } : ServerRoom).emit
        (Action.removeClientConnection human :: Action.playerCountChanged ::
          (mapKeys (mapRemove clientConnection s.mClientConnectionMap)).map
            (fun c => Action.sendProtoMsg c
              (ServerToClientMsg.room_occupants_info_ind s.mRoomId
                (occupantInfos s.mBotList s.mPlayerList
                  (s.mChairStateList.set human.chairIndex ChairState.CHAIR_STATE_DEPARTED)
                  0)))) := by
  unfold ServerRoom.leave
  simp only [hfind, emit_mChairStateList, hact, if_true]
  cases he : (mapRemove clientConnection s.mClientConnectionMap).isEmpty <;>
    simp [he, ServerRoom.emit, ServerRoom.broadcastRoomOccupantsInfo,
      ABANDONED_ROOM_EXPIRATION_SECONDS]

/-- Effect of `leave` when the chair of the leaving human is not ACTIVE. -/
theorem leave_inactive_eq (s : ServerRoom) (clientConnection : ClientConnection)
    (human : HumanPlayer)
    (hfind : mapFind clientConnection s.mClientConnectionMap = some human)
    (hact : s.mChairStateList[human.chairIndex]? ≠ some ChairState.CHAIR_STATE_ACTIVE) :
    s.leave clientConnection =
      ({ s with
          mClientConnectionMap := mapRemove clientConnection s.mClientConnectionMap
          mHumanList := s.mHumanList.erase human
          mPlayerList := s.mPlayerList.set human.chairIndex none
          mChairStateList :=
            s.mChairStateList.set human.chairIndex ChairState.CHAIR_STATE_EMPTY } :
          ServerRoom).emit
        (Action.removeClientConnection human :: Action.removeObserver (Player.human human) ::
          ((if (mapRemove clientConnection s.mClientConnectionMap).isEmpty then
              [Action.roomExpired] else []) ++
            Action.playerCountChanged ::
            (mapKeys (mapRemove clientConnection s.mClientConnectionMap)).map
              (fun c => Action.sendProtoMsg c
                (ServerToClientMsg.room_occupants_info_ind s.mRoomId
                  (occupantInfos s.mBotList (s.mPlayerList.set human.chairIndex none)
                    (s.mChairStateList.set human.chairIndex ChairState.CHAIR_STATE_EMPTY)
                    0))))) := by
  unfold ServerRoom.leave
  simp only [hfind, emit_mChairStateList, hact, if_false]
  cases he : (mapRemove clientConnection s.mClientConnectionMap).isEmpty <;>
    simp [he, ServerRoom.emit, ServerRoom.broadcastRoomOccupantsInfo]


theorem mapFind_mapRemove (k : ClientConnection) (m : List (ClientConnection × HumanPlayer)) :
    mapFind k (mapRemove k m) = none := by
  induction m with
  | nil => rfl
  | cons e rest ih =>
    obtain ⟨k1, v1⟩ := e
    unfold mapRemove at ih ⊢
    by_cases hk : k1 = k
    · simp only [List.filter, hk, ne_eq, not_true_eq_false, decide_False]
      exact ih
    · have hk2 : ¬ k = k1 := fun h => hk h.symm
      simp only [List.filter, ne_eq, hk, not_false_eq_true, decide_True, mapFind, hk2, if_false]
      exact ih

/-- C14: for every room and every `leave` of a connection mapped to a human in
chair `c`: the connection is removed from the connection map; if chair `c` was
ACTIVE it becomes DEPARTED and the roster and the player list stay as they are;
otherwise the human is removed from the roster, the player entry of chair `c` is
cleared and chair `c` becomes EMPTY; no other chair changes; a `leave` by a
connection that is not in the map changes nothing. -/
theorem leave_effect (s : ServerRoom) (clientConnection : ClientConnection) :
    (mapFind clientConnection s.mClientConnectionMap = none →
      s.leave clientConnection = s) ∧
    (∀ human, mapFind clientConnection s.mClientConnectionMap = some human →
      (s.leave clientConnection).mClientConnectionMap =
        mapRemove clientConnection s.mClientConnectionMap ∧
      mapFind clientConnection (s.leave clientConnection).mClientConnectionMap = none ∧
      (s.mChairStateList[human.chairIndex]? = some ChairState.CHAIR_STATE_ACTIVE →
        (s.leave clientConnection).mChairStateList =
          s.mChairStateList.set human.chairIndex ChairState.CHAIR_STATE_DEPARTED ∧
        (s.leave clientConnection).mHumanList = s.mHumanList ∧
        (s.leave clientConnection).mPlayerList = s.mPlayerList) ∧
      (s.mChairStateList[human.chairIndex]? ≠ some ChairState.CHAIR_STATE_ACTIVE →
        (s.leave clientConnection).mChairStateList =
          s.mChairStateList.set human.chairIndex ChairState.CHAIR_STATE_EMPTY ∧
        (s.leave clientConnection).mHumanList = s.mHumanList.erase human ∧
        (s.leave clientConnection).mPlayerList =
          s.mPlayerList.set human.chairIndex none)) := by
  constructor
  · intro hnone
    unfold ServerRoom.leave
    simp only [hnone]
  · intro human hfind
    have hmap : (s.leave clientConnection).mClientConnectionMap =
        mapRemove clientConnection s.mClientConnectionMap := by
      by_cases hact : s.mChairStateList[human.chairIndex]? = some ChairState.CHAIR_STATE_ACTIVE
      · rw [leave_active_eq s clientConnection human hfind hact]
        rfl
      · rw [leave_inactive_eq s clientConnection human hfind hact]
        rfl
    refine ⟨hmap, ?_, ?_, ?_⟩
    · rw [hmap]
      exact mapFind_mapRemove _ _
    · intro hact
      rw [leave_active_eq s clientConnection human hfind hact]
      exact ⟨rfl, rfl, rfl⟩
    · intro hact
      rw [leave_inactive_eq s clientConnection human hfind hact]
      exact ⟨rfl, rfl, rfl⟩

/-- Instance of `leave_effect`: in the running sample room the leave of connection 5
turns chair 1 from ACTIVE to DEPARTED and keeps `alice` in the roster; before the
draft has started it empties chair 1 and removes `alice`; the leave of the unknown
connection 9 changes nothing. -/
theorem leave_effect_witness :
    ((runningRoom.leave 5).mClientConnectionMap = mapRemove 5 runningRoom.mClientConnectionMap ∧
      mapFind 5 (runningRoom.leave 5).mClientConnectionMap = none ∧
      (runningRoom.leave 5).mChairStateList =
        runningRoom.mChairStateList.set 1 ChairState.CHAIR_STATE_DEPARTED ∧
      (runningRoom.leave 5).mHumanList = runningRoom.mHumanList ∧
      (runningRoom.leave 5).mPlayerList = runningRoom.mPlayerList) ∧
    ((roomWithAlice.leave 5).mChairStateList =
        roomWithAlice.mChairStateList.set 1 ChairState.CHAIR_STATE_EMPTY ∧
      (roomWithAlice.leave 5).mHumanList =
        roomWithAlice.mHumanList.erase { id := 0, name := "alice", chairIndex := 1 } ∧
      (roomWithAlice.leave 5).mPlayerList = roomWithAlice.mPlayerList.set 1 none) ∧
    runningRoom.leave 9 = runningRoom :=
  ⟨⟨((leave_effect runningRoom 5).2 { id := 0, name := "alice", chairIndex := 1 }
        (by decide)).1,
    ((leave_effect runningRoom 5).2 { id := 0, name := "alice", chairIndex := 1 }
        (by decide)).2.1,
    ((leave_effect runningRoom 5).2 { id := 0, name := "alice", chairIndex := 1 }
        (by decide)).2.2.1 (by decide)⟩,
   ((leave_effect roomWithAlice 5).2 { id := 0, name := "alice", chairIndex := 1 }
      (by decide)).2.2.2 (by decide),
   (leave_effect runningRoom 9).1 (by decide)⟩

/-- C17: when `leave` removes the last connection of the room: if the leaving chair
was ACTIVE the expiration timer is armed for 120 seconds (120000 ms) and no expiry
is signalled, whatever bots occupy chairs; if the leaving chair was not ACTIVE,
`roomExpired` is signalled and the timer is left as it was; while a connection
remains, `leave` neither arms the timer nor signals expiry. -/
theorem leave_expiration (s : ServerRoom) (clientConnection : ClientConnection)
    (human : HumanPlayer)
    (hfind : mapFind clientConnection s.mClientConnectionMap = some human) :
    (mapRemove clientConnection s.mClientConnectionMap = [] →
      s.mChairStateList[human.chairIndex]? = some ChairState.CHAIR_STATE_ACTIVE →
      (s.leave clientConnection).mRoomExpirationTimer = some 120000 ∧
      ∃ added, (s.leave clientConnection).log = s.log ++ added ∧
        Action.roomExpired ∉ added) ∧
    (mapRemove clientConnection s.mClientConnectionMap = [] →
      s.mChairStateList[human.chairIndex]? ≠ some ChairState.CHAIR_STATE_ACTIVE →
      (s.leave clientConnection).mRoomExpirationTimer = s.mRoomExpirationTimer ∧
      ∃ added, (s.leave clientConnection).log = s.log ++ added ∧
        Action.roomExpired ∈ added) ∧
    (mapRemove clientConnection s.mClientConnectionMap ≠ [] →
      (s.leave clientConnection).mRoomExpirationTimer = s.mRoomExpirationTimer ∧
      ∃ added, (s.leave clientConnection).log = s.log ++ added ∧
        Action.roomExpired ∉ added) := by
  refine ⟨?_, ?_, ?_⟩
  · intro hlast hact
    rw [leave_active_eq s clientConnection human hfind hact]
    refine ⟨by simp [hlast], _, rfl, ?_⟩
    simp
  · intro hlast hact
    rw [leave_inactive_eq s clientConnection human hfind hact]
    refine ⟨rfl, _, rfl, ?_⟩
    simp [hlast]
  · intro hrest
    have hne : (mapRemove clientConnection s.mClientConnectionMap).isEmpty = false := by
      cases hm : mapRemove clientConnection s.mClientConnectionMap with
      | nil => exact absurd hm hrest
      | cons a l => rfl
    by_cases hact : s.mChairStateList[human.chairIndex]? = some ChairState.CHAIR_STATE_ACTIVE
    · rw [leave_active_eq s clientConnection human hfind hact]
      refine ⟨by simp [hne], _, rfl, ?_⟩
      simp
    · rw [leave_inactive_eq s clientConnection human hfind hact]
      refine ⟨rfl, _, rfl, ?_⟩
      simp [hne]

/-- Instance of `leave_expiration`: the leave of the only connection arms the
timer for 120 seconds in the running sample room, where a bot still holds chair 0,
and signals expiry in the sample room before the draft has started. -/
theorem leave_expiration_witness :
    ((runningRoom.leave 5).mRoomExpirationTimer = some 120000 ∧
      ∃ added, (runningRoom.leave 5).log = runningRoom.log ++ added ∧
        Action.roomExpired ∉ added) ∧
    ((roomWithAlice.leave 5).mRoomExpirationTimer = roomWithAlice.mRoomExpirationTimer ∧
      ∃ added, (roomWithAlice.leave 5).log = roomWithAlice.log ++ added ∧
        Action.roomExpired ∈ added) :=
  ⟨(leave_expiration runningRoom 5 { id := 0, name := "alice", chairIndex := 1 }
      (by decide)).1 (by decide) (by decide),
   (leave_expiration roomWithAlice 5 { id := 0, name := "alice", chairIndex := 1 }
      (by decide)).2.1 (by decide) (by decide)⟩

/-! ## Theorems: ready updates -/

/-- A ready update that finds neither a READY chair to unready nor a STANDBY chair
to ready only broadcasts the occupants. -/
theorem handleHumanReadyUpdate_noop (s : ServerRoom) (human : HumanPlayer) (ready : Bool)
    (h1 : ¬ (s.mChairStateList[human.chairIndex]? = some ChairState.CHAIR_STATE_READY ∧
      ready = false))
    (h2 : ¬ (s.mChairStateList[human.chairIndex]? = some ChairState.CHAIR_STATE_STANDBY ∧
      ready = true)) :
    s.handleHumanReadyUpdate human ready = s.broadcastRoomOccupantsInfo := by
  unfold ServerRoom.handleHumanReadyUpdate
  simp only [h1, h2, if_false]

/-- A ready update with `ready = false` for a READY chair makes it STANDBY. -/
theorem handleHumanReadyUpdate_unready (s : ServerRoom) (human : HumanPlayer)
    (h : s.mChairStateList[human.chairIndex]? = some ChairState.CHAIR_STATE_READY) :
    s.handleHumanReadyUpdate human false =
      ({ s with mChairStateList :=
          s.mChairStateList.set human.chairIndex ChairState.CHAIR_STATE_STANDBY } :
        ServerRoom).broadcastRoomOccupantsInfo := by
  unfold ServerRoom.handleHumanReadyUpdate
  simp only [h, and_self, if_true]

/-- A ready update with `ready = true` for a STANDBY chair, when some chair is still
not READY afterwards, makes the chair READY. -/
theorem handleHumanReadyUpdate_ready (s : ServerRoom) (human : HumanPlayer)
    (h : s.mChairStateList[human.chairIndex]? = some ChairState.CHAIR_STATE_STANDBY)
    (hall : (s.mChairStateList.set human.chairIndex ChairState.CHAIR_STATE_READY).all
      (fun st => decide (st = ChairState.CHAIR_STATE_READY)) = false) :
    s.handleHumanReadyUpdate human true =
      ({ s with mChairStateList :=
          s.mChairStateList.set human.chairIndex ChairState.CHAIR_STATE_READY } :
        ServerRoom).broadcastRoomOccupantsInfo := by
  unfold ServerRoom.handleHumanReadyUpdate
  simp [h, hall]

/-- A ready update with `ready = true` for a STANDBY chair, when every chair is
READY afterwards: every chair becomes ACTIVE, the occupants are broadcast, the
draft timer is armed with 1000 ms and the draft engine is started. -/
theorem handleHumanReadyUpdate_start (s : ServerRoom) (human : HumanPlayer)
    (h : s.mChairStateList[human.chairIndex]? = some ChairState.CHAIR_STATE_STANDBY)
    (hall : (s.mChairStateList.set human.chairIndex ChairState.CHAIR_STATE_READY).all
      (fun st => decide (st = ChairState.CHAIR_STATE_READY)) = true) :
    s.handleHumanReadyUpdate human true =
      ({ s with
          mChairStateList :=
            (s.mChairStateList.set human.chairIndex ChairState.CHAIR_STATE_READY).map
              (fun _ => ChairState.CHAIR_STATE_ACTIVE)
          mDraftTimer := some 1000
          mDraft := s.mDraft.start } : ServerRoom).emit
        ((mapKeys s.mClientConnectionMap).map (fun c => Action.sendProtoMsg c
            (ServerToClientMsg.room_occupants_info_ind s.mRoomId
              (occupantInfos s.mBotList s.mPlayerList
                ((s.mChairStateList.set human.chairIndex ChairState.CHAIR_STATE_READY).map
                  (fun _ => ChairState.CHAIR_STATE_ACTIVE)) 0))) ++
          [Action.draftStart]) := by
  unfold ServerRoom.handleHumanReadyUpdate
  simp [h, hall, ServerRoom.emit, ServerRoom.broadcastRoomOccupantsInfo]

/-- After a ready update with `ready = true` the chair of the human is not STANDBY. -/
theorem handleHumanReadyUpdate_not_standby (s : ServerRoom) (human : HumanPlayer) :
    (s.handleHumanReadyUpdate human true).mChairStateList[human.chairIndex]? ≠
      some ChairState.CHAIR_STATE_STANDBY := by
  by_cases h : s.mChairStateList[human.chairIndex]? = some ChairState.CHAIR_STATE_STANDBY
  · have hlt : human.chairIndex < s.mChairStateList.length := (List.getElem?_eq_some.1 h).1
    cases hall : (s.mChairStateList.set human.chairIndex ChairState.CHAIR_STATE_READY).all
        (fun st => decide (st = ChairState.CHAIR_STATE_READY)) with
    | false =>
      rw [handleHumanReadyUpdate_ready s human h hall, broadcastRoomOccupantsInfo_eq_emit]
      simp [List.getElem?_set, hlt]
    | true =>
      rw [handleHumanReadyUpdate_start s human h hall]
      simp [List.getElem?_set, hlt]
  · rw [handleHumanReadyUpdate_noop s human true (by simp) (by simp [h]),
      broadcastRoomOccupantsInfo_eq_emit]
    exact h

/-- C16: the ready toggle is idempotent. For every room and every human, a second
ready update with `ready = true` right after a first one only broadcasts the
occupants again: the chair states, the draft timer and the draft engine stay as
the first update left them and the draft is not started again; a STANDBY human in
a room that is not otherwise fully ready is READY after the first update and
after the second. -/
theorem ready_twice (s : ServerRoom) (human : HumanPlayer) :
    (s.handleHumanReadyUpdate human true).handleHumanReadyUpdate human true =
      (s.handleHumanReadyUpdate human true).broadcastRoomOccupantsInfo ∧
    ((s.handleHumanReadyUpdate human true).handleHumanReadyUpdate human true).mChairStateList =
      (s.handleHumanReadyUpdate human true).mChairStateList ∧
    ((s.handleHumanReadyUpdate human true).handleHumanReadyUpdate human true).mDraftTimer =
      (s.handleHumanReadyUpdate human true).mDraftTimer ∧
    ((s.handleHumanReadyUpdate human true).handleHumanReadyUpdate human true).mDraft =
      (s.handleHumanReadyUpdate human true).mDraft ∧
    (∃ added,
      ((s.handleHumanReadyUpdate human true).handleHumanReadyUpdate human true).log =
        (s.handleHumanReadyUpdate human true).log ++ added ∧ Action.draftStart ∉ added) ∧
    (s.mChairStateList[human.chairIndex]? = some ChairState.CHAIR_STATE_STANDBY →
      (s.mChairStateList.set human.chairIndex ChairState.CHAIR_STATE_READY).all
        (fun st => decide (st = ChairState.CHAIR_STATE_READY)) = false →
      (s.handleHumanReadyUpdate human true).mChairStateList[human.chairIndex]? =
        some ChairState.CHAIR_STATE_READY ∧
      ((s.handleHumanReadyUpdate human true).handleHumanReadyUpdate human
        true).mChairStateList[human.chairIndex]? = some ChairState.CHAIR_STATE_READY) := by
  have hsecond : (s.handleHumanReadyUpdate human true).handleHumanReadyUpdate human true =
      (s.handleHumanReadyUpdate human true).broadcastRoomOccupantsInfo :=
    handleHumanReadyUpdate_noop _ human true (by simp)
      (by
        intro hc
        exact handleHumanReadyUpdate_not_standby s human hc.1)
  refine ⟨hsecond, ?_, ?_, ?_, ?_, ?_⟩
  · rw [hsecond]; rfl
  · rw [hsecond]; rfl
  · rw [hsecond]; rfl
  · rw [hsecond, broadcastRoomOccupantsInfo_eq_emit]
    refine ⟨_, rfl, ?_⟩
    simp
  · intro h hall
    have hlt : human.chairIndex < s.mChairStateList.length := (List.getElem?_eq_some.1 h).1
    have hfirst : (s.handleHumanReadyUpdate human true).mChairStateList[human.chairIndex]? =
        some ChairState.CHAIR_STATE_READY := by
      rw [handleHumanReadyUpdate_ready s human h hall, broadcastRoomOccupantsInfo_eq_emit]
      simp [List.getElem?_set, hlt]
    refine ⟨hfirst, ?_⟩
    rw [hsecond]
    exact hfirst

/-- Instance of `ready_twice`: in a room with an EMPTY chair, `alice` is READY after
one ready update and after two; in the sample room, where the first update starts
the draft, the second only broadcasts the occupants. -/
theorem ready_twice_witness :
    ((threeChairRoom.handleHumanReadyUpdate { id := 0, name := "alice", chairIndex := 1 }
        true).mChairStateList[1]? = some ChairState.CHAIR_STATE_READY ∧
      ((threeChairRoom.handleHumanReadyUpdate { id := 0, name := "alice", chairIndex := 1 }
        true).handleHumanReadyUpdate { id := 0, name := "alice", chairIndex := 1 }
        true).mChairStateList[1]? = some ChairState.CHAIR_STATE_READY) ∧
    runningRoom.handleHumanReadyUpdate { id := 0, name := "alice", chairIndex := 1 } true =
      runningRoom.broadcastRoomOccupantsInfo :=
  ⟨(ready_twice threeChairRoom { id := 0, name := "alice", chairIndex := 1 }).2.2.2.2.2
      (by decide) (by decide),
   (ready_twice roomWithAlice { id := 0, name := "alice", chairIndex := 1 }).1⟩

/-! ## Theorems: the connection map -/

theorem mapFind_mem (k : ClientConnection) (v : HumanPlayer)
    (m : List (ClientConnection × HumanPlayer)) (h : mapFind k m = some v) : (k, v) ∈ m := by
  induction m with
  | nil => cases h
  | cons e rest ih =>
    obtain ⟨k1, v1⟩ := e
    unfold mapFind at h
    split at h
    · rename_i hk
      cases h
      subst hk
      exact List.mem_cons_self _ _
    · exact List.mem_cons_of_mem _ (ih h)

theorem mem_mapRemove (k : ClientConnection) (m : List (ClientConnection × HumanPlayer))
    (e : ClientConnection × HumanPlayer) : e ∈ mapRemove k m ↔ e ∈ m ∧ e.1 ≠ k := by
  unfold mapRemove
  simp [List.mem_filter]

theorem mapRemove_values_nodup (k : ClientConnection)
    (m : List (ClientConnection × HumanPlayer)) (h : (m.map Prod.snd).Nodup) :
    ((mapRemove k m).map Prod.snd).Nodup := by
  unfold mapRemove
  exact h.sublist ((List.filter_sublist m).map Prod.snd)

/-- With each human at most once in the map, removing the connection of a human
removes the human from the map. -/
theorem not_mem_mapRemove_values (k : ClientConnection) (v : HumanPlayer)
    (m : List (ClientConnection × HumanPlayer)) (hnd : (m.map Prod.snd).Nodup)
    (hfind : mapFind k m = some v) : ∀ e ∈ mapRemove k m, e.2 ≠ v := by
  intro e he hev
  obtain ⟨hem, hek⟩ := (mem_mapRemove k m e).1 he
  have hkv := mapFind_mem k v m hfind
  have hinj := List.inj_on_of_nodup_map hnd hem hkv hev
  rw [hinj] at hek
  exact hek rfl

theorem mem_mapInsert (k : ClientConnection) (v : HumanPlayer)
    (m : List (ClientConnection × HumanPlayer)) (e : ClientConnection × HumanPlayer)
    (h : e ∈ mapInsert k v m) : e = (k, v) ∨ e ∈ m := by
  induction m with
  | nil =>
    simp only [mapInsert, List.mem_singleton] at h
    exact Or.inl h
  | cons e1 rest ih =>
    obtain ⟨k1, v1⟩ := e1
    unfold mapInsert at h
    split at h
    · rcases List.mem_cons.1 h with h | h
      · exact Or.inl h
      · exact Or.inr h
    · split at h
      · rcases List.mem_cons.1 h with h | h
        · exact Or.inl h
        · exact Or.inr (List.mem_cons_of_mem _ h)
      · rcases List.mem_cons.1 h with h | h
        · exact Or.inr (h ▸ List.mem_cons_self _ _)
        · rcases ih h with h | h
          · exact Or.inl h
          · exact Or.inr (List.mem_cons_of_mem _ h)

theorem mapInsert_values_nodup (k : ClientConnection) (v : HumanPlayer)
    (m : List (ClientConnection × HumanPlayer)) (hnd : (m.map Prod.snd).Nodup)
    (hv : ∀ e ∈ m, e.2 ≠ v) : ((mapInsert k v m).map Prod.snd).Nodup := by
  induction m with
  | nil => simp [mapInsert]
  | cons e1 rest ih =>
    obtain ⟨k1, v1⟩ := e1
    have hrest : (rest.map Prod.snd).Nodup := (List.nodup_cons.1 hnd).2
    have hv1 : v1 ∉ rest.map Prod.snd := (List.nodup_cons.1 hnd).1
    have hvrest : ∀ e ∈ rest, e.2 ≠ v := fun e he => hv e (List.mem_cons_of_mem _ he)
    have hvne : v1 ≠ v := hv (k1, v1) (List.mem_cons_self _ _)
    have hvnot : v ∉ rest.map Prod.snd := by
      intro hmem
      obtain ⟨e, he, hev⟩ := List.mem_map.1 hmem
      exact hvrest e he hev
    unfold mapInsert
    split
    · simp only [List.map_cons, List.nodup_cons, List.mem_cons, not_or]
      exact ⟨⟨fun h => hvne h.symm, hvnot⟩, hv1, hrest⟩
    · split
      · simp only [List.map_cons, List.nodup_cons]
        exact ⟨hvnot, hrest⟩
      · simp only [List.map_cons, List.nodup_cons]
        refine ⟨?_, ih hrest hvrest⟩
        intro hmem
        obtain ⟨e, he, hev⟩ := List.mem_map.1 hmem
        rcases mem_mapInsert k v rest e he with h | h
        · rw [h] at hev
          exact hvne hev.symm
        · exact hv1 (List.mem_map.2 ⟨e, h, hev⟩)

/-! ## Theorems: effect of `rejoin` and of a seating `join` -/

/-- Effect of a successful `rejoin`: the connection is mapped to the human, the
chair becomes ACTIVE, the expiration timer is stopped, and the log grows by the
actions listed, in this order. -/
theorem rejoin_eq (s : ServerRoom) (c : ClientConnection) (name : String)
    (humanPlayer : HumanPlayer) (hfind : s.getHumanPlayer name = some humanPlayer)
    (hdep : s.mChairStateList[humanPlayer.chairIndex]? = some ChairState.CHAIR_STATE_DEPARTED) :
    s.rejoin c name =
      (({ s with
          mClientConnectionMap := mapInsert c humanPlayer s.mClientConnectionMap
          mChairStateList :=
            s.mChairStateList.set humanPlayer.chairIndex ChairState.CHAIR_STATE_ACTIVE
          mRoomExpirationTimer := none } : ServerRoom).emit
        ([Action.setClientConnection humanPlayer c,
          Action.sendProtoMsg c (ServerToClientMsg.join_room_success_rspind s.mRoomId true
            (humanPlayer.chairIndex : Int)),
          Action.playerCountChanged] ++
          (mapKeys (mapInsert c humanPlayer s.mClientConnectionMap)).map
            (fun c1 => Action.sendProtoMsg c1
              (ServerToClientMsg.room_occupants_info_ind s.mRoomId
                (occupantInfos s.mBotList s.mPlayerList
                  (s.mChairStateList.set humanPlayer.chairIndex ChairState.CHAIR_STATE_ACTIVE)
                  0))) ++
          [Action.sendInventoryToClient humanPlayer c,
            Action.sendProtoMsg c s.roomStageInd] ++
          (if s.mDraft.state = DraftState.STATE_RUNNING then
            Action.sendCurrentPackToClient humanPlayer c ::
              (if s.mPublicStatePresent then
                [Action.sendProtoMsg c ServerToClientMsg.public_state_ind] else [])
            else []) ++
          (if s.mDraft.state = DraftState.STATE_COMPLETE then
            [Action.sendProtoMsg c (ServerToClientMsg.room_chairs_deck_info_ind
              (s.mHumanList.map HumanPlayer.chairIndex))]
            else [])), true) := by
  unfold ServerRoom.rejoin
  simp only [hfind, hdep, ne_eq, not_true_eq_false, if_false]
  simp only [sendJoinRoomSuccessRspInd_eq_emit, broadcastRoomOccupantsInfo_eq_emit,
    sendPublicState_eq_emit, emit_emit, emit_mDraft]
  cases hst : s.mDraft.state <;> cases hp : s.mPublicStatePresent <;>
    simp [hst, hp, ServerRoom.roomStageInd, ServerRoom.emit]

/-- Effect of a `join` that seats a new human at chair `k`. -/
theorem join_new_eq (s : ServerRoom) (c : ClientConnection) (name password : String)
    (chairIndex : Int) (k : Nat)
    (hfind : s.getHumanPlayer name = none)
    (hcond : (!s.mPassword.isEmpty && password != s.mPassword) = false)
    (hidx : s.getNextAvailablePlayerIndex = (k : Int)) :
    s.join c name password chairIndex =
      { room := ({ s with
            nextHumanId := s.nextHumanId + 1
            mClientConnectionMap :=
              mapInsert c { id := s.nextHumanId, name := name, chairIndex := k }
                s.mClientConnectionMap
            mHumanList := s.mHumanList ++ [{ id := s.nextHumanId, name := name, chairIndex := k }]
            mPlayerList := s.mPlayerList.set k
              (some (Player.human { id := s.nextHumanId, name := name, chairIndex := k }))
            mChairStateList := s.mChairStateList.set k ChairState.CHAIR_STATE_STANDBY
            mRoomExpirationTimer := none } : ServerRoom).emit
          ([Action.setClientConnection { id := s.nextHumanId, name := name, chairIndex := k } c,
            Action.addObserver
              (Player.human { id := s.nextHumanId, name := name, chairIndex := k }),
            Action.sendProtoMsg c
              (ServerToClientMsg.join_room_success_rspind s.mRoomId false (k : Int)),
            Action.playerCountChanged] ++
            (mapKeys (mapInsert c { id := s.nextHumanId, name := name, chairIndex := k }
                s.mClientConnectionMap)).map
              (fun c1 => Action.sendProtoMsg c1
                (ServerToClientMsg.room_occupants_info_ind s.mRoomId
                  (occupantInfos s.mBotList
                    (s.mPlayerList.set k (some (Player.human
                      { id := s.nextHumanId, name := name, chairIndex := k })))
                    (s.mChairStateList.set k ChairState.CHAIR_STATE_STANDBY) 0))))
        result := true
        chairIndex := (k : Int) } := by
  have hne : ¬ ((k : Int) = -1) := by omega
  unfold ServerRoom.join
  simp only [hfind, hcond, hidx, hne, Bool.false_eq_true, if_false, Int.toNat_ofNat,
    sendJoinRoomSuccessRspInd_eq_emit, broadcastRoomOccupantsInfo_eq_emit, emit_emit]
  simp [ServerRoom.emit]

/-- What `indexOfFrom` returns: -1 when no element satisfies `p`, and otherwise the
index of the first element that does. -/
theorem indexOfFrom_spec {α : Type} (p : α → Bool) (l : List α) (i : Nat) :
    (indexOfFrom p l i = -1 ∧ ∀ x ∈ l, p x = false) ∨
    ∃ k x, indexOfFrom p l i = ((i + k : Nat) : Int) ∧ l[k]? = some x ∧ p x = true := by
  induction l generalizing i with
  | nil => exact Or.inl ⟨rfl, fun x hx => by cases hx⟩
  | cons a rest ih =>
    cases hpa : p a with
    | true =>
      right
      exact ⟨0, a, by simp [indexOfFrom, hpa], by simp, hpa⟩
    | false =>
      rcases ih (i + 1) with ⟨h1, h2⟩ | ⟨k, x, h1, h2, h3⟩
      · left
        refine ⟨by simp [indexOfFrom, hpa, h1], ?_⟩
        intro x hx
        rcases List.mem_cons.1 hx with rfl | hx
        · exact hpa
        · exact h2 x hx
      · right
        refine ⟨k + 1, x, ?_, by simpa using h2, h3⟩
        simp only [indexOfFrom, hpa, Bool.false_eq_true, if_false, h1]
        congr 1
        omega

/-- The index `getNextAvailablePlayerIndex` returns is -1 or the index of a null
entry of the player list. -/
theorem getNextAvailablePlayerIndex_spec (s : ServerRoom) :
    s.getNextAvailablePlayerIndex = -1 ∨
    ∃ k : Nat, s.getNextAvailablePlayerIndex = (k : Int) ∧ s.mPlayerList[k]? = some none := by
  unfold ServerRoom.getNextAvailablePlayerIndex
  rcases indexOfFrom_spec (fun p : Option Player => p.isNone) s.mPlayerList 0 with
    ⟨h1, _⟩ | ⟨k, x, h1, h2, h3⟩
  · exact Or.inl h1
  · right
    refine ⟨k, by simpa using h1, ?_⟩
    cases x with
    | none => exact h2
    | some p => cases h3

/-! ## Theorems: invariant of the reachable rooms -/

theorem draftStart_not_mem_sends (cs : List ClientConnection) (msg : ServerToClientMsg) :
    Action.draftStart ∉ cs.map (fun c => Action.sendProtoMsg c msg) := by
  simp

theorem getElem?_set_ne_departed (cs : List ChairState) (k j : Nat) (st : ChairState)
    (hst : st ≠ ChairState.CHAIR_STATE_DEPARTED)
    (hold : j ≠ k → cs[j]? ≠ some ChairState.CHAIR_STATE_DEPARTED) :
    (cs.set k st)[j]? ≠ some ChairState.CHAIR_STATE_DEPARTED := by
  rw [List.getElem?_set]
  by_cases hkj : k = j
  · simp only [hkj, if_true]
    split
    · intro h
      exact hst (Option.some.inj h)
    · intro h
      cases h
  · simp only [if_neg hkj]
    exact hold (fun h => hkj h.symm)

theorem all_ready_false_of_mem (cs : List ChairState) (st : ChairState) (hmem : st ∈ cs)
    (hst : st ≠ ChairState.CHAIR_STATE_READY) :
    cs.all (fun st => decide (st = ChairState.CHAIR_STATE_READY)) = false := by
  cases hall : cs.all (fun st => decide (st = ChairState.CHAIR_STATE_READY)) with
  | false => rfl
  | true =>
    have := List.all_eq_true.1 hall st hmem
    exact absurd (of_decide_eq_true this) hst

theorem all_ready_false_of_set (cs : List ChairState) (k : Nat) (st : ChairState)
    (hk : k < cs.length) (hst : st ≠ ChairState.CHAIR_STATE_READY) :
    (cs.set k st).all (fun st => decide (st = ChairState.CHAIR_STATE_READY)) = false :=
  all_ready_false_of_mem _ st (List.mem_set cs k hk st) hst

theorem RoomInv.of_emit {s : ServerRoom} (h : RoomInv s) (actions : List Action)
    (hx : Action.draftStart ∉ actions) : RoomInv (s.emit actions) where
  seats := h.seats
  names := h.names
  chairs := h.chairs
  mapped := h.mapped
  once := h.once
  connected := h.connected
  started := by
    intro hmem
    rw [emit_log] at hmem
    rcases List.mem_append.1 hmem with hm | hm
    · exact h.started hm
    · exact absurd hm hx
  startedOnce := by
    rw [emit_log, List.count_append, List.count_eq_zero_of_not_mem hx]
    exact h.startedOnce
  waiting := h.waiting

/-- Two humans of the roster in the same chair are the same human. -/
theorem RoomInv.chair_injective {s : ServerRoom} (h : RoomInv s) {h1 h2 : HumanPlayer}
    (m1 : h1 ∈ s.mHumanList) (m2 : h2 ∈ s.mHumanList) (heq : h1.chairIndex = h2.chairIndex) :
    h1 = h2 := by
  have e1 := h.chairs h1 m1
  have e2 := h.chairs h2 m2
  rw [heq, e2] at e1
  injection e1 with e1
  injection e1 with e1
  injection e1 with e1
  exact e1.symm

/-- While a chair is neither ACTIVE nor DEPARTED the draft engine has not been
started. -/
theorem RoomInv.not_started {s : ServerRoom} (h : RoomInv s) (i : Nat) (st : ChairState)
    (hi : s.mChairStateList[i]? = some st) (h1 : st ≠ ChairState.CHAIR_STATE_ACTIVE)
    (h2 : st ≠ ChairState.CHAIR_STATE_DEPARTED) : Action.draftStart ∉ s.log := by
  intro hmem
  have hst : st ∈ s.mChairStateList := List.mem_iff_getElem?.2 ⟨i, hi⟩
  rcases h.started hmem st hst with h3 | h3
  · exact h1 h3
  · exact h2 h3

theorem RoomInv.humans_nodup {s : ServerRoom} (h : RoomInv s) : s.mHumanList.Nodup :=
  List.Nodup.of_map _ h.names

theorem placeBots_frame (n i : Nat) (s : ServerRoom) :
    (placeBots n i s).mHumanList = s.mHumanList ∧
    (placeBots n i s).mClientConnectionMap = s.mClientConnectionMap ∧
    (Action.draftStart ∈ (placeBots n i s).log → Action.draftStart ∈ s.log) := by
  induction n generalizing i s with
  | zero => exact ⟨rfl, rfl, id⟩
  | succ n ih =>
    unfold placeBots
    simp only
    refine ⟨(ih _ _).1.trans rfl, (ih _ _).2.1.trans rfl, ?_⟩
    intro hm
    have := (ih _ _).2.2 hm
    simpa using this

theorem initialize_frame (s : ServerRoom) :
    ( ServerRoom.initialize s).mHumanList = s.mHumanList ∧
    ( ServerRoom.initialize s).mClientConnectionMap = s.mClientConnectionMap ∧
    (Action.draftStart ∈ ( ServerRoom.initialize s).log → Action.draftStart ∈ s.log) := by
  have hemit : ∀ (t : ServerRoom), Action.draftStart ∈ (t.emit [Action.playerCountChanged]).log →
      Action.draftStart ∈ t.log := by
    intro t hm
    rw [emit_log] at hm
    rcases List.mem_append.1 hm with hm | hm
    · exact hm
    · simp at hm
  unfold ServerRoom.initialize
  split
  · refine ⟨rfl, rfl, ?_⟩
    intro hm
    simpa using hm
  · have key := fun n => placeBots_frame n 0 ({ s with
        mPlayerList := s.mPlayerList ++ List.replicate s.mChairCount none
        mChairStateList :=
          s.mChairStateList ++ List.replicate s.mChairCount ChairState.CHAIR_STATE_EMPTY
        mRoomExpirationTimer := some (CREATED_ROOM_EXPIRATION_SECONDS * 1000) } : ServerRoom)
    simp only
    split <;> split
    · exact ⟨(key _).1, (key _).2.1, fun hm => (key _).2.2 (hemit _ hm)⟩
    · exact ⟨(key _).1, (key _).2.1, fun hm => (key _).2.2 hm⟩
    · exact ⟨(key _).1, (key _).2.1, fun hm => (key _).2.2 (hemit _ hm)⟩
    · exact ⟨(key _).1, (key _).2.1, fun hm => (key _).2.2 hm⟩

theorem initialize_roomInv (roomId : Nat) (password : String) (roomConfig : RoomConfig) :
    RoomInv ( ServerRoom.initialize (ServerRoom.create roomId password roomConfig)) := by
  obtain ⟨hh, hm, hl⟩ := initialize_frame (ServerRoom.create roomId password roomConfig)
  have hnot : Action.draftStart ∉
      ( ServerRoom.initialize (ServerRoom.create roomId password roomConfig)).log := by
    intro hmem
    have := hl hmem
    simp [ServerRoom.create] at this
  refine
    { seats := initialize_seatsConsistent roomId password roomConfig
      names := ?_, chairs := ?_, mapped := ?_, once := ?_, connected := ?_
      started := fun hmem => absurd hmem hnot
      startedOnce := ?_
      waiting := fun hne => absurd (hh.trans rfl) hne }
  · rw [hh]; simp [ServerRoom.create]
  · rw [hh]; intro h hmem; simp [ServerRoom.create] at hmem
  · rw [hm]; intro e hmem; simp [ServerRoom.create] at hmem
  · rw [hm]; simp [ServerRoom.create]
  · rw [hm]; intro e hmem; simp [ServerRoom.create] at hmem
  · rw [List.count_eq_zero_of_not_mem hnot]
    omega

theorem getHumanPlayer_some (s : ServerRoom) (name : String) (human : HumanPlayer)
    (h : s.getHumanPlayer name = some human) : human ∈ s.mHumanList ∧ human.name = name := by
  unfold ServerRoom.getHumanPlayer at h
  exact ⟨List.mem_of_find?_eq_some h, by simpa using List.find?_some h⟩

theorem getHumanPlayer_none (s : ServerRoom) (name : String)
    (h : s.getHumanPlayer name = none) : ∀ human ∈ s.mHumanList, human.name ≠ name := by
  unfold ServerRoom.getHumanPlayer at h
  rw [List.find?_eq_none] at h
  intro x hx
  simpa using h x hx

theorem rejoin_roomInv (s : ServerRoom) (h : RoomInv s) (c : ClientConnection)
    (name : String) : RoomInv (s.rejoin c name).1 := by
  cases hfind : s.getHumanPlayer name with
  | none =>
    unfold ServerRoom.rejoin
    simp only [hfind]
    exact h
  | some human =>
    by_cases hdep : s.mChairStateList[human.chairIndex]? =
        some ChairState.CHAIR_STATE_DEPARTED
    · rw [rejoin_eq s c name human hfind hdep]
      obtain ⟨hmem, _⟩ := getHumanPlayer_some s name human hfind
      refine RoomInv.of_emit ?_ _ ?_
      · refine
          { seats := ?_, names := h.names, chairs := h.chairs, mapped := ?_, once := ?_
            connected := ?_, started := ?_, startedOnce := h.startedOnce
            waiting := fun _ => all_ready_false_of_set _ _ _
              (List.getElem?_eq_some.1 hdep).1 (by decide) }
        · exact seatsConsistent_set_state h.seats _ _ _ hdep (by decide) (by decide)
        · intro e he
          rcases mem_mapInsert c human _ e he with rfl | he
          · exact hmem
          · exact h.mapped e he
        · apply mapInsert_values_nodup _ _ _ h.once
          intro e he heq
          exact h.connected e he (heq ▸ hdep)
        · intro e he
          apply getElem?_set_ne_departed _ _ _ _ (by decide)
          intro hne
          rcases mem_mapInsert c human _ e he with rfl | he
          · exact absurd rfl hne
          · exact h.connected e he
        · intro hm st hst
          rcases List.mem_or_eq_of_mem_set hst with h1 | h1
          · exact h.started hm st h1
          · exact Or.inl h1
      · cases hst : s.mDraft.state <;> cases hp : s.mPublicStatePresent <;> simp [hst, hp]
    · unfold ServerRoom.rejoin
      simp only [hfind, ne_eq, hdep, not_false_eq_true, if_true]
      exact h

theorem join_roomInv (s : ServerRoom) (h : RoomInv s) (c : ClientConnection)
    (name password : String) (chairIndex : Int) :
    RoomInv (s.join c name password chairIndex).room := by
  cases hfind : s.getHumanPlayer name with
  | some human =>
    have hjoin : (s.join c name password chairIndex).room = (s.rejoin c name).1 := by
      unfold ServerRoom.join
      simp only [hfind]
    rw [hjoin]
    exact rejoin_roomInv s h c name
  | none =>
    cases hcond : (!s.mPassword.isEmpty && password != s.mPassword) with
    | true =>
      have hjoin : (s.join c name password chairIndex).room =
          s.emit [Action.sendProtoMsg c (ServerToClientMsg.join_room_failure_rsp
            JoinRoomFailureResult.RESULT_INVALID_PASSWORD s.mRoomId)] := by
        unfold ServerRoom.join
        simp only [hfind, hcond, if_true, sendJoinRoomFailureRsp_eq_emit]
      rw [hjoin]
      exact h.of_emit _ (by simp)
    | false =>
      rcases getNextAvailablePlayerIndex_spec s with hidx | ⟨k, hidx, hk⟩
      · have hjoin : (s.join c name password chairIndex).room =
            s.emit [Action.sendProtoMsg c (ServerToClientMsg.join_room_failure_rsp
              JoinRoomFailureResult.RESULT_ROOM_FULL s.mRoomId)] := by
          unfold ServerRoom.join
          simp only [hfind, hcond, hidx, Bool.false_eq_true, if_false, if_true,
            sendJoinRoomFailureRsp_eq_emit]
        rw [hjoin]
        exact h.of_emit _ (by simp)
      · rw [join_new_eq s c name password chairIndex k hfind hcond hidx]
        have hnames := getHumanPlayer_none s name hfind
        have hklt : k < s.mPlayerList.length := (List.getElem?_eq_some.1 hk).1
        have hempty : s.mChairStateList[k]? = some ChairState.CHAIR_STATE_EMPTY :=
          (h.seats.2 k).1 hk
        have hnot : Action.draftStart ∉ s.log :=
          h.not_started k _ hempty (by decide) (by decide)
        have hchair : ∀ h1 ∈ s.mHumanList, h1.chairIndex ≠ k := by
          intro h1 hm heq
          have := h.chairs h1 hm
          rw [heq, hk] at this
          cases this
        refine RoomInv.of_emit ?_ _ ?_
        · refine
            { seats := ?_, names := ?_, chairs := ?_, mapped := ?_, once := ?_
              connected := ?_, started := fun hm => absurd hm hnot
              startedOnce := h.startedOnce
              waiting := fun _ => all_ready_false_of_set _ _ _ (h.seats.1 ▸ hklt) (by decide) }
          · exact seatsConsistent_set_occupied h.seats _ _ _ (by decide)
          · show ((s.mHumanList ++ [_]).map HumanPlayer.name).Nodup
            rw [List.map_append, List.nodup_append]
            refine ⟨h.names, by simp, ?_⟩
            intro x hx1 hx2
            simp only [List.map_cons, List.map_nil, List.mem_singleton] at hx2
            obtain ⟨h1, hm1, rfl⟩ := List.mem_map.1 hx1
            exact hnames h1 hm1 hx2
          · intro h1 hm
            show (s.mPlayerList.set k _)[h1.chairIndex]? = _
            rcases List.mem_append.1 hm with hm | hm
            · rw [List.getElem?_set_ne (fun heq => hchair h1 hm heq.symm)]
              exact h.chairs h1 hm
            · rw [List.mem_singleton] at hm
              subst hm
              simp [hklt]
          · intro e he
            show e.2 ∈ s.mHumanList ++ [_]
            rcases mem_mapInsert c _ _ e he with rfl | he
            · simp
            · exact List.mem_append_left _ (h.mapped e he)
          · apply mapInsert_values_nodup _ _ _ h.once
            intro e he heq
            have := hnames e.2 (h.mapped e he)
            rw [heq] at this
            exact this rfl
          · intro e he
            apply getElem?_set_ne_departed _ _ _ _ (by decide)
            intro hne
            rcases mem_mapInsert c _ _ e he with rfl | he
            · exact absurd rfl hne
            · exact h.connected e he
        · simp

theorem leave_roomInv (s : ServerRoom) (h : RoomInv s) (c : ClientConnection) :
    RoomInv (s.leave c) := by
  cases hfind : mapFind c s.mClientConnectionMap with
  | none =>
    unfold ServerRoom.leave
    simp only [hfind]
    exact h
  | some human =>
    have hc : (c, human) ∈ s.mClientConnectionMap := mapFind_mem c human _ hfind
    have hmem : human ∈ s.mHumanList := h.mapped _ hc
    have hother : ∀ e ∈ mapRemove c s.mClientConnectionMap,
        e.2 ∈ s.mHumanList ∧ e.2 ≠ human ∧ e.2.chairIndex ≠ human.chairIndex := by
      intro e he
      have h1 := h.mapped e ((mem_mapRemove c _ e).1 he).1
      have h2 := not_mem_mapRemove_values c human _ h.once hfind e he
      exact ⟨h1, h2, fun heq => h2 (h.chair_injective h1 hmem heq)⟩
    by_cases hact : s.mChairStateList[human.chairIndex]? = some ChairState.CHAIR_STATE_ACTIVE
    · rw [leave_active_eq s c human hfind hact]
      refine RoomInv.of_emit ?_ _ ?_
      · refine
          { seats := ?_, names := h.names, chairs := h.chairs, mapped := ?_, once := ?_
            connected := ?_, started := ?_, startedOnce := h.startedOnce
            waiting := fun _ => all_ready_false_of_set _ _ _
              (List.getElem?_eq_some.1 hact).1 (by decide) }
        · exact seatsConsistent_set_state h.seats _ _ _ hact (by decide) (by decide)
        · intro e he
          exact (hother e he).1
        · exact mapRemove_values_nodup c _ h.once
        · intro e he
          show (s.mChairStateList.set _ _)[e.2.chairIndex]? ≠ _
          rw [List.getElem?_set_ne (fun heq => (hother e he).2.2 heq.symm)]
          exact h.connected e ((mem_mapRemove c _ e).1 he).1
        · intro hm st hst
          rcases List.mem_or_eq_of_mem_set hst with h1 | h1
          · exact h.started hm st h1
          · exact Or.inr h1
      · simp
    · rw [leave_inactive_eq s c human hfind hact]
      have hplt : human.chairIndex < s.mPlayerList.length :=
        (List.getElem?_eq_some.1 (h.chairs human hmem)).1
      have hclt : human.chairIndex < s.mChairStateList.length := h.seats.1 ▸ hplt
      have hnot : Action.draftStart ∉ s.log := by
        refine h.not_started human.chairIndex (s.mChairStateList.get ⟨_, hclt⟩)
          (List.getElem?_eq_getElem hclt) ?_ ?_
        · intro heq
          exact hact (by rw [List.getElem?_eq_getElem hclt]; exact congrArg some heq)
        · intro heq
          exact h.connected _ hc (by rw [List.getElem?_eq_getElem hclt]; exact congrArg some heq)
      refine RoomInv.of_emit ?_ _ ?_
      · refine
          { seats := ?_, names := ?_, chairs := ?_, mapped := ?_, once := ?_
            connected := ?_, started := fun hm => absurd hm hnot
            startedOnce := h.startedOnce
            waiting := fun _ => all_ready_false_of_set _ _ _ hclt (by decide) }
        · exact seatsConsistent_set_empty h.seats _
        · exact h.names.sublist ((List.erase_sublist human s.mHumanList).map HumanPlayer.name)
        · intro h1 hm
          have hm1 := (h.humans_nodup.mem_erase_iff).1 hm
          show (s.mPlayerList.set _ _)[h1.chairIndex]? = _
          rw [List.getElem?_set_ne
            (fun heq => hm1.1 (h.chair_injective hm1.2 hmem heq.symm))]
          exact h.chairs h1 hm1.2
        · intro e he
          exact (h.humans_nodup.mem_erase_iff).2 ⟨(hother e he).2.1, (hother e he).1⟩
        · exact mapRemove_values_nodup c _ h.once
        · intro e he
          show (s.mChairStateList.set _ _)[e.2.chairIndex]? ≠ _
          rw [List.getElem?_set_ne (fun heq => (hother e he).2.2 heq.symm)]
          exact h.connected e ((mem_mapRemove c _ e).1 he).1
      · cases he : (mapRemove c s.mClientConnectionMap).isEmpty <;> simp

theorem handleHumanReadyUpdate_roomInv (s : ServerRoom) (h : RoomInv s) (human : HumanPlayer)
    (ready : Bool) : RoomInv (s.handleHumanReadyUpdate human ready) := by
  have hsets : ∀ (st st1 : ChairState),
      s.mChairStateList[human.chairIndex]? = some st →
      st ≠ ChairState.CHAIR_STATE_EMPTY → st ≠ ChairState.CHAIR_STATE_ACTIVE →
      st ≠ ChairState.CHAIR_STATE_DEPARTED →
      st1 ≠ ChairState.CHAIR_STATE_EMPTY → st1 ≠ ChairState.CHAIR_STATE_DEPARTED →
      (s.mChairStateList.set human.chairIndex st1).all
        (fun st => decide (st = ChairState.CHAIR_STATE_READY)) = false →
      RoomInv ({ s with mChairStateList := s.mChairStateList.set human.chairIndex st1 } :
        ServerRoom) := by
    intro st st1 hst h1 h2 h3 h4 h5 h6
    exact
      { seats := seatsConsistent_set_state h.seats _ _ _ hst h1 h4
        names := h.names, chairs := h.chairs, mapped := h.mapped, once := h.once
        connected := fun e he =>
          getElem?_set_ne_departed _ _ _ _ h5 (fun _ => h.connected e he)
        started := fun hm => absurd hm (h.not_started _ _ hst h2 h3)
        startedOnce := h.startedOnce
        waiting := fun _ => h6 }
  by_cases h1 : s.mChairStateList[human.chairIndex]? = some ChairState.CHAIR_STATE_READY ∧
      ready = false
  · obtain ⟨hst, rfl⟩ := h1
    rw [handleHumanReadyUpdate_unready s human hst, broadcastRoomOccupantsInfo_eq_emit]
    exact (hsets _ _ hst (by decide) (by decide) (by decide) (by decide) (by decide)
      (all_ready_false_of_set _ _ _ (List.getElem?_eq_some.1 hst).1 (by decide))).of_emit _
      (draftStart_not_mem_sends _ _)
  · by_cases h2 : s.mChairStateList[human.chairIndex]? =
        some ChairState.CHAIR_STATE_STANDBY ∧ ready = true
    · obtain ⟨hst, rfl⟩ := h2
      cases hall : (s.mChairStateList.set human.chairIndex ChairState.CHAIR_STATE_READY).all
          (fun st => decide (st = ChairState.CHAIR_STATE_READY)) with
      | false =>
        rw [handleHumanReadyUpdate_ready s human hst hall, broadcastRoomOccupantsInfo_eq_emit]
        exact (hsets _ _ hst (by decide) (by decide) (by decide) (by decide) (by decide)
          hall).of_emit _ (draftStart_not_mem_sends _ _)
      | true =>
        rw [handleHumanReadyUpdate_start s human hst hall]
        have hnot : Action.draftStart ∉ s.log :=
          h.not_started _ _ hst (by decide) (by decide)
        have hbase : seatsConsistent s.mPlayerList
            (s.mChairStateList.set human.chairIndex ChairState.CHAIR_STATE_READY) :=
          seatsConsistent_set_state h.seats _ _ _ hst (by decide) (by decide)
        refine
          { seats := seatsConsistent_all_active hbase hall
            names := h.names, chairs := h.chairs, mapped := h.mapped, once := h.once
            connected := ?_, started := ?_, startedOnce := ?_
            waiting := fun _ => all_ready_false_of_mem _ ChairState.CHAIR_STATE_ACTIVE
              (List.mem_map.2 ⟨ChairState.CHAIR_STATE_READY,
                List.mem_set _ _ (List.getElem?_eq_some.1 hst).1 _, rfl⟩) (by decide) }
        · intro e _
          show (List.map _ _)[e.2.chairIndex]? ≠ _
          rw [List.getElem?_map]
          cases (s.mChairStateList.set human.chairIndex
            ChairState.CHAIR_STATE_READY)[e.2.chairIndex]? <;> simp
        · intro _ st hst1
          left
          have hst2 : st ∈ (s.mChairStateList.set human.chairIndex
              ChairState.CHAIR_STATE_READY).map (fun _ => ChairState.CHAIR_STATE_ACTIVE) := hst1
          obtain ⟨_, _, rfl⟩ := List.mem_map.1 hst2
          rfl
        · rw [emit_log, List.count_append, List.count_append,
            List.count_eq_zero_of_not_mem hnot,
            List.count_eq_zero_of_not_mem (draftStart_not_mem_sends _ _)]
          simp
    · rw [handleHumanReadyUpdate_noop s human ready h1 h2, broadcastRoomOccupantsInfo_eq_emit]
      exact h.of_emit _ (draftStart_not_mem_sends _ _)

/-- Every room reachable by joins, leaves and ready updates satisfies the room
invariant. -/
theorem reachable_roomInv (s : ServerRoom) (h : Reachable s) : RoomInv s := by
  induction h with
  | init roomId password roomConfig => exact initialize_roomInv roomId password roomConfig
  | join s c name password chairIndex _ ih => exact join_roomInv s ih c name password chairIndex
  | leave s c _ ih => exact leave_roomInv s ih c
  | ready s human ready _ _ ih => exact handleHumanReadyUpdate_roomInv s ih human ready

/-! ## Theorems: draft callbacks, timer tick and deck update -/

theorem broadcast_eq_emit (s : ServerRoom) (msg : ServerToClientMsg) :
    s.broadcast msg =
      s.emit ((mapKeys s.mClientConnectionMap).map (fun c => Action.sendProtoMsg c msg)) := rfl

theorem DraftFrame.refl (s : ServerRoom) : DraftFrame s s where
  players := rfl
  chairs := rfl
  humans := rfl
  map := rfl
  complete := id
  state := Or.inl
  log := ⟨[], by simp, by simp, by simp⟩

theorem DraftFrame.trans {s u t : ServerRoom} (h1 : DraftFrame s u) (h2 : DraftFrame u t) :
    DraftFrame s t where
  players := h2.players.trans h1.players
  chairs := h2.chairs.trans h1.chairs
  humans := h2.humans.trans h1.humans
  map := h2.map.trans h1.map
  complete := fun h => h2.complete (h1.complete h)
  state := by
    intro h
    rcases h2.state h with h3 | h3
    · rcases h1.state h3 with h4 | h4
      · exact Or.inl h4
      · exact Or.inr (h2.complete h4)
    · exact Or.inr h3
  log := by
    obtain ⟨a1, e1, n1, d1⟩ := h1.log
    obtain ⟨a2, e2, n2, d2⟩ := h2.log
    refine ⟨a1 ++ a2, by rw [e2, e1, List.append_assoc], ?_, ?_⟩
    · intro hm
      rcases List.mem_append.1 hm with hm | hm
      · exact n1 hm
      · exact n2 hm
    · intro c l hm
      rcases List.mem_append.1 hm with hm | hm
      · exact h2.complete (d1 c l hm)
      · exact d2 c l hm

/-- A step that changes neither the seats, the roster, the connection map, the
completion flag, the state of the engine nor the log. -/
theorem DraftFrame.of_same (s t : ServerRoom) (hp : t.mPlayerList = s.mPlayerList)
    (hc : t.mChairStateList = s.mChairStateList) (hh : t.mHumanList = s.mHumanList)
    (hm : t.mClientConnectionMap = s.mClientConnectionMap)
    (hf : t.mDraftComplete = s.mDraftComplete) (hst : t.mDraft.state = s.mDraft.state)
    (hl : t.log = s.log) : DraftFrame s t where
  players := hp
  chairs := hc
  humans := hh
  map := hm
  complete := fun h => hf.trans h
  state := fun h => Or.inl (hst ▸ h)
  log := ⟨[], by simp [hl], by simp, by simp⟩

theorem DraftFrame.by_emit (s : ServerRoom) (actions : List Action)
    (h1 : Action.draftStart ∉ actions)
    (h2 : ∀ c l, Action.sendProtoMsg c (ServerToClientMsg.room_chairs_deck_info_ind l) ∈
      actions → s.mDraftComplete = true) : DraftFrame s (s.emit actions) where
  players := rfl
  chairs := rfl
  humans := rfl
  map := rfl
  complete := id
  state := Or.inl
  log := ⟨actions, rfl, h1, h2⟩

theorem DraftFrame.broadcast (s : ServerRoom) (msg : ServerToClientMsg)
    (h : ∀ l, msg = ServerToClientMsg.room_chairs_deck_info_ind l → s.mDraftComplete = true) :
    DraftFrame s (s.broadcast msg) := by
  rw [broadcast_eq_emit]
  refine DraftFrame.by_emit s _ (draftStart_not_mem_sends _ _) ?_
  intro c l hm
  obtain ⟨c1, _, heq⟩ := List.mem_map.1 hm
  injection heq with _ hmsg
  exact h l hmsg

theorem handleHumanDeckUpdate_frame (s : ServerRoom) (human : HumanPlayer) :
    DraftFrame s (s.handleHumanDeckUpdate human) := by
  unfold ServerRoom.handleHumanDeckUpdate
  split
  · rename_i hflag
    exact DraftFrame.broadcast s _ (fun _ _ => hflag)
  · exact DraftFrame.refl s

theorem foldl_broadcastRoomChairsDeckInfo_frame (humans : List HumanPlayer) (s : ServerRoom)
    (h : s.mDraftComplete = true) :
    DraftFrame s (humans.foldl (fun acc human => acc.broadcastRoomChairsDeckInfo human) s) := by
  induction humans generalizing s with
  | nil => exact DraftFrame.refl s
  | cons human rest ih =>
    have h1 : DraftFrame s (s.broadcastRoomChairsDeckInfo human) :=
      DraftFrame.broadcast s _ (fun _ _ => h)
    exact h1.trans (ih _ (h1.complete h))

theorem notify_frame (s : ServerRoom) (e : DraftEvent) : DraftFrame s (s.notify e) := by
  cases e with
  | packQueueSizeChanged a b =>
    exact (DraftFrame.of_same s ({ s with mDraft := s.mDraft } : ServerRoom)
      rfl rfl rfl rfl rfl rfl rfl).trans
      (DraftFrame.broadcast _ _ (fun _ hl => by cases hl))
  | publicState =>
    exact (DraftFrame.of_same s ({ s with mPublicStatePresent := true } : ServerRoom)
      rfl rfl rfl rfl rfl rfl rfl).trans
      (DraftFrame.by_emit _ _ (draftStart_not_mem_sends _ _) (by simp))
  | postRoundTimerStarted roundIndex ticksRemaining =>
    have h1 := DraftFrame.of_same s ({ s with
      mPostRoundTimerActive := true
      mPostRoundTimerTicksRemaining := ticksRemaining } : ServerRoom)
      rfl rfl rfl rfl rfl rfl rfl
    by_cases ht : ticksRemaining ≤ 0
    · have : s.notify (DraftEvent.postRoundTimerStarted roundIndex ticksRemaining) =
          { s with
            mPostRoundTimerActive := true
            mPostRoundTimerTicksRemaining := ticksRemaining } := by
        simp [ServerRoom.notify, ServerRoom.notifyPostRoundTimerStarted, ht, Draft.after]
      rw [this]
      exact h1
    · have : s.notify (DraftEvent.postRoundTimerStarted roundIndex ticksRemaining) =
          ({ s with
            mPostRoundTimerActive := true
            mPostRoundTimerTicksRemaining := ticksRemaining } : ServerRoom).broadcast
            (ServerToClientMsg.room_stage_ind Stage.STAGE_RUNNING
              (some { round := roundIndex, post_round_ticks_remaining := some ticksRemaining })) := by
        simp [ServerRoom.notify, ServerRoom.notifyPostRoundTimerStarted, ht, Draft.after]
      rw [this]
      exact h1.trans (DraftFrame.broadcast _ _ (fun _ hl => by cases hl))
  | newRound roundIndex =>
    exact (DraftFrame.of_same s ({ s with
        mDraft := { s.mDraft with currentRound := roundIndex }
        mPublicStatePresent := false
        mPostRoundTimerActive := false } : ServerRoom)
      rfl rfl rfl rfl rfl rfl rfl).trans
      (DraftFrame.broadcast _ _ (fun _ hl => by cases hl))
  | draftComplete =>
    have h1 : DraftFrame s ({ s with
        mDraft := { s.mDraft with state := DraftState.STATE_COMPLETE }
        mDraftTimer := none
        mPostRoundTimerActive := false
        mDraftComplete := true } : ServerRoom) :=
      { players := rfl, chairs := rfl, humans := rfl, map := rfl
        complete := fun _ => rfl
        state := fun _ => Or.inr rfl
        log := ⟨[], by simp, by simp, by simp⟩ }
    have h2 := h1.trans (DraftFrame.broadcast _
      (ServerToClientMsg.room_stage_ind Stage.STAGE_COMPLETE none) (fun _ hl => by cases hl))
    exact h2.trans (foldl_broadcastRoomChairsDeckInfo_frame _ _ rfl)
  | draftError =>
    exact ((DraftFrame.of_same s ({ s with mDraft := s.mDraft } : ServerRoom)
      rfl rfl rfl rfl rfl rfl rfl).trans
      (DraftFrame.broadcast _ ServerToClientMsg.room_error_ind
        (fun _ hl => by cases hl))).trans
      (DraftFrame.by_emit _ [Action.roomError] (by simp) (by simp))

theorem foldl_notify_frame (events : List DraftEvent) (s : ServerRoom) :
    DraftFrame s (events.foldl ServerRoom.notify s) := by
  induction events generalizing s with
  | nil => exact DraftFrame.refl s
  | cons e rest ih => exact (notify_frame s e).trans (ih _)

theorem broadcastBoosterDraftState_frame (s : ServerRoom) :
    DraftFrame s s.broadcastBoosterDraftState :=
  DraftFrame.broadcast s ServerToClientMsg.booster_draft_state_ind (fun _ hl => by cases hl)

theorem tick_callbacks_frame (s : ServerRoom) (events : List DraftEvent)
    (isBoosterRound : Bool) :
    DraftFrame s
      (if (events.foldl ServerRoom.notify (s.emit [Action.draftTick])).mDraft.state =
          DraftState.STATE_RUNNING ∧ isBoosterRound = true then
        (events.foldl ServerRoom.notify (s.emit [Action.draftTick])).broadcastBoosterDraftState
      else events.foldl ServerRoom.notify (s.emit [Action.draftTick])) := by
  have h2 := (DraftFrame.by_emit s [Action.draftTick] (by simp) (by simp)).trans
    (foldl_notify_frame events _)
  split
  · exact h2.trans (broadcastBoosterDraftState_frame _)
  · exact h2

theorem handleDraftTimerTick_frame (s : ServerRoom) (events : List DraftEvent)
    (isBoosterRound : Bool) : DraftFrame s (s.handleDraftTimerTick events isBoosterRound) := by
  have h0 : DraftFrame s
      (if s.mPostRoundTimerActive then
        { s with mPostRoundTimerTicksRemaining := s.mPostRoundTimerTicksRemaining - 1 }
        else s) := by
    split
    · exact DraftFrame.of_same s _ rfl rfl rfl rfl rfl rfl rfl
    · exact DraftFrame.refl s
  exact h0.trans (tick_callbacks_frame _ events isBoosterRound)

/-! ## Theorems: invariants of the rooms reachable with the draft callbacks -/

theorem RoomInv.of_frame {s t : ServerRoom} (h : RoomInv s) (f : DraftFrame s t) :
    RoomInv t := by
  obtain ⟨added, hlog, hnot, _⟩ := f.log
  have hmem : Action.draftStart ∈ t.log → Action.draftStart ∈ s.log := by
    intro hm
    rw [hlog] at hm
    rcases List.mem_append.1 hm with hm | hm
    · exact hm
    · exact absurd hm hnot
  refine
    { seats := ?_, names := ?_, chairs := ?_, mapped := ?_, once := ?_, connected := ?_
      started := ?_, startedOnce := ?_, waiting := ?_ }
  · unfold ServerRoom.SeatsConsistent
    rw [f.players, f.chairs]
    exact h.seats
  · rw [f.humans]
    exact h.names
  · rw [f.humans, f.players]
    exact h.chairs
  · rw [f.humans, f.map]
    exact h.mapped
  · rw [f.map]
    exact h.once
  · rw [f.map, f.chairs]
    exact h.connected
  · rw [f.chairs]
    exact fun hm => h.started (hmem hm)
  · rw [hlog, List.count_append, List.count_eq_zero_of_not_mem hnot]
    exact h.startedOnce
  · rw [f.humans, f.chairs]
    exact h.waiting

/-- Every room reachable by joins, leaves, ready and deck updates, draft callbacks
and timer ticks satisfies the room invariant. -/
theorem reachableWithDraft_roomInv (s : ServerRoom) (h : ReachableWithDraft s) : RoomInv s := by
  induction h with
  | init roomId password roomConfig => exact initialize_roomInv roomId password roomConfig
  | join s c name password chairIndex _ ih => exact join_roomInv s ih c name password chairIndex
  | leave s c _ ih => exact leave_roomInv s ih c
  | ready s human ready _ _ ih => exact handleHumanReadyUpdate_roomInv s ih human ready
  | deckUpdate s human _ _ ih => exact ih.of_frame (handleHumanDeckUpdate_frame s human)
  | notify s e _ ih => exact ih.of_frame (notify_frame s e)
  | tick s events isBoosterRound _ ih =>
    exact ih.of_frame (handleDraftTimerTick_frame s events isBoosterRound)

theorem DeckInv.of_draftFrame {s t : ServerRoom} (h : DeckInv s) (f : DraftFrame s t) :
    DeckInv t := by
  obtain ⟨added, hlog, _, hdeck⟩ := f.log
  refine { state := ?_, sent := ?_ }
  · intro hst
    rcases f.state hst with h1 | h1
    · exact f.complete (h.state h1)
    · exact h1
  · intro c l hm
    rw [hlog] at hm
    rcases List.mem_append.1 hm with hm | hm
    · exact f.complete (h.sent c l hm)
    · exact hdeck c l hm

/-- A step that keeps the completion flag, reaches the state COMPLETE of the engine
only from it, and sends a RoomChairsDeckInfoInd only in that state keeps the deck
invariant. -/
theorem DeckInv.of_step {s : ServerRoom} (h : DeckInv s) (t : ServerRoom)
    (hf : t.mDraftComplete = s.mDraftComplete)
    (hst : t.mDraft.state = DraftState.STATE_COMPLETE →
      s.mDraft.state = DraftState.STATE_COMPLETE)
    (actions : List Action) (hl : t.log = s.log ++ actions)
    (hd : ∀ c l, Action.sendProtoMsg c (ServerToClientMsg.room_chairs_deck_info_ind l) ∈
      actions → s.mDraft.state = DraftState.STATE_COMPLETE) : DeckInv t := by
  refine { state := ?_, sent := ?_ }
  · intro h1
    rw [hf]
    exact h.state (hst h1)
  · intro c l hm
    rw [hf]
    rw [hl] at hm
    rcases List.mem_append.1 hm with hm | hm
    · exact h.sent c l hm
    · exact h.state (hd c l hm)

theorem placeBots_deck (n i : Nat) (s : ServerRoom) :
    (placeBots n i s).mDraft = s.mDraft ∧
    (placeBots n i s).mDraftComplete = s.mDraftComplete ∧
    (∀ c l, Action.sendProtoMsg c (ServerToClientMsg.room_chairs_deck_info_ind l) ∈
      (placeBots n i s).log →
      Action.sendProtoMsg c (ServerToClientMsg.room_chairs_deck_info_ind l) ∈ s.log) := by
  induction n generalizing i s with
  | zero => exact ⟨rfl, rfl, fun _ _ => id⟩
  | succ n ih =>
    unfold placeBots
    simp only
    refine ⟨(ih _ _).1.trans rfl, (ih _ _).2.1.trans rfl, ?_⟩
    intro c l hm
    have := (ih _ _).2.2 c l hm
    simpa using this

theorem initialize_deckInv (roomId : Nat) (password : String) (roomConfig : RoomConfig) :
    DeckInv ( ServerRoom.initialize (ServerRoom.create roomId password roomConfig)) := by
  have hbase : DeckInv (ServerRoom.create roomId password roomConfig) :=
    { state := by simp [ServerRoom.create]
      sent := by simp [ServerRoom.create] }
  unfold ServerRoom.initialize
  split
  · exact hbase.of_step _ rfl id [Action.roomExpired] rfl (by simp)
  · have key := fun n => placeBots_deck n 0 ({ ServerRoom.create roomId password roomConfig with
        mPlayerList := (ServerRoom.create roomId password roomConfig).mPlayerList ++
          List.replicate (ServerRoom.create roomId password roomConfig).mChairCount none
        mChairStateList := (ServerRoom.create roomId password roomConfig).mChairStateList ++
          List.replicate (ServerRoom.create roomId password roomConfig).mChairCount
            ChairState.CHAIR_STATE_EMPTY
        mRoomExpirationTimer := some (CREATED_ROOM_EXPIRATION_SECONDS * 1000) } : ServerRoom)
    have hplaced : ∀ n, DeckInv (placeBots n 0 ({ ServerRoom.create roomId password roomConfig with
        mPlayerList := (ServerRoom.create roomId password roomConfig).mPlayerList ++
          List.replicate (ServerRoom.create roomId password roomConfig).mChairCount none
        mChairStateList := (ServerRoom.create roomId password roomConfig).mChairStateList ++
          List.replicate (ServerRoom.create roomId password roomConfig).mChairCount
            ChairState.CHAIR_STATE_EMPTY
        mRoomExpirationTimer := some (CREATED_ROOM_EXPIRATION_SECONDS * 1000) } :
          ServerRoom)) := by
      intro n
      refine { state := ?_, sent := ?_ }
      · rw [(key n).1, (key n).2.1]
        exact hbase.state
      · intro c l hm
        rw [(key n).2.1]
        exact hbase.sent c l ((key n).2.2 c l hm)
    simp only
    split <;> split
    · exact (hplaced _).of_step _ rfl id [Action.playerCountChanged] rfl (by simp)
    · exact hplaced _
    · exact (hplaced _).of_step _ rfl id [Action.playerCountChanged] rfl (by simp)
    · exact hplaced _

theorem join_deckInv (s : ServerRoom) (h : DeckInv s) (c : ClientConnection)
    (name password : String) (chairIndex : Int) :
    DeckInv (s.join c name password chairIndex).room := by
  cases hfind : s.getHumanPlayer name with
  | some human =>
    have hjoin : (s.join c name password chairIndex).room = (s.rejoin c name).1 := by
      unfold ServerRoom.join
      simp only [hfind]
    rw [hjoin]
    by_cases hdep : s.mChairStateList[human.chairIndex]? =
        some ChairState.CHAIR_STATE_DEPARTED
    · rw [rejoin_eq s c name human hfind hdep]
      refine h.of_step _ rfl id _ rfl ?_
      intro c1 l hm
      by_cases hst : s.mDraft.state = DraftState.STATE_COMPLETE
      · exact hst
      · exfalso
        cases hp : s.mPublicStatePresent <;> cases hrun : s.mDraft.state <;>
          simp [hst, hp, hrun, ServerRoom.roomStageInd] at hm hst
    · unfold ServerRoom.rejoin
      simp only [hfind, ne_eq, hdep, not_false_eq_true, if_true]
      exact h
  | none =>
    cases hcond : (!s.mPassword.isEmpty && password != s.mPassword) with
    | true =>
      have hjoin : (s.join c name password chairIndex).room =
          s.emit [Action.sendProtoMsg c (ServerToClientMsg.join_room_failure_rsp
            JoinRoomFailureResult.RESULT_INVALID_PASSWORD s.mRoomId)] := by
        unfold ServerRoom.join
        simp only [hfind, hcond, if_true, sendJoinRoomFailureRsp_eq_emit]
      rw [hjoin]
      exact h.of_step _ rfl id _ rfl (by simp)
    | false =>
      rcases getNextAvailablePlayerIndex_spec s with hidx | ⟨k, hidx, _⟩
      · have hjoin : (s.join c name password chairIndex).room =
            s.emit [Action.sendProtoMsg c (ServerToClientMsg.join_room_failure_rsp
              JoinRoomFailureResult.RESULT_ROOM_FULL s.mRoomId)] := by
          unfold ServerRoom.join
          simp only [hfind, hcond, hidx, Bool.false_eq_true, if_false, if_true,
            sendJoinRoomFailureRsp_eq_emit]
        rw [hjoin]
        exact h.of_step _ rfl id _ rfl (by simp)
      · rw [join_new_eq s c name password chairIndex k hfind hcond hidx]
        exact h.of_step _ rfl id _ rfl (by simp)

theorem leave_deckInv (s : ServerRoom) (h : DeckInv s) (c : ClientConnection) :
    DeckInv (s.leave c) := by
  cases hfind : mapFind c s.mClientConnectionMap with
  | none =>
    unfold ServerRoom.leave
    simp only [hfind]
    exact h
  | some human =>
    by_cases hact : s.mChairStateList[human.chairIndex]? = some ChairState.CHAIR_STATE_ACTIVE
    · rw [leave_active_eq s c human hfind hact]
      exact h.of_step _ rfl id _ rfl (by simp)
    · rw [leave_inactive_eq s c human hfind hact]
      refine h.of_step _ rfl id _ rfl ?_
      cases he : (mapRemove c s.mClientConnectionMap).isEmpty <;> simp

theorem draft_start_complete (d : Draft) (h : d.start.state = DraftState.STATE_COMPLETE) :
    d.state = DraftState.STATE_COMPLETE := by
  unfold Draft.start at h
  cases hst : d.state <;> simp [hst] at h ⊢

theorem handleHumanReadyUpdate_deckInv (s : ServerRoom) (h : DeckInv s) (human : HumanPlayer)
    (ready : Bool) : DeckInv (s.handleHumanReadyUpdate human ready) := by
  have hsends : ∀ (cs : List ClientConnection) (msg : ServerToClientMsg),
      (∀ l, msg ≠ ServerToClientMsg.room_chairs_deck_info_ind l) →
      ∀ c l, Action.sendProtoMsg c (ServerToClientMsg.room_chairs_deck_info_ind l) ∈
        cs.map (fun c1 => Action.sendProtoMsg c1 msg) →
        s.mDraft.state = DraftState.STATE_COMPLETE := by
    intro cs msg hne c l hm
    obtain ⟨c1, _, heq⟩ := List.mem_map.1 hm
    injection heq with _ hmsg
    exact absurd hmsg (hne l)
  by_cases h1 : s.mChairStateList[human.chairIndex]? = some ChairState.CHAIR_STATE_READY ∧
      ready = false
  · obtain ⟨hst, rfl⟩ := h1
    rw [handleHumanReadyUpdate_unready s human hst, broadcastRoomOccupantsInfo_eq_emit]
    exact h.of_step _ rfl id _ rfl (hsends _ _ (fun _ hl => by cases hl))
  · by_cases h2 : s.mChairStateList[human.chairIndex]? =
        some ChairState.CHAIR_STATE_STANDBY ∧ ready = true
    · obtain ⟨hst, rfl⟩ := h2
      cases hall : (s.mChairStateList.set human.chairIndex ChairState.CHAIR_STATE_READY).all
          (fun st => decide (st = ChairState.CHAIR_STATE_READY)) with
      | false =>
        rw [handleHumanReadyUpdate_ready s human hst hall, broadcastRoomOccupantsInfo_eq_emit]
        exact h.of_step _ rfl id _ rfl (hsends _ _ (fun _ hl => by cases hl))
      | true =>
        rw [handleHumanReadyUpdate_start s human hst hall]
        refine h.of_step _ rfl (draft_start_complete s.mDraft) _ rfl ?_
        intro c l hm
        rcases List.mem_append.1 hm with hm | hm
        · exact hsends _ _ (fun _ hl => by cases hl) c l hm
        · simp at hm
    · rw [handleHumanReadyUpdate_noop s human ready h1 h2, broadcastRoomOccupantsInfo_eq_emit]
      exact h.of_step _ rfl id _ rfl (hsends _ _ (fun _ hl => by cases hl))

/-- Every room reachable by joins, leaves, ready and deck updates, draft callbacks
and timer ticks satisfies the deck invariant. -/
theorem reachableWithDraft_deckInv (s : ServerRoom) (h : ReachableWithDraft s) : DeckInv s := by
  induction h with
  | init roomId password roomConfig => exact initialize_deckInv roomId password roomConfig
  | join s c name password chairIndex _ ih => exact join_deckInv s ih c name password chairIndex
  | leave s c _ ih => exact leave_deckInv s ih c
  | ready s human ready _ _ ih => exact handleHumanReadyUpdate_deckInv s ih human ready
  | deckUpdate s human _ _ ih => exact ih.of_draftFrame (handleHumanDeckUpdate_frame s human)
  | notify s e _ ih => exact ih.of_draftFrame (notify_frame s e)
  | tick s events isBoosterRound _ ih =>
    exact ih.of_draftFrame (handleDraftTimerTick_frame s events isBoosterRound)

/-! ## Theorems: rejoining a room -/

/-- With no two humans of the same name in the roster, the human found by name is
the human of that name. -/
theorem getHumanPlayer_of_mem (s : ServerRoom)
    (hnames : (s.mHumanList.map HumanPlayer.name).Nodup) (human : HumanPlayer)
    (hmem : human ∈ s.mHumanList) : s.getHumanPlayer human.name = some human := by
  cases hfind : s.getHumanPlayer human.name with
  | none => exact absurd rfl (getHumanPlayer_none s human.name hfind human hmem)
  | some other =>
    obtain ⟨hm, hn⟩ := getHumanPlayer_some s human.name other hfind
    rw [List.inj_on_of_nodup_map hnames hm hmem hn]

theorem mapFind_mapInsert (k : ClientConnection) (v : HumanPlayer)
    (m : List (ClientConnection × HumanPlayer)) : mapFind k (mapInsert k v m) = some v := by
  induction m with
  | nil => simp [mapInsert, mapFind]
  | cons e rest ih =>
    obtain ⟨k1, v1⟩ := e
    unfold mapInsert
    split
    · simp [mapFind]
    · split
      · simp [mapFind]
      · rename_i hne
        simp [mapFind, hne, ih]

/-- C12: in every reachable room in which a human of the roster holds a DEPARTED
chair, a join under the name of that human, with any password, is a rejoin that
succeeds: the chair becomes ACTIVE and no other chair state changes, the roster,
the players of the chairs, the bots and the identity of the next human stay as
they were (no human is allocated), the existing human is attached to the new
connection, and JoinRoomSuccessRspInd with the room id, rejoin = true and the
chair is sent on that connection. -/
theorem join_departed_name_rejoins (s : ServerRoom) (hs : ReachableWithDraft s)
    (c : ClientConnection) (password : String) (chairIndex : Int) (human : HumanPlayer)
    (hmem : human ∈ s.mHumanList)
    (hdep : s.mChairStateList[human.chairIndex]? = some ChairState.CHAIR_STATE_DEPARTED) :
    (s.join c human.name password chairIndex).result = true ∧
    (s.join c human.name password chairIndex).room.mChairStateList[human.chairIndex]? =
      some ChairState.CHAIR_STATE_ACTIVE ∧
    (∀ i : Nat, i ≠ human.chairIndex →
      (s.join c human.name password chairIndex).room.mChairStateList[i]? =
        s.mChairStateList[i]?) ∧
    (s.join c human.name password chairIndex).room.mChairStateList.length =
      s.mChairStateList.length ∧
    (s.join c human.name password chairIndex).room.mHumanList = s.mHumanList ∧
    (s.join c human.name password chairIndex).room.mPlayerList = s.mPlayerList ∧
    (s.join c human.name password chairIndex).room.mBotList = s.mBotList ∧
    (s.join c human.name password chairIndex).room.nextHumanId = s.nextHumanId ∧
    (s.join c human.name password chairIndex).room.mClientConnectionMap =
      mapInsert c human s.mClientConnectionMap ∧
    mapFind c (s.join c human.name password chairIndex).room.mClientConnectionMap =
      some human ∧
    ∃ rest, (s.join c human.name password chairIndex).room.log =
      s.log ++ Action.setClientConnection human c ::
        Action.sendProtoMsg c (ServerToClientMsg.join_room_success_rspind s.mRoomId true
          (human.chairIndex : Int)) :: rest := by
  have hfind := getHumanPlayer_of_mem s (reachableWithDraft_roomInv s hs).names human hmem
  have hlt : human.chairIndex < s.mChairStateList.length := (List.getElem?_eq_some.1 hdep).1
  have hjoin : s.join c human.name password chairIndex =
      { room := (s.rejoin c human.name).1, result := (s.rejoin c human.name).2,
        chairIndex := chairIndex } := by
    unfold ServerRoom.join
    simp only [hfind]
  rw [hjoin, rejoin_eq s c human.name human hfind hdep]
  refine ⟨rfl, ?_, ?_, ?_, rfl, rfl, rfl, rfl, rfl, mapFind_mapInsert c human _, _, rfl⟩
  · show (s.mChairStateList.set human.chairIndex ChairState.CHAIR_STATE_ACTIVE)[
      human.chairIndex]? = _
    simp [hlt]
  · intro i hi
    show (s.mChairStateList.set human.chairIndex ChairState.CHAIR_STATE_ACTIVE)[i]? = _
    rw [List.getElem?_set_ne (fun h => hi h.symm)]
  · show (s.mChairStateList.set human.chairIndex ChairState.CHAIR_STATE_ACTIVE).length = _
    simp

/-- Instance of `join_departed_name_rejoins`: `alice` left the running sample room,
so that chair 1 is DEPARTED; a join under her name on connection 9, with a
password the room does not have, succeeds, makes chair 1 ACTIVE and maps
connection 9 to the human that was allocated at her first join. -/
theorem join_departed_name_rejoins_witness :
    departedRoom.mChairStateList[1]? = some ChairState.CHAIR_STATE_DEPARTED ∧
    (departedRoom.join 9 "alice" "wrong" 0).result = true ∧
    (departedRoom.join 9 "alice" "wrong" 0).room.mChairStateList[1]? =
      some ChairState.CHAIR_STATE_ACTIVE ∧
    mapFind 9 (departedRoom.join 9 "alice" "wrong" 0).room.mClientConnectionMap =
      some { id := 0, name := "alice", chairIndex := 1 } :=
  have h := join_departed_name_rejoins departedRoom
    (ReachableWithDraft.leave _ 5
      (ReachableWithDraft.ready _ { id := 0, name := "alice", chairIndex := 1 } true
        (ReachableWithDraft.join _ 5 "alice" "" 0 (ReachableWithDraft.init _ _ _))
        (by decide)))
    9 "wrong" 0 { id := 0, name := "alice", chairIndex := 1 } (by decide) (by decide)
  ⟨by decide, h.1, h.2.1, h.2.2.2.2.2.2.2.2.2.1⟩

/-! ## Theorems: the start of the draft -/

/-- No `join` starts the draft engine or touches the draft timer. -/
theorem join_no_start (s : ServerRoom) (c : ClientConnection) (name password : String)
    (chairIndex : Int) :
    (s.join c name password chairIndex).room.mDraftTimer = s.mDraftTimer ∧
    (s.join c name password chairIndex).room.mDraft = s.mDraft ∧
    ∃ added, (s.join c name password chairIndex).room.log = s.log ++ added ∧
      Action.draftStart ∉ added := by
  cases hfind : s.getHumanPlayer name with
  | some human =>
    have hjoin : (s.join c name password chairIndex).room = (s.rejoin c name).1 := by
      unfold ServerRoom.join
      simp only [hfind]
    rw [hjoin]
    by_cases hdep : s.mChairStateList[human.chairIndex]? =
        some ChairState.CHAIR_STATE_DEPARTED
    · rw [rejoin_eq s c name human hfind hdep]
      refine ⟨rfl, rfl, _, rfl, ?_⟩
      cases hst : s.mDraft.state <;> cases hp : s.mPublicStatePresent <;> simp [hst, hp]
    · have hre : (s.rejoin c name).1 = s := by
        unfold ServerRoom.rejoin
        simp only [hfind, ne_eq, hdep, not_false_eq_true, if_true]
      rw [hre]
      exact ⟨rfl, rfl, [], by simp, by simp⟩
  | none =>
    cases hcond : (!s.mPassword.isEmpty && password != s.mPassword) with
    | true =>
      have hjoin : (s.join c name password chairIndex).room =
          s.emit [Action.sendProtoMsg c (ServerToClientMsg.join_room_failure_rsp
            JoinRoomFailureResult.RESULT_INVALID_PASSWORD s.mRoomId)] := by
        unfold ServerRoom.join
        simp only [hfind, hcond, if_true, sendJoinRoomFailureRsp_eq_emit]
      rw [hjoin]
      exact ⟨rfl, rfl, _, rfl, by simp⟩
    | false =>
      rcases getNextAvailablePlayerIndex_spec s with hidx | ⟨k, hidx, _⟩
      · have hjoin : (s.join c name password chairIndex).room =
            s.emit [Action.sendProtoMsg c (ServerToClientMsg.join_room_failure_rsp
              JoinRoomFailureResult.RESULT_ROOM_FULL s.mRoomId)] := by
          unfold ServerRoom.join
          simp only [hfind, hcond, hidx, Bool.false_eq_true, if_false, if_true,
            sendJoinRoomFailureRsp_eq_emit]
        rw [hjoin]
        exact ⟨rfl, rfl, _, rfl, by simp⟩
      · rw [join_new_eq s c name password chairIndex k hfind hcond hidx]
        exact ⟨rfl, rfl, _, rfl, by simp⟩

/-- No `leave` starts the draft engine or touches the draft timer. -/
theorem leave_no_start (s : ServerRoom) (c : ClientConnection) :
    (s.leave c).mDraftTimer = s.mDraftTimer ∧ (s.leave c).mDraft = s.mDraft ∧
    ∃ added, (s.leave c).log = s.log ++ added ∧ Action.draftStart ∉ added := by
  cases hfind : mapFind c s.mClientConnectionMap with
  | none =>
    have hl : s.leave c = s := by
      unfold ServerRoom.leave
      simp only [hfind]
    rw [hl]
    exact ⟨rfl, rfl, [], by simp, by simp⟩
  | some human =>
    by_cases hact : s.mChairStateList[human.chairIndex]? = some ChairState.CHAIR_STATE_ACTIVE
    · rw [leave_active_eq s c human hfind hact]
      exact ⟨rfl, rfl, _, rfl, by simp⟩
    · rw [leave_inactive_eq s c human hfind hact]
      refine ⟨rfl, rfl, _, rfl, ?_⟩
      cases he : (mapRemove c s.mClientConnectionMap).isEmpty <;> simp

theorem handleHumanReadyUpdate_mHumanList (s : ServerRoom) (human : HumanPlayer)
    (ready : Bool) : (s.handleHumanReadyUpdate human ready).mHumanList = s.mHumanList := by
  unfold ServerRoom.handleHumanReadyUpdate
  simp only
  split
  · rfl
  · split
    · split <;> rfl
    · rfl

theorem count_draftStart_of_append (l added : List Action)
    (h : Action.draftStart ∉ added) :
    (l ++ added).count Action.draftStart = l.count Action.draftStart := by
  rw [List.count_append, List.count_eq_zero_of_not_mem h, Nat.add_zero]

/-- C15: over the rooms reachable by initialize, join (rejoin included), leave and
ready updates, a ready update of a human of the roster starts the draft exactly
when it makes a STANDBY chair READY and every chair is READY then, so that no chair
is EMPTY: this update, which finds the engine not started before, calls the start
of the engine once, arms the draft timer with 1000 ms and leaves every chair
ACTIVE. Every other ready update leaves the engine and the draft timer alone and
ends with some chair not READY; no join, leave or initialize starts the engine or
touches the draft timer; and the engine is started at most once. -/
theorem draft_started_exactly_when_all_ready (s : ServerRoom) (hs : Reachable s)
    (human : HumanPlayer) (hmem : human ∈ s.mHumanList) (ready : Bool) :
    ((s.mChairStateList[human.chairIndex]? = some ChairState.CHAIR_STATE_STANDBY ∧
        ready = true ∧
        (s.mChairStateList.set human.chairIndex ChairState.CHAIR_STATE_READY).all
          (fun st => decide (st = ChairState.CHAIR_STATE_READY)) = true) →
      s.log.count Action.draftStart = 0 ∧
      (s.handleHumanReadyUpdate human ready).log.count Action.draftStart = 1 ∧
      (s.handleHumanReadyUpdate human ready).mDraftTimer = some 1000 ∧
      (s.handleHumanReadyUpdate human ready).mDraft = s.mDraft.start ∧
      (∀ st ∈ (s.handleHumanReadyUpdate human ready).mChairStateList,
        st = ChairState.CHAIR_STATE_ACTIVE) ∧
      (s.handleHumanReadyUpdate human ready).mChairStateList.length =
        s.mChairStateList.length ∧
      ChairState.CHAIR_STATE_EMPTY ∉
        s.mChairStateList.set human.chairIndex ChairState.CHAIR_STATE_READY) ∧
    (¬ (s.mChairStateList[human.chairIndex]? = some ChairState.CHAIR_STATE_STANDBY ∧
        ready = true ∧
        (s.mChairStateList.set human.chairIndex ChairState.CHAIR_STATE_READY).all
          (fun st => decide (st = ChairState.CHAIR_STATE_READY)) = true) →
      (s.handleHumanReadyUpdate human ready).log.count Action.draftStart =
        s.log.count Action.draftStart ∧
      (s.handleHumanReadyUpdate human ready).mDraftTimer = s.mDraftTimer ∧
      (s.handleHumanReadyUpdate human ready).mDraft = s.mDraft ∧
      (s.handleHumanReadyUpdate human ready).mChairStateList.all
        (fun st => decide (st = ChairState.CHAIR_STATE_READY)) = false) ∧
    (∀ (c : ClientConnection) (name password : String) (chairIndex : Int),
      (s.join c name password chairIndex).room.log.count Action.draftStart =
        s.log.count Action.draftStart ∧
      (s.join c name password chairIndex).room.mDraftTimer = s.mDraftTimer ∧
      (s.join c name password chairIndex).room.mDraft = s.mDraft) ∧
    (∀ c : ClientConnection,
      (s.leave c).log.count Action.draftStart = s.log.count Action.draftStart ∧
      (s.leave c).mDraftTimer = s.mDraftTimer ∧ (s.leave c).mDraft = s.mDraft) ∧
    (∀ (roomId : Nat) (password : String) (roomConfig : RoomConfig),
      ( ServerRoom.initialize (ServerRoom.create roomId password roomConfig)).log.count
        Action.draftStart = 0) ∧
    s.log.count Action.draftStart ≤ 1 ∧
    (s.handleHumanReadyUpdate human ready).log.count Action.draftStart ≤ 1 := by
  have inv := reachable_roomInv s hs
  have invt := handleHumanReadyUpdate_roomInv s inv human ready
  have hwait := invt.waiting (by
    rw [handleHumanReadyUpdate_mHumanList]
    exact List.ne_nil_of_mem hmem)
  refine ⟨?_, ?_, ?_, ?_, ?_, inv.startedOnce, invt.startedOnce⟩
  · rintro ⟨hst, rfl, hall⟩
    have hnot : Action.draftStart ∉ s.log := inv.not_started _ _ hst (by decide) (by decide)
    have hzero : s.log.count Action.draftStart = 0 := List.count_eq_zero_of_not_mem hnot
    rw [handleHumanReadyUpdate_start s human hst hall]
    refine ⟨hzero, ?_, rfl, rfl, ?_, ?_, ?_⟩
    · rw [emit_log, List.count_append, List.count_append, hzero,
        List.count_eq_zero_of_not_mem (draftStart_not_mem_sends _ _)]
      simp
    · intro st hm
      have hm1 : st ∈ (s.mChairStateList.set human.chairIndex
          ChairState.CHAIR_STATE_READY).map (fun _ => ChairState.CHAIR_STATE_ACTIVE) := hm
      obtain ⟨_, _, rfl⟩ := List.mem_map.1 hm1
      rfl
    · show ((s.mChairStateList.set human.chairIndex
        ChairState.CHAIR_STATE_READY).map (fun _ => ChairState.CHAIR_STATE_ACTIVE)).length = _
      simp
    · intro hm
      have := List.all_eq_true.1 hall _ hm
      simp at this
  · intro hcond
    refine ⟨?_, ?_, ?_, hwait⟩
    all_goals
      by_cases h1 : s.mChairStateList[human.chairIndex]? =
          some ChairState.CHAIR_STATE_READY ∧ ready = false
      · obtain ⟨hst, rfl⟩ := h1
        rw [handleHumanReadyUpdate_unready s human hst, broadcastRoomOccupantsInfo_eq_emit]
        first
          | rfl
          | exact count_draftStart_of_append _ _ (draftStart_not_mem_sends _ _)
      · by_cases h2 : s.mChairStateList[human.chairIndex]? =
            some ChairState.CHAIR_STATE_STANDBY ∧ ready = true
        · obtain ⟨hst, rfl⟩ := h2
          have hall : (s.mChairStateList.set human.chairIndex
              ChairState.CHAIR_STATE_READY).all
              (fun st => decide (st = ChairState.CHAIR_STATE_READY)) = false := by
            cases hall : (s.mChairStateList.set human.chairIndex
              ChairState.CHAIR_STATE_READY).all
              (fun st => decide (st = ChairState.CHAIR_STATE_READY)) with
            | false => rfl
            | true => exact absurd ⟨hst, rfl, hall⟩ hcond
          rw [handleHumanReadyUpdate_ready s human hst hall,
            broadcastRoomOccupantsInfo_eq_emit]
          first
            | rfl
            | exact count_draftStart_of_append _ _ (draftStart_not_mem_sends _ _)
        · rw [handleHumanReadyUpdate_noop s human ready h1 h2,
            broadcastRoomOccupantsInfo_eq_emit]
          first
            | rfl
            | exact count_draftStart_of_append _ _ (draftStart_not_mem_sends _ _)
  · intro c name password chairIndex
    obtain ⟨h1, h2, added, h3, h4⟩ := join_no_start s c name password chairIndex
    exact ⟨by rw [h3]; exact count_draftStart_of_append _ _ h4, h1, h2⟩
  · intro c
    obtain ⟨h1, h2, added, h3, h4⟩ := leave_no_start s c
    exact ⟨by rw [h3]; exact count_draftStart_of_append _ _ h4, h1, h2⟩
  · intro roomId password roomConfig
    apply List.count_eq_zero_of_not_mem
    intro hm
    have := (initialize_frame (ServerRoom.create roomId password roomConfig)).2.2 hm
    simp [ServerRoom.create] at this

/-- Instance of `draft_started_exactly_when_all_ready`: in the sample room, with
its bot READY in chair 0 and `alice` STANDBY in chair 1, the ready update of
`alice` starts the draft; in the room with three chairs, where chair 2 is EMPTY,
the same update starts nothing. -/
theorem draft_started_exactly_when_all_ready_witness :
    (roomWithAlice.log.count Action.draftStart = 0 ∧
      runningRoom.log.count Action.draftStart = 1 ∧
      runningRoom.mDraftTimer = some 1000 ∧
      (∀ st ∈ runningRoom.mChairStateList, st = ChairState.CHAIR_STATE_ACTIVE)) ∧
    ((threeChairRoom.handleHumanReadyUpdate { id := 0, name := "alice", chairIndex := 1 }
        true).log.count Action.draftStart = threeChairRoom.log.count Action.draftStart ∧
      (threeChairRoom.handleHumanReadyUpdate { id := 0, name := "alice", chairIndex := 1 }
        true).mDraftTimer = threeChairRoom.mDraftTimer) :=
  have h1 := (draft_started_exactly_when_all_ready roomWithAlice
    (Reachable.join _ 5 "alice" "" 0 (Reachable.init _ _ _))
    { id := 0, name := "alice", chairIndex := 1 } (by decide) true).1
    ⟨by decide, rfl, by decide⟩
  have h2 := (draft_started_exactly_when_all_ready threeChairRoom
    (Reachable.join _ 5 "alice" "" 0 (Reachable.init _ _ _))
    { id := 0, name := "alice", chairIndex := 1 } (by decide) true).2.1
    (fun h => absurd h.2.2 (by decide))
  ⟨⟨h1.1, h1.2.1, h1.2.2.1, h1.2.2.2.2.1⟩, h2.1, h2.2.1⟩

/-! ## Theorems: deck information -/

/-- C18: in every room reachable by joins (rejoins included), leaves, ready and
deck updates, draft callbacks and timer ticks, a RoomChairsDeckInfoInd has been
sent to a client only if the room has been notified of the completion of the
draft, and the engine is in the state COMPLETE, which is what a rejoin tests, only
then. A deck update of a human before the completion changes nothing and sends
nothing; after the completion it sends one RoomChairsDeckInfoInd for the chair of
that human to every connection of the room. -/
theorem deck_info_only_after_completion (s : ServerRoom) (hs : ReachableWithDraft s)
    (human : HumanPlayer) :
    (∀ c l, Action.sendProtoMsg c (ServerToClientMsg.room_chairs_deck_info_ind l) ∈ s.log →
      s.mDraftComplete = true) ∧
    (s.mDraft.state = DraftState.STATE_COMPLETE → s.mDraftComplete = true) ∧
    (s.mDraftComplete = false → s.handleHumanDeckUpdate human = s) ∧
    (s.mDraftComplete = true →
      s.handleHumanDeckUpdate human =
        s.emit ((mapKeys s.mClientConnectionMap).map (fun c => Action.sendProtoMsg c
          (ServerToClientMsg.room_chairs_deck_info_ind [human.chairIndex])))) := by
  have inv := reachableWithDraft_deckInv s hs
  refine ⟨inv.sent, inv.state, ?_, ?_⟩
  · intro h
    unfold ServerRoom.handleHumanDeckUpdate
    simp [h]
  · intro h
    unfold ServerRoom.handleHumanDeckUpdate
    simp only [h, if_true]
    rfl

/-- Instance of `deck_info_only_after_completion`: in the running sample room a
deck update of `alice` sends nothing; once the engine has reported completion,
which sends the deck information of `alice` to her connection, a deck update of
`alice` sends it again. -/
theorem deck_info_only_after_completion_witness :
    (runningRoom.mDraftComplete = false ∧
      runningRoom.handleHumanDeckUpdate { id := 0, name := "alice", chairIndex := 1 } =
        runningRoom) ∧
    (Action.sendProtoMsg 5 (ServerToClientMsg.room_chairs_deck_info_ind [1]) ∈
        completeRoom.log ∧
      completeRoom.mDraftComplete = true ∧
      completeRoom.handleHumanDeckUpdate { id := 0, name := "alice", chairIndex := 1 } =
        completeRoom.emit
          [Action.sendProtoMsg 5 (ServerToClientMsg.room_chairs_deck_info_ind [1])]) :=
  have hrun : ReachableWithDraft runningRoom :=
    ReachableWithDraft.ready _ { id := 0, name := "alice", chairIndex := 1 } true
      (ReachableWithDraft.join _ 5 "alice" "" 0 (ReachableWithDraft.init _ _ _)) (by decide)
  have h1 := deck_info_only_after_completion runningRoom hrun
    { id := 0, name := "alice", chairIndex := 1 }
  have h2 := deck_info_only_after_completion completeRoom
    (ReachableWithDraft.notify _ DraftEvent.draftComplete hrun)
    { id := 0, name := "alice", chairIndex := 1 }
  ⟨⟨by decide, h1.2.2.1 (by decide)⟩,
    by decide, h2.1 5 [1] (by decide), h2.2.2.2 (h2.1 5 [1] (by decide))⟩

/-! ## Theorems: messages of a rejoin -/

theorem messagesTo_append (hasCurrentPack : HumanPlayer → Bool) (c : ClientConnection)
    (l1 l2 : List Action) :
    messagesTo hasCurrentPack c (l1 ++ l2) =
      messagesTo hasCurrentPack c l1 ++ messagesTo hasCurrentPack c l2 := by
  induction l1 with
  | nil => rfl
  | cons a rest ih =>
    cases a <;> rw [List.cons_append] <;> simp only [messagesTo, ih] <;> split <;> simp [*]

theorem messagesTo_sends (hasCurrentPack : HumanPlayer → Bool) (c : ClientConnection)
    (cs : List ClientConnection) (msg : ServerToClientMsg) :
    ∀ m ∈ messagesTo hasCurrentPack c (cs.map (fun c1 => Action.sendProtoMsg c1 msg)),
      m = ClientMsg.proto msg := by
  induction cs with
  | nil =>
    intro m hm
    simp [messagesTo] at hm
  | cons c1 rest ih =>
    intro m hm
    simp only [List.map_cons, messagesTo] at hm
    split at hm
    · rcases List.mem_cons.1 hm with h | h
      · exact h
      · exact ih m h
    · exact ih m hm

theorem mem_mapKeys_mapInsert (k : ClientConnection) (v : HumanPlayer)
    (m : List (ClientConnection × HumanPlayer)) : k ∈ mapKeys (mapInsert k v m) :=
  List.mem_map.2 ⟨(k, v), mapFind_mem k v _ (mapFind_mapInsert k v m), rfl⟩

theorem mapKeys_mapInsert_sorted (k : ClientConnection) (v : HumanPlayer)
    (m : List (ClientConnection × HumanPlayer))
    (h : (mapKeys m).Pairwise (fun a b => a < b)) :
    (mapKeys (mapInsert k v m)).Pairwise (fun a b => a < b) := by
  induction m with
  | nil => simp [mapInsert, mapKeys]
  | cons e rest ih =>
    obtain ⟨k1, v1⟩ := e
    have h1 : ∀ k2 ∈ mapKeys rest, k1 < k2 := by
      intro k2 hk2
      exact (List.pairwise_cons.1 h).1 k2 hk2
    have h2 : (mapKeys rest).Pairwise (fun a b => a < b) := (List.pairwise_cons.1 h).2
    unfold mapInsert
    split
    · rename_i hlt
      refine List.pairwise_cons.2 ⟨?_, h⟩
      intro k2 hk2
      rcases List.mem_cons.1 hk2 with hk | hk
      · rw [hk]
        exact hlt
      · exact Nat.lt_trans hlt (h1 k2 hk)
    · split
      · rename_i heq
        refine List.pairwise_cons.2 ⟨?_, h2⟩
        intro k2 hk2
        rw [heq]
        exact h1 k2 hk2
      · rename_i hnlt hne
        refine List.pairwise_cons.2 ⟨?_, ih h2⟩
        intro k2 hk2
        obtain ⟨e, he, hek⟩ := List.mem_map.1 hk2
        rcases mem_mapInsert k v rest e he with h3 | h3
        · rw [← hek, h3]
          exact Nat.lt_of_le_of_ne (Nat.le_of_not_lt hnlt) (fun e => hne e.symm)
        · exact h1 k2 (hek ▸ List.mem_map_of_mem Prod.fst h3)

theorem mapKeys_mapRemove_sorted (k : ClientConnection)
    (m : List (ClientConnection × HumanPlayer))
    (h : (mapKeys m).Pairwise (fun a b => a < b)) :
    (mapKeys (mapRemove k m)).Pairwise (fun a b => a < b) := by
  unfold mapRemove mapKeys
  exact h.sublist ((List.filter_sublist m).map Prod.fst)

theorem join_mClientConnectionMap (s : ServerRoom) (c : ClientConnection)
    (name password : String) (chairIndex : Int) :
    (s.join c name password chairIndex).room.mClientConnectionMap = s.mClientConnectionMap ∨
    ∃ human, (s.join c name password chairIndex).room.mClientConnectionMap =
      mapInsert c human s.mClientConnectionMap := by
  cases hfind : s.getHumanPlayer name with
  | some human =>
    have hjoin : (s.join c name password chairIndex).room = (s.rejoin c name).1 := by
      unfold ServerRoom.join
      simp only [hfind]
    rw [hjoin]
    by_cases hdep : s.mChairStateList[human.chairIndex]? =
        some ChairState.CHAIR_STATE_DEPARTED
    · rw [rejoin_eq s c name human hfind hdep]
      exact Or.inr ⟨human, by simp⟩
    · have hre : s.rejoin c name = (s, false) := by
        unfold ServerRoom.rejoin
        simp only [hfind, ne_eq, hdep, not_false_eq_true, if_true]
      rw [hre]
      exact Or.inl rfl
  | none =>
    cases hcond : (!s.mPassword.isEmpty && password != s.mPassword) with
    | true =>
      have hjoin : (s.join c name password chairIndex).room =
          s.emit [Action.sendProtoMsg c (ServerToClientMsg.join_room_failure_rsp
            JoinRoomFailureResult.RESULT_INVALID_PASSWORD s.mRoomId)] := by
        unfold ServerRoom.join
        simp only [hfind, hcond, if_true, sendJoinRoomFailureRsp_eq_emit]
      rw [hjoin]
      exact Or.inl (by simp)
    | false =>
      rcases getNextAvailablePlayerIndex_spec s with hidx | ⟨k, hidx, hk⟩
      · have hjoin : (s.join c name password chairIndex).room =
            s.emit [Action.sendProtoMsg c (ServerToClientMsg.join_room_failure_rsp
              JoinRoomFailureResult.RESULT_ROOM_FULL s.mRoomId)] := by
          unfold ServerRoom.join
          simp only [hfind, hcond, hidx, Bool.false_eq_true, if_false, if_true,
            sendJoinRoomFailureRsp_eq_emit]
        rw [hjoin]
        exact Or.inl (by simp)
      · rw [join_new_eq s c name password chairIndex k hfind hcond hidx]
        refine Or.inr ⟨{ id := s.nextHumanId, name := name, chairIndex := k }, ?_⟩
        simp

theorem leave_mClientConnectionMap (s : ServerRoom) (c : ClientConnection) :
    (s.leave c).mClientConnectionMap = s.mClientConnectionMap ∨
    (s.leave c).mClientConnectionMap = mapRemove c s.mClientConnectionMap := by
  cases hfind : mapFind c s.mClientConnectionMap with
  | none =>
    have hl : s.leave c = s := by
      unfold ServerRoom.leave
      simp only [hfind]
    rw [hl]
    exact Or.inl rfl
  | some human =>
    by_cases hact : s.mChairStateList[human.chairIndex]? = some ChairState.CHAIR_STATE_ACTIVE
    · rw [leave_active_eq s c human hfind hact]
      exact Or.inr (by simp)
    · rw [leave_inactive_eq s c human hfind hact]
      exact Or.inr (by simp)

theorem handleHumanReadyUpdate_mClientConnectionMap (s : ServerRoom) (human : HumanPlayer)
    (ready : Bool) :
    (s.handleHumanReadyUpdate human ready).mClientConnectionMap = s.mClientConnectionMap := by
  unfold ServerRoom.handleHumanReadyUpdate
  simp only
  split
  · rfl
  · split
    · split <;> rfl
    · rfl

/-- In every reachable room the connection map holds its keys in ascending order,
each connection once. -/
theorem reachableWithDraft_keys_sorted (s : ServerRoom) (h : ReachableWithDraft s) :
    (mapKeys s.mClientConnectionMap).Pairwise (fun a b => a < b) := by
  induction h with
  | init roomId password roomConfig =>
    rw [(initialize_frame (ServerRoom.create roomId password roomConfig)).2.1]
    simp [ServerRoom.create, mapKeys]
  | join s c name password chairIndex _ ih =>
    rcases join_mClientConnectionMap s c name password chairIndex with h1 | ⟨human, h1⟩
    · rw [h1]
      exact ih
    · rw [h1]
      exact mapKeys_mapInsert_sorted c human _ ih
  | leave s c _ ih =>
    rcases leave_mClientConnectionMap s c with h1 | h1
    · rw [h1]
      exact ih
    · rw [h1]
      exact mapKeys_mapRemove_sorted c _ ih
  | ready s human ready _ _ ih =>
    rw [handleHumanReadyUpdate_mClientConnectionMap]
    exact ih
  | deckUpdate s human _ _ ih =>
    rw [(handleHumanDeckUpdate_frame s human).map]
    exact ih
  | notify s e _ ih =>
    rw [(notify_frame s e).map]
    exact ih
  | tick s events isBoosterRound _ ih =>
    rw [(handleDraftTimerTick_frame s events isBoosterRound).map]
    exact ih

theorem messagesTo_sends_absent (hasCurrentPack : HumanPlayer → Bool) (c : ClientConnection)
    (cs : List ClientConnection) (msg : ServerToClientMsg) (h : c ∉ cs) :
    messagesTo hasCurrentPack c (cs.map (fun c1 => Action.sendProtoMsg c1 msg)) = [] := by
  induction cs with
  | nil => rfl
  | cons c1 rest ih =>
    have hne : ¬ c1 = c := fun e => h (e ▸ List.mem_cons_self _ _)
    have hrest : c ∉ rest := fun e => h (List.mem_cons_of_mem _ e)
    simp only [List.map_cons, messagesTo]
    rw [if_neg hne]
    exact ih hrest

/-- A broadcast to connections that are listed once each reaches a listed
connection exactly once. -/
theorem messagesTo_sends_once (hasCurrentPack : HumanPlayer → Bool) (c : ClientConnection)
    (cs : List ClientConnection) (msg : ServerToClientMsg) (hnd : cs.Nodup) (h : c ∈ cs) :
    messagesTo hasCurrentPack c (cs.map (fun c1 => Action.sendProtoMsg c1 msg)) =
      [ClientMsg.proto msg] := by
  induction cs with
  | nil => cases h
  | cons c1 rest ih =>
    obtain ⟨hnot, hrest⟩ := List.nodup_cons.1 hnd
    simp only [List.map_cons, messagesTo]
    by_cases hc : c1 = c
    · rw [if_pos hc]
      subst hc
      rw [messagesTo_sends_absent hasCurrentPack c1 rest msg hnot]
    · rw [if_neg hc]
      rcases List.mem_cons.1 h with h1 | h1
      · exact absurd h1.symm hc
      · exact ih hrest h1

/-- C19, as stated, fails: `alice` left the running sample room and rejoins on
connection 9 while she has a current pack. The rejoin succeeds with the draft
RUNNING, and connection 9 gets RoomStageInd before PlayerCurrentPackInd, not after
it. -/
theorem rejoin_stage_before_current_pack :
    (departedRoom.join 9 "alice" "" 0).result = true ∧
    departedRoom.mDraft.state = DraftState.STATE_RUNNING ∧
    messagesTo (fun _ => true) 9
        ((departedRoom.join 9 "alice" "" 0).room.log.drop departedRoom.log.length) =
      [ClientMsg.proto (ServerToClientMsg.join_room_success_rspind 7 true 1),
        ClientMsg.proto (ServerToClientMsg.room_occupants_info_ind 7
          [{ chair_index := 0, player := Player.bot { chairIndex := 0 }, is_bot := true,
             state := some OccupantState.STATE_ACTIVE },
           { chair_index := 1,
             player := Player.human { id := 0, name := "alice", chairIndex := 1 },
             is_bot := false, state := some OccupantState.STATE_ACTIVE }]),
        ClientMsg.player_inventory_ind,
        ClientMsg.proto (ServerToClientMsg.room_stage_ind Stage.STAGE_RUNNING
          (some { round := 0, post_round_ticks_remaining := none })),
        ClientMsg.player_current_pack_ind] := by
  decide

/-- C19, amended: on every successful rejoin to a reachable room while the draft is
RUNNING, the messages that reach the rejoining connection are exactly these, in
this order: JoinRoomSuccessRspInd with rejoin = true and the chair, one
RoomOccupantsInfoInd (that of the broadcast), PlayerInventoryInd, RoomStageInd with
STAGE_RUNNING and the current round (and the post-round ticks remaining while that
timer is active), then PlayerCurrentPackInd for the current pack if any, then the
public state if any. -/
theorem rejoin_running_messages (s : ServerRoom) (hs : ReachableWithDraft s)
    (c : ClientConnection)
    (name password : String) (chairIndex : Int) (human : HumanPlayer)
    (hasCurrentPack : HumanPlayer → Bool)
    (hfind : s.getHumanPlayer name = some human)
    (hok : (s.join c name password chairIndex).result = true)
    (hrun : s.mDraft.state = DraftState.STATE_RUNNING) :
    messagesTo hasCurrentPack c
        ((s.join c name password chairIndex).room.log.drop s.log.length) =
      [ClientMsg.proto (ServerToClientMsg.join_room_success_rspind s.mRoomId true
          (human.chairIndex : Int)),
        ClientMsg.proto (ServerToClientMsg.room_occupants_info_ind s.mRoomId
          (occupantInfos s.mBotList s.mPlayerList
            (s.mChairStateList.set human.chairIndex ChairState.CHAIR_STATE_ACTIVE) 0)),
        ClientMsg.player_inventory_ind,
        ClientMsg.proto (ServerToClientMsg.room_stage_ind Stage.STAGE_RUNNING
          (some { round := s.mDraft.currentRound
                  post_round_ticks_remaining :=
                    if s.mPostRoundTimerActive then some s.mPostRoundTimerTicksRemaining
                    else none }))] ++
        (if hasCurrentPack human = true then [ClientMsg.player_current_pack_ind] else []) ++
        (if s.mPublicStatePresent = true then
          [ClientMsg.proto ServerToClientMsg.public_state_ind] else []) := by
  have hjoin : s.join c name password chairIndex =
      { room := (s.rejoin c name).1, result := (s.rejoin c name).2,
        chairIndex := chairIndex } := by
    unfold ServerRoom.join
    simp only [hfind]
  rw [hjoin] at hok ⊢
  have hdep : s.mChairStateList[human.chairIndex]? = some ChairState.CHAIR_STATE_DEPARTED := by
    by_contra hdep
    have hre : s.rejoin c name = (s, false) := by
      unfold ServerRoom.rejoin
      simp only [hfind, ne_eq, hdep, not_false_eq_true, if_true]
    rw [hre] at hok
    cases hok
  rw [rejoin_eq s c name human hfind hdep]
  have hsorted := mapKeys_mapInsert_sorted c human _ (reachableWithDraft_keys_sorted s hs)
  have hnd : (mapKeys (mapInsert c human s.mClientConnectionMap)).Nodup :=
    hsorted.imp (fun hab => Nat.ne_of_lt hab)
  have hocc := messagesTo_sends_once hasCurrentPack c _
    (ServerToClientMsg.room_occupants_info_ind s.mRoomId
      (occupantInfos s.mBotList s.mPlayerList
        (s.mChairStateList.set human.chairIndex ChairState.CHAIR_STATE_ACTIVE) 0))
    hnd (mem_mapKeys_mapInsert c human _)
  simp only [emit_log, List.drop_left, messagesTo_append, hrun, if_true, hocc]
  cases hp : s.mPublicStatePresent <;> cases hh : hasCurrentPack human <;>
    simp [messagesTo, ServerRoom.roomStageInd, hrun, hp, hh]

/-- Instance of `rejoin_running_messages`: the rejoin of `alice` to the running
sample room on connection 9, once while she has a current pack, which follows the
RoomStageInd, and once while she has none. -/
theorem rejoin_running_messages_witness :
    messagesTo (fun _ => true) 9
        ((departedRoom.join 9 "alice" "" 0).room.log.drop departedRoom.log.length) =
      [ClientMsg.proto (ServerToClientMsg.join_room_success_rspind 7 true 1),
        ClientMsg.proto (ServerToClientMsg.room_occupants_info_ind 7
          [{ chair_index := 0, player := Player.bot { chairIndex := 0 }, is_bot := true,
             state := some OccupantState.STATE_ACTIVE },
           { chair_index := 1,
             player := Player.human { id := 0, name := "alice", chairIndex := 1 },
             is_bot := false, state := some OccupantState.STATE_ACTIVE }]),
        ClientMsg.player_inventory_ind,
        ClientMsg.proto (ServerToClientMsg.room_stage_ind Stage.STAGE_RUNNING
          (some { round := 0, post_round_ticks_remaining := none })),
        ClientMsg.player_current_pack_ind] ∧
    messagesTo (fun _ => false) 9
        ((departedRoom.join 9 "alice" "" 0).room.log.drop departedRoom.log.length) =
      [ClientMsg.proto (ServerToClientMsg.join_room_success_rspind 7 true 1),
        ClientMsg.proto (ServerToClientMsg.room_occupants_info_ind 7
          [{ chair_index := 0, player := Player.bot { chairIndex := 0 }, is_bot := true,
             state := some OccupantState.STATE_ACTIVE },
           { chair_index := 1,
             player := Player.human { id := 0, name := "alice", chairIndex := 1 },
             is_bot := false, state := some OccupantState.STATE_ACTIVE }]),
        ClientMsg.player_inventory_ind,
        ClientMsg.proto (ServerToClientMsg.room_stage_ind Stage.STAGE_RUNNING
          (some { round := 0, post_round_ticks_remaining := none }))] :=
  have hr : ReachableWithDraft departedRoom :=
    ReachableWithDraft.leave _ 5
      (ReachableWithDraft.ready _ { id := 0, name := "alice", chairIndex := 1 } true
        (ReachableWithDraft.join _ 5 "alice" "" 0 (ReachableWithDraft.init 7 "" _))
        (by decide))
  ⟨rejoin_running_messages departedRoom hr 9 "alice" "" 0
      { id := 0, name := "alice", chairIndex := 1 } (fun _ => true) (by decide) (by decide)
      (by decide),
    rejoin_running_messages departedRoom hr 9 "alice" "" 0
      { id := 0, name := "alice", chairIndex := 1 } (fun _ => false) (by decide) (by decide)
      (by decide)⟩

/-! ## Theorems: BoosterDraftStateInd -/

theorem notify_packQueueSizeChanged_eq (s : ServerRoom) (chairIndex packQueueSize : Int) :
    s.notify (DraftEvent.packQueueSizeChanged chairIndex packQueueSize) =
      s.emit ((mapKeys s.mClientConnectionMap).map
        (fun c => Action.sendProtoMsg c ServerToClientMsg.booster_draft_state_ind)) := rfl

theorem foldl_notify_packQueueSizeChanged (changes : List (Int × Int)) (s : ServerRoom) :
    (changes.map (fun p => DraftEvent.packQueueSizeChanged p.1 p.2)).foldl ServerRoom.notify s =
      s.emit (List.replicate changes.length ((mapKeys s.mClientConnectionMap).map
        (fun c => Action.sendProtoMsg c ServerToClientMsg.booster_draft_state_ind))).flatten := by
  induction changes generalizing s with
  | nil => simp [emit_nil]
  | cons p rest ih =>
    rw [List.map_cons, List.foldl_cons, notify_packQueueSizeChanged_eq, ih, emit_emit]
    simp [List.replicate_succ]

/-- C20, as stated, fails: in the running sample room, with `alice` on connection
5, two pack-queue changes are notified and then the draft timer ticks in a booster
round. Connection 5 gets three BoosterDraftStateInd, not one. -/
theorem booster_state_not_coalesced :
    (((runningRoom.notify (DraftEvent.packQueueSizeChanged 0 1)).notify
        (DraftEvent.packQueueSizeChanged 1 2)).handleDraftTimerTick [] true).log.drop
        runningRoom.log.length =
      [Action.sendProtoMsg 5 ServerToClientMsg.booster_draft_state_ind,
        Action.sendProtoMsg 5 ServerToClientMsg.booster_draft_state_ind,
        Action.draftTick,
        Action.sendProtoMsg 5 ServerToClientMsg.booster_draft_state_ind] ∧
    ¬ ((((runningRoom.notify (DraftEvent.packQueueSizeChanged 0 1)).notify
        (DraftEvent.packQueueSizeChanged 1 2)).handleDraftTimerTick [] true).log.drop
        runningRoom.log.length).count
          (Action.sendProtoMsg 5 ServerToClientMsg.booster_draft_state_ind) ≤ 1 := by
  decide

/-- C20, amended: BoosterDraftStateInd emissions are not coalesced. Every pack-queue
change notified to the room broadcasts one BoosterDraftStateInd to every
connection of the room at once, also when the engine notifies the changes during a
tick of the draft timer, and the tick broadcasts one more when the draft is
RUNNING in a booster round. -/
theorem booster_state_per_queue_change (s : ServerRoom) (chairIndex packQueueSize : Int)
    (changes : List (Int × Int)) (isBoosterRound : Bool) :
    (s.notify (DraftEvent.packQueueSizeChanged chairIndex packQueueSize)).log =
      s.log ++ (mapKeys s.mClientConnectionMap).map
        (fun c => Action.sendProtoMsg c ServerToClientMsg.booster_draft_state_ind) ∧
    (s.handleDraftTimerTick (changes.map (fun p => DraftEvent.packQueueSizeChanged p.1 p.2))
        isBoosterRound).log =
      s.log ++ Action.draftTick ::
        ((List.replicate changes.length ((mapKeys s.mClientConnectionMap).map
          (fun c => Action.sendProtoMsg c ServerToClientMsg.booster_draft_state_ind))).flatten ++
        (if s.mDraft.state = DraftState.STATE_RUNNING ∧ isBoosterRound = true then
          (mapKeys s.mClientConnectionMap).map
            (fun c => Action.sendProtoMsg c ServerToClientMsg.booster_draft_state_ind)
          else [])) := by
  refine ⟨rfl, ?_⟩
  unfold ServerRoom.handleDraftTimerTick
  simp only [foldl_notify_packQueueSizeChanged, emit_emit, emit_mDraft,
    emit_mClientConnectionMap, ServerRoom.broadcastBoosterDraftState, broadcast_eq_emit]
  cases hp : s.mPostRoundTimerActive <;>
    by_cases hc : s.mDraft.state = DraftState.STATE_RUNNING ∧ isBoosterRound = true <;>
    simp [hc, ServerRoom.emit]

/-! ## Theorems: index of the quantity loop -/

/-- C29 (the code departs from the claim): with two custom card lists of one entry
each, the custom-card-list check reads `card_quantities( 1 )` of list number 1,
which has one entry: an access beyond the size of the list. -/
theorem validate_reads_beyond_custom_list :
    twoSingletonListsConfig.draft_config.custom_card_lists = [⟨[⟨1⟩]⟩, ⟨[⟨1⟩]⟩] ∧
    sumQuantities ⟨[⟨1⟩]⟩ 1 1 0 = none ∧
    validate sampleSets twoSingletonListsConfig = Outcome.undefined_access := by
  decide

/-! ## Theorems: the custom card list dispenser -/

theorem expandedPool_length (l : List CardQuantity) (i : Nat) :
    (expandedPool l i).length = (l.map CardQuantity.quantity).sum := by
  induction l generalizing i with
  | nil => rfl
  | cons cq rest ih => simp [expandedPool, ih]

/-- C27: a `CustomCardListDispenser` built from a custom card list is valid exactly
when the quantities of the list sum to more than zero; a list with no entries
gives an invalid dispenser; the pool size is the sum of the quantities, which is 6
for the quantities 1, 2, 3 of the test. -/
theorem customCardListDispenser_valid_iff (ccl : CustomCardList) :
    ((CustomCardListDispenser.create ccl).isValid = true ↔ 0 < totalQuantity ccl) ∧
    (ccl.card_quantities = [] → (CustomCardListDispenser.create ccl).isValid = false) ∧
    (CustomCardListDispenser.create ccl).getPoolSize = totalQuantity ccl ∧
    (CustomCardListDispenser.create ⟨[⟨1⟩]⟩).isValid = true ∧
    (CustomCardListDispenser.create ⟨[⟨1⟩, ⟨2⟩, ⟨3⟩]⟩).isValid = true ∧
    (CustomCardListDispenser.create ⟨[⟨1⟩, ⟨2⟩, ⟨3⟩]⟩).getPoolSize = 6 := by
  have hlen : (CustomCardListDispenser.create ccl).pool.length = totalQuantity ccl :=
    expandedPool_length ccl.card_quantities 0
  refine ⟨?_, ?_, hlen, by decide, by decide, by decide⟩
  · unfold CustomCardListDispenser.isValid
    rw [← hlen]
    cases h : (CustomCardListDispenser.create ccl).pool <;> simp
  · intro h
    unfold CustomCardListDispenser.isValid CustomCardListDispenser.create
    rw [h]
    rfl

/-- Instance of `customCardListDispenser_valid_iff`: the list of the test with
quantities 1, 2, 3 gives a valid dispenser, the list with a single entry of
quantity 0 an invalid one, and so does the list with no entries. -/
theorem customCardListDispenser_valid_iff_witness :
    (CustomCardListDispenser.create ⟨[⟨1⟩, ⟨2⟩, ⟨3⟩]⟩).isValid = true ∧
    ¬ (CustomCardListDispenser.create ⟨[⟨0⟩]⟩).isValid = true ∧
    (CustomCardListDispenser.create ⟨[]⟩).isValid = false :=
  ⟨(customCardListDispenser_valid_iff ⟨[⟨1⟩, ⟨2⟩, ⟨3⟩]⟩).1.2 (by decide),
    fun h => absurd ((customCardListDispenser_valid_iff ⟨[⟨0⟩]⟩).1.1 h) (by decide),
    (customCardListDispenser_valid_iff ⟨[]⟩).2.1 rfl⟩

/-! ## Theorems: framing of the client -/

theorem header_flagged (n : Nat) (h : n ≤ 32767) : (32768 ||| n) = 32768 + n := by
  have := Nat.mul_add_lt_is_or (i := 15) (b := n) (by omega) 1
  simpa using this.symm

theorem header_size (flag n : Nat) (hf : flag = 0 ∨ flag = 32768) (h : n ≤ 32767) :
    (flag + n) &&& 32767 = n := by
  have := Nat.and_pow_two_sub_one_eq_mod (flag + n) 15
  simp only [Nat.reducePow, Nat.add_one_sub_one] at this
  rw [show (32767 : Nat) = 32768 - 1 from rfl, this]
  rcases hf with rfl | rfl <;> omega

theorem header_flag_set (n : Nat) (h : n ≤ 32767) : (32768 + n) &&& 32768 = 32768 := by
  have h1 := Nat.and_two_pow (32768 + n) 15
  have h2 : (32768 + n).testBit 15 = true := by
    have := Nat.testBit_two_pow_add_eq n 15
    rw [Nat.testBit_lt_two_pow (show n < 2 ^ 15 by omega)] at this
    simpa using this
  rw [h2] at h1
  simpa using h1

theorem header_flag_clear (n : Nat) (h : n ≤ 32767) : n &&& 32768 = 0 := by
  have h1 := Nat.and_two_pow n 15
  rw [Nat.testBit_lt_two_pow (show n < 2 ^ 15 by omega)] at h1
  simpa using h1

theorem readUInt16_header (header : Nat) (h : header < 65536) (rest : List Byte) :
    readUInt16 ((Fin.ofNat (header / 256) : Byte) :: (Fin.ofNat (header % 256) : Byte) ::
      rest) = header := by
  simp only [readUInt16, Fin.ofNat]
  show header / 256 % 256 * 256 + header % 256 % 256 = header
  omega

/-- What `sendProtoMsg` does, by the length of the chosen payload. -/
theorem sendProtoMsg_eq (qCompress : List Byte → List Byte) (raw : List Byte) :
    sendProtoMsg qCompress raw =
      if (chosenPayload qCompress raw).length > 32767 then none
      else some
        ((Fin.ofNat (((if (qCompress raw).length < raw.length then 32768 else 0) +
            (chosenPayload qCompress raw).length) / 256) : Byte) ::
          (Fin.ofNat (((if (qCompress raw).length < raw.length then 32768 else 0) +
            (chosenPayload qCompress raw).length) % 256) : Byte) ::
          chosenPayload qCompress raw) := by
  unfold sendProtoMsg chosenPayload
  by_cases hc : (qCompress raw).length < raw.length
  · simp only [hc, decide_True, if_true]
    by_cases hs : (qCompress raw).length > 32767
    · simp [hs]
    · have hle : (qCompress raw).length ≤ 32767 := by omega
      have h1 : (0 ||| 32768 ||| (qCompress raw).length) % 65536 =
          32768 + (qCompress raw).length := by
        rw [show (0 ||| 32768 : Nat) = 32768 from rfl, header_flagged _ hle]
        omega
      simp only [hs, if_false, h1]
  · simp only [hc, decide_False, if_false, Bool.false_eq_true]
    by_cases hs : raw.length > 32767
    · simp [hs]
    · have h1 : (0 ||| raw.length) % 65536 = 0 + raw.length := by
        rw [Nat.zero_or]
        omega
      simp only [hs, if_false, h1]

/-- C24: the single-frame limit is 32767 payload bytes after the compression
choice. `sendProtoMsg` passes a block to the socket exactly when the chosen payload
(the compressed bytes when strictly shorter than the raw bytes, otherwise the raw
bytes) has at most 32767 bytes, and the block is a two-byte header followed by that
payload; a payload of 32767 bytes is sent; a payload of 32768 bytes, or any longer
one, is refused and nothing is written. -/
theorem sendProtoMsg_writes_iff (qCompress : List Byte → List Byte) (raw : List Byte) :
    ((sendProtoMsg qCompress raw).isSome = true ↔
      (chosenPayload qCompress raw).length ≤ 32767) ∧
    ((chosenPayload qCompress raw).length ≤ 32767 →
      ∃ b0 b1, sendProtoMsg qCompress raw = some (b0 :: b1 :: chosenPayload qCompress raw)) ∧
    ((chosenPayload qCompress raw).length = 32767 →
      (sendProtoMsg qCompress raw).isSome = true) ∧
    ((chosenPayload qCompress raw).length = 32768 → sendProtoMsg qCompress raw = none) ∧
    (32767 < (chosenPayload qCompress raw).length → sendProtoMsg qCompress raw = none) := by
  rw [sendProtoMsg_eq]
  by_cases hs : (chosenPayload qCompress raw).length > 32767
  · rw [if_pos hs]
    refine ⟨?_, ?_, ?_, ?_, ?_⟩
    · constructor
      · intro h; cases h
      · intro h; omega
    · intro h; omega
    · intro h; omega
    · intro _; rfl
    · intro _; rfl
  · rw [if_neg hs]
    refine ⟨?_, ?_, ?_, ?_, ?_⟩
    · constructor
      · intro _; omega
      · intro _; rfl
    · intro _; exact ⟨_, _, rfl⟩
    · intro _; rfl
    · intro h; omega
    · intro h; omega

theorem chosenPayload_id (raw : List Byte) : chosenPayload (fun x => x) raw = raw := by
  simp [chosenPayload]

/-- Instance of `sendProtoMsg_writes_iff`: with a compressor that never shortens,
32767 bytes are sent and 32768 bytes are refused. -/
theorem sendProtoMsg_writes_iff_witness :
    (sendProtoMsg (fun x => x) (List.replicate 32767 0)).isSome = true ∧
    sendProtoMsg (fun x => x) (List.replicate 32768 0) = none :=
  ⟨(sendProtoMsg_writes_iff (fun x => x) (List.replicate 32767 0)).2.2.1
      (by rw [chosenPayload_id, List.length_replicate]),
    (sendProtoMsg_writes_iff (fun x => x) (List.replicate 32768 0)).2.2.2.1
      (by rw [chosenPayload_id, List.length_replicate])⟩

/-- The reader, given exactly one frame and no header kept, hands its payload,
uncompressed when the header has the flag, to the parser and leaves nothing. -/
theorem readFromServer_frame (qUncompress : List Byte → List Byte) (header : Nat)
    (hlt : header < 65536) (payload : List Byte)
    (hsize : header &&& 32767 = payload.length) :
    readFromServer qUncompress
        ⟨0, (Fin.ofNat (header / 256) : Byte) :: (Fin.ofNat (header % 256) : Byte) :: payload,
          []⟩ =
      ⟨0, [], [if header &&& 32768 ≠ 0 then qUncompress payload else payload]⟩ := by
  unfold readFromServer
  simp only [List.length_cons]
  rw [show payload.length + 1 + 1 + 1 = (payload.length + 1) + 1 + 1 from rfl]
  rw [readLoop]
  simp only [List.length_cons, readUInt16_header header hlt, hsize, if_true,
    List.drop_succ_cons, List.drop_zero, List.take_length, List.drop_length,
    List.nil_append]
  have h1 : ¬ (payload.length + 1 + 1 = 0) := by omega
  have h2 : ¬ (payload.length + 1 + 1 < 2) := by omega
  simp only [h1, h2, if_false, and_false, lt_irrefl, true_and]
  rw [readLoop]
  simp only [List.length_nil, if_true]
  by_cases hf : header &&& 32768 = 0
  · simp [hf]
  · simp [hf]

/-- C25: framing round-trips for both compression choices. Given that `qUncompress`
undoes `qCompress`, for every serialized message whose chosen payload has at most
32767 bytes `sendProtoMsg` writes a block whose big-endian 16-bit header has the
flag 0x8000 exactly when the compressed form is strictly shorter than the raw form
and has the payload length in its lower 15 bits, followed by the chosen payload;
and `readFromServer`, given that block with no header kept, hands the original
message bytes to the parser and leaves no byte and no header behind. -/
theorem framing_roundtrip (qCompress qUncompress : List Byte → List Byte)
    (hinv : ∀ x, qUncompress (qCompress x) = x) (raw : List Byte)
    (hsize : (chosenPayload qCompress raw).length ≤ 32767) :
    ∃ block, sendProtoMsg qCompress raw = some block ∧
      (readUInt16 block &&& 0x8000 ≠ 0 ↔ (qCompress raw).length < raw.length) ∧
      readUInt16 block &&& 0x7FFF = (chosenPayload qCompress raw).length ∧
      block.drop 2 = chosenPayload qCompress raw ∧
      readFromServer qUncompress ⟨0, block, []⟩ = ⟨0, [], [raw]⟩ := by
  rw [sendProtoMsg_eq, if_neg (by omega)]
  refine ⟨_, rfl, ?_⟩
  by_cases hc : (qCompress raw).length < raw.length
  · have hp : chosenPayload qCompress raw = qCompress raw := by simp [chosenPayload, hc]
    rw [hp] at hsize ⊢
    simp only [hc, if_true]
    have hlt : 32768 + (qCompress raw).length < 65536 := by omega
    rw [readUInt16_header _ hlt, header_flag_set _ hsize,
      header_size 32768 _ (Or.inr rfl) hsize,
      readFromServer_frame qUncompress _ hlt _ (header_size 32768 _ (Or.inr rfl) hsize),
      header_flag_set _ hsize]
    refine ⟨by simp, rfl, rfl, ?_⟩
    simp [hinv]
  · have hp : chosenPayload qCompress raw = raw := by simp [chosenPayload, hc]
    rw [hp] at hsize ⊢
    simp only [hc, if_false]
    have hlt : 0 + raw.length < 65536 := by omega
    rw [readUInt16_header _ hlt, Nat.zero_add, header_flag_clear _ hsize]
    have h0 := header_size 0 raw.length (Or.inl rfl) hsize
    rw [Nat.zero_add] at h0
    rw [h0]
    refine ⟨by simp, rfl, rfl, ?_⟩
    have := readFromServer_frame qUncompress raw.length (by omega) raw h0
    rw [header_flag_clear _ hsize] at this
    simpa using this

theorem toyUncompress_toyCompress (x : List Byte) : toyUncompress (toyCompress x) = x := by
  unfold toyCompress
  split
  · rename_i h
    rw [h]
    rfl
  · rfl

/-- Instance of `framing_roundtrip`, with the toy compressor: the four zero bytes
are sent compressed, with the header 0x8001, a single byte 5 is sent raw, with the
header 0x0001, and the reader gives both back. -/
theorem framing_roundtrip_witness :
    (sendProtoMsg toyCompress [0, 0, 0, 0] = some [128, 1, 1] ∧
      readFromServer toyUncompress ⟨0, [128, 1, 1], []⟩ = ⟨0, [], [[0, 0, 0, 0]]⟩) ∧
    (sendProtoMsg toyCompress [5] = some [0, 1, 5] ∧
      readFromServer toyUncompress ⟨0, [0, 1, 5], []⟩ = ⟨0, [], [[5]]⟩) := by
  obtain ⟨b1, hs1, _, _, _, hr1⟩ :=
    framing_roundtrip toyCompress toyUncompress toyUncompress_toyCompress [0, 0, 0, 0]
      (by decide)
  obtain ⟨b2, hs2, _, _, _, hr2⟩ :=
    framing_roundtrip toyCompress toyUncompress toyUncompress_toyCompress [5] (by decide)
  have e1 : sendProtoMsg toyCompress [0, 0, 0, 0] = some [128, 1, 1] := by decide
  have e2 : sendProtoMsg toyCompress [5] = some [0, 1, 5] := by decide
  rw [e1] at hs1
  rw [e2] at hs2
  cases hs1
  cases hs2
  exact ⟨⟨e1, hr1⟩, e2, hr2⟩

/-! ## Theorems: basic land adjustments of the client -/

/-- C30 (the code departs from the claim): the client is connected and has no basic
lands in the main zone; an update to one plains and one island sends two messages,
the first with the adjustment +1 for plains and the second with that adjustment
again and +1 for island, because the message is declared before the loop and sent
inside it. Summed over the messages of the call, the adjustments for plains are 2,
not 1 - 0. -/
theorem basic_land_adjustment_sent_twice :
    (handleBasicLandQuantitiesUpdate sampleBasicLandTypes true emptyInventory
        CardZoneType.CARD_ZONE_MAIN plainsAndIsland).2 =
      [[⟨BasicLandType.BASIC_LAND_PLAINS, CardZoneType.CARD_ZONE_MAIN, 1⟩],
        [⟨BasicLandType.BASIC_LAND_PLAINS, CardZoneType.CARD_ZONE_MAIN, 1⟩,
          ⟨BasicLandType.BASIC_LAND_ISLAND, CardZoneType.CARD_ZONE_MAIN, 1⟩]] ∧
    adjustmentSum BasicLandType.BASIC_LAND_PLAINS
      (handleBasicLandQuantitiesUpdate sampleBasicLandTypes true emptyInventory
        CardZoneType.CARD_ZONE_MAIN plainsAndIsland).2 = 2 ∧
    plainsAndIsland BasicLandType.BASIC_LAND_PLAINS -
      emptyInventory.mBasicLandQtysMap CardZoneType.CARD_ZONE_MAIN
        BasicLandType.BASIC_LAND_PLAINS = 1 ∧
    adjustmentSum BasicLandType.BASIC_LAND_ISLAND
      (handleBasicLandQuantitiesUpdate sampleBasicLandTypes true emptyInventory
        CardZoneType.CARD_ZONE_MAIN plainsAndIsland).2 = 1 := by
  decide

/-! ## Theorems: sorting and the set algorithms -/

theorem StrictTotal.asymm {α : Type} {lt : α → α → Bool} (h : StrictTotal lt) {a b : α}
    (hab : lt a b = true) : lt b a = false := by
  cases hba : lt b a with
  | false => rfl
  | true =>
    have := h.trans a b a hab hba
    rw [h.irrefl a] at this
    cases this

/-- The order "not greater" of a strict total order is transitive. -/
theorem StrictTotal.le_trans {α : Type} {lt : α → α → Bool} (h : StrictTotal lt) {a b c : α}
    (hab : lt b a = false) (hbc : lt c b = false) : lt c a = false := by
  cases hca : lt c a with
  | false => rfl
  | true =>
    cases hbc1 : lt b c with
    | false =>
      have := h.total b c hbc1 hbc
      rw [this] at hab
      rw [hab] at hca
      cases hca
    | true =>
      have := h.trans b c a hbc1 hca
      rw [hab] at this
      cases this

theorem count_insertSorted {α : Type} [DecidableEq α] (lt : α → α → Bool) (x a : α)
    (l : List α) : (insertSorted lt a l).count x = (a :: l).count x := by
  induction l with
  | nil => rfl
  | cons y ys ih =>
    unfold insertSorted
    split
    · rw [List.count_cons, ih, List.count_cons, List.count_cons, List.count_cons]
      omega
    · rfl

theorem count_stdSort {α : Type} [DecidableEq α] (lt : α → α → Bool) (x : α) (l : List α) :
    (stdSort lt l).count x = l.count x := by
  induction l with
  | nil => rfl
  | cons a rest ih =>
    unfold stdSort
    rw [count_insertSorted, List.count_cons, List.count_cons, ih]

theorem mem_insertSorted {α : Type} (lt : α → α → Bool) (x a : α) (l : List α) :
    x ∈ insertSorted lt a l ↔ x = a ∨ x ∈ l := by
  induction l with
  | nil => simp [insertSorted]
  | cons y ys ih =>
    unfold insertSorted
    split
    · simp only [List.mem_cons, ih]
      tauto
    · simp only [List.mem_cons]

theorem sortedBy_insertSorted {α : Type} {lt : α → α → Bool} (h : StrictTotal lt) (a : α)
    (l : List α) (hl : SortedBy lt l) : SortedBy lt (insertSorted lt a l) := by
  induction l with
  | nil => simp [insertSorted, SortedBy]
  | cons y ys ih =>
    unfold SortedBy at hl ih ⊢
    rw [List.pairwise_cons] at hl
    unfold insertSorted
    split
    · rename_i hya
      rw [List.pairwise_cons]
      refine ⟨?_, ih hl.2⟩
      intro z hz
      rcases (mem_insertSorted lt z a ys).1 hz with rfl | hz
      · exact h.asymm hya
      · exact hl.1 z hz
    · rename_i hya
      have hya1 : lt y a = false := by
        cases hc : lt y a with
        | false => rfl
        | true => exact absurd hc hya
      rw [List.pairwise_cons, List.pairwise_cons]
      refine ⟨?_, hl.1, hl.2⟩
      intro z hz
      rcases List.mem_cons.1 hz with rfl | hz
      · exact hya1
      · exact h.le_trans hya1 (hl.1 z hz)

theorem sortedBy_stdSort {α : Type} {lt : α → α → Bool} (h : StrictTotal lt) (l : List α) :
    SortedBy lt (stdSort lt l) := by
  induction l with
  | nil => simp [stdSort, SortedBy]
  | cons a rest ih =>
    unfold stdSort
    exact sortedBy_insertSorted h a _ ih

/-- An element less than the head of a sorted list does not occur in the list. -/
theorem count_eq_zero_of_lt_head {α : Type} [DecidableEq α] {lt : α → α → Bool}
    (h : StrictTotal lt) {a b : α} {bs : List α} (hab : lt a b = true)
    (hs : SortedBy lt (b :: bs)) : (b :: bs).count a = 0 := by
  apply List.count_eq_zero_of_not_mem
  intro hm
  unfold SortedBy at hs
  rw [List.pairwise_cons] at hs
  rcases List.mem_cons.1 hm with rfl | hm
  · rw [h.irrefl a] at hab
    cases hab
  · have := hs.1 a hm
    rw [hab] at this
    cases this

theorem sortedBy_tail {α : Type} {lt : α → α → Bool} {a : α} {l : List α}
    (hs : SortedBy lt (a :: l)) : SortedBy lt l := by
  unfold SortedBy at hs ⊢
  exact (List.pairwise_cons.1 hs).2

theorem count_setIntersectionLoop {α : Type} [DecidableEq α] {lt : α → α → Bool}
    (h : StrictTotal lt) (x : α) :
    ∀ (fuel : Nat) (as bs : List α), as.length + bs.length ≤ fuel →
      SortedBy lt as → SortedBy lt bs →
      (setIntersectionLoop lt fuel as bs).count x = min (as.count x) (bs.count x) := by
  intro fuel
  induction fuel with
  | zero =>
    intro as bs hlen _ _
    have ha : as = [] := List.eq_nil_of_length_eq_zero (by omega)
    subst ha
    simp [setIntersectionLoop]
  | succ fuel ih =>
    intro as bs hlen hsa hsb
    cases as with
    | nil => simp [setIntersectionLoop]
    | cons a as =>
      cases bs with
      | nil => simp [setIntersectionLoop]
      | cons b bs =>
        simp only [List.length_cons] at hlen
        unfold setIntersectionLoop
        by_cases hab : lt a b = true
        · rw [if_pos hab, ih as (b :: bs) (by simp only [List.length_cons]; omega)
            (sortedBy_tail hsa) hsb]
          by_cases hx : a = x
          · subst hx
            rw [count_eq_zero_of_lt_head h hab hsb]
            simp
          · rw [List.count_cons_of_ne (fun e => hx e.symm)]
        · rw [if_neg hab]
          by_cases hba : lt b a = true
          · rw [if_pos hba, ih (a :: as) bs (by simp only [List.length_cons]; omega) hsa
              (sortedBy_tail hsb)]
            by_cases hx : b = x
            · subst hx
              rw [count_eq_zero_of_lt_head h hba hsa]
              simp
            · rw [List.count_cons_of_ne (fun e => hx e.symm)]
          · rw [if_neg hba]
            have heq : a = b := h.total a b (by simpa using hab) (by simpa using hba)
            subst heq
            rw [List.count_cons, ih as bs (by omega) (sortedBy_tail hsa) (sortedBy_tail hsb),
              List.count_cons, List.count_cons]
            omega

theorem count_setDifferenceLoop {α : Type} [DecidableEq α] {lt : α → α → Bool}
    (h : StrictTotal lt) (x : α) :
    ∀ (fuel : Nat) (as bs : List α), as.length + bs.length ≤ fuel →
      SortedBy lt as → SortedBy lt bs →
      (setDifferenceLoop lt fuel as bs).count x = as.count x - bs.count x := by
  intro fuel
  induction fuel with
  | zero =>
    intro as bs hlen _ _
    have ha : as = [] := List.eq_nil_of_length_eq_zero (by omega)
    subst ha
    simp [setDifferenceLoop]
  | succ fuel ih =>
    intro as bs hlen hsa hsb
    cases as with
    | nil => simp [setDifferenceLoop]
    | cons a as =>
      cases bs with
      | nil => simp [setDifferenceLoop]
      | cons b bs =>
        simp only [List.length_cons] at hlen
        unfold setDifferenceLoop
        by_cases hab : lt a b = true
        · rw [if_pos hab, List.count_cons,
            ih as (b :: bs) (by simp only [List.length_cons]; omega) (sortedBy_tail hsa) hsb]
          by_cases hx : a = x
          · subst hx
            rw [count_eq_zero_of_lt_head h hab hsb, List.count_cons]
            simp
          · rw [List.count_cons_of_ne (fun e => hx e.symm)]
            simp [hx]
        · rw [if_neg hab]
          by_cases hba : lt b a = true
          · rw [if_pos hba, ih (a :: as) bs (by simp only [List.length_cons]; omega) hsa
              (sortedBy_tail hsb)]
            by_cases hx : b = x
            · subst hx
              rw [count_eq_zero_of_lt_head h hba hsa]
              simp
            · rw [List.count_cons_of_ne (fun e => hx e.symm)]
          · rw [if_neg hba]
            have heq : a = b := h.total a b (by simpa using hab) (by simpa using hba)
            subst heq
            rw [ih as bs (by omega) (sortedBy_tail hsa) (sortedBy_tail hsb),
              List.count_cons, List.count_cons]
            omega

theorem setIntersectionLoop_sublist {α : Type} (lt : α → α → Bool) :
    ∀ (fuel : Nat) (as bs : List α), (setIntersectionLoop lt fuel as bs).Sublist as := by
  intro fuel
  induction fuel with
  | zero =>
    intro as bs
    simp [setIntersectionLoop]
  | succ fuel ih =>
    intro as bs
    cases as with
    | nil => simp [setIntersectionLoop]
    | cons a as =>
      cases bs with
      | nil => simp [setIntersectionLoop]
      | cons b bs =>
        unfold setIntersectionLoop
        split
        · exact (ih as (b :: bs)).trans (List.sublist_cons_self a as)
        · split
          · exact ih (a :: as) bs
          · exact (ih as bs).cons₂ a

theorem count_foldl_erase {α : Type} [DecidableEq α] (x : α) (extra l : List α) :
    (extra.foldl (fun l card => l.erase card) l).count x = l.count x - extra.count x := by
  induction extra generalizing l with
  | nil => simp
  | cons c rest ih =>
    rw [List.foldl_cons, ih, List.count_erase, List.count_cons]
    omega

/-- The card list of a zone after the body of the zone loop has, of every card, as
many as the indication lists for the zone. -/
theorem count_updateZoneCards {lt : SimpleCardData → SimpleCardData → Bool}
    (h : StrictTotal lt) (cards after : List SimpleCardData) (x : SimpleCardData) :
    (updateZoneCards lt cards after).count x = after.count x := by
  have hsb := sortedBy_stdSort h cards
  have hsa := sortedBy_stdSort h after
  have hsi : SortedBy lt (setIntersection lt (stdSort lt after) (stdSort lt cards)) :=
    List.Pairwise.sublist (setIntersectionLoop_sublist lt _ _ _) hsa
  have hci : (setIntersection lt (stdSort lt after) (stdSort lt cards)).count x =
      min (after.count x) (cards.count x) := by
    unfold setIntersection
    rw [count_setIntersectionLoop h x _ _ _ (Nat.le_refl _) hsa hsb, count_stdSort,
      count_stdSort]
  unfold updateZoneCards
  simp only [List.count_append, count_foldl_erase]
  unfold setDifference
  rw [count_setDifferenceLoop h x _ _ _ (Nat.le_refl _) hsb hsi,
    count_setDifferenceLoop h x _ _ _ (Nat.le_refl _) hsa hsi, hci, count_stdSort,
    count_stdSort]
  omega

/-! ## Theorems: inventory of the client -/

theorem foldl_processInventoryZone_other (lt : SimpleCardData → SimpleCardData → Bool)
    (ind : PlayerInventoryInd) (zones : List CardZoneType) (inv : ClientInventory)
    (zone : CardZoneType) (hz : zone ∉ zones) :
    (zones.foldl (processInventoryZone lt ind) inv).mCardsList zone = inv.mCardsList zone := by
  induction zones generalizing inv with
  | nil => rfl
  | cons z rest ih =>
    rw [List.foldl_cons, ih _ (fun h => hz (List.mem_cons_of_mem _ h))]
    have hne : zone ≠ z := fun h => hz (h ▸ List.mem_cons_self _ _)
    simp [processInventoryZone, Function.update_noteq hne]

theorem cardLt_strictTotal : StrictTotal cardLt where
  irrefl := by
    intro a
    simp [cardLt]
  trans := by
    intro a b c hab hbc
    simp only [cardLt, decide_eq_true_eq] at hab hbc ⊢
    exact lt_trans hab hbc
  total := by
    intro a b hab hba
    simp only [cardLt, decide_eq_false_iff_not, not_lt] at hab hba
    have hkey := le_antisymm hba hab
    have hpair : (a.name.data, a.setCode.data) = (b.name.data, b.setCode.data) :=
      toLex.injective hkey
    have h1 : a.name = b.name := String.ext (congrArg Prod.fst hpair)
    have h2 : a.setCode = b.setCode := String.ext (congrArg Prod.snd hpair)
    cases a
    cases b
    simp only at h1 h2
    rw [h1, h2]

/-- C26: for every prior content of the card zones of the client and every
PlayerInventoryInd, after `processMessageFromServer( PlayerInventoryInd )` the card
list of every inventory zone is a rearrangement of the drafted cards the
indication lists for that zone: the same (name, set code) pairs with the same
multiplicities. The order `operator<` of `SimpleCardData`, which is not part of
the sources, is taken to be a strict total order. -/
theorem inventory_matches_indication (lt : SimpleCardData → SimpleCardData → Bool)
    (hlt : StrictTotal lt) (gInventoryZoneArray : List CardZoneType) (inv : ClientInventory)
    (ind : PlayerInventoryInd) (zone : CardZoneType) (hzone : zone ∈ gInventoryZoneArray) :
    ((processPlayerInventoryInd lt gInventoryZoneArray inv ind).mCardsList zone).Perm
      (ind.cardsOf zone) := by
  unfold processPlayerInventoryInd
  induction gInventoryZoneArray generalizing inv with
  | nil => cases hzone
  | cons z rest ih =>
    rw [List.foldl_cons]
    by_cases hrest : zone ∈ rest
    · exact ih _ hrest
    · have hz : zone = z := by
        rcases List.mem_cons.1 hzone with h | h
        · exact h
        · exact absurd h hrest
      subst hz
      rw [foldl_processInventoryZone_other lt ind rest _ zone hrest, List.perm_iff_count]
      intro x
      simp only [processInventoryZone, Function.update_same]
      exact count_updateZoneCards hlt _ _ x

/-- Instance of `inventory_matches_indication`: the main zone holds Bear and Ape, and
the indication lists Cat, Ape, Cat for it; afterwards the main zone holds Ape and
Cat twice, and the sideboard the one card listed for it. -/
theorem inventory_matches_indication_witness :
    ((processPlayerInventoryInd cardLt
        [CardZoneType.CARD_ZONE_MAIN, CardZoneType.CARD_ZONE_SIDEBOARD] sampleInventory
        sampleInventoryInd).mCardsList CardZoneType.CARD_ZONE_MAIN).Perm
      [⟨"Cat", "TST"⟩, ⟨"Ape", "TST"⟩, ⟨"Cat", "TST"⟩] ∧
    (processPlayerInventoryInd cardLt
        [CardZoneType.CARD_ZONE_MAIN, CardZoneType.CARD_ZONE_SIDEBOARD] sampleInventory
        sampleInventoryInd).mCardsList CardZoneType.CARD_ZONE_MAIN =
      [⟨"Ape", "TST"⟩, ⟨"Cat", "TST"⟩, ⟨"Cat", "TST"⟩] :=
  ⟨inventory_matches_indication cardLt cardLt_strictTotal
      [CardZoneType.CARD_ZONE_MAIN, CardZoneType.CARD_ZONE_SIDEBOARD] sampleInventory
      sampleInventoryInd CardZoneType.CARD_ZONE_MAIN (by decide),
    by decide⟩

/-! ## Theorems: the bot loop of `initialize` -/

theorem botChair_zero (c : Nat) (hc : 1 ≤ c) : botChair c 0 = 0 := by
  unfold botChair
  simp
  omega

theorem botChair_succ (c k : Nat) (h : k + 1 < c) :
    (if botChair c k + 2 ≥ c then 1 else botChair c k + 2) = botChair c (k + 1) := by
  unfold botChair
  split <;> split <;> split <;> omega

theorem botChair_lt (c k : Nat) (h : k < c) : botChair c k < c := by
  unfold botChair
  split <;> omega

theorem botChair_inj (c j k : Nat) (h : botChair c j = botChair c k) : j = k := by
  unfold botChair at h
  split at h <;> split at h <;> omega

theorem BotsPlaced.step {c k : Nat} {s : ServerRoom} (h : BotsPlaced c k s) (hk : k < c) :
    BotsPlaced c (k + 1)
      (({ s with
          mBotList := s.mBotList ++ [{ chairIndex := botChair c k }]
          mPlayerList := s.mPlayerList.set (botChair c k)
            (some (Player.bot { chairIndex := botChair c k }))
          mChairStateList :=
            s.mChairStateList.set (botChair c k) ChairState.CHAIR_STATE_READY } :
        ServerRoom).emit [Action.addObserver (Player.bot { chairIndex := botChair c k })]) := by
  have hlt := botChair_lt c k hk
  refine
    { count := h.count
      players := ?_, chairs := ?_, bots := ?_, placed := ?_, others := ?_, states := ?_ }
  · show (s.mPlayerList.set _ _).length = c
    rw [List.length_set]
    exact h.players
  · show (s.mChairStateList.set _ _).length = c
    rw [List.length_set]
    exact h.chairs
  · show s.mBotList ++ [_] = _
    rw [h.bots, List.range_succ, List.map_append]
    rfl
  · intro j hj
    show (s.mPlayerList.set _ _)[botChair c j]? = _ ∧ (s.mChairStateList.set _ _)[botChair c j]? = _
    by_cases hjk : j = k
    · subst hjk
      rw [List.getElem?_set_self (by rw [h.players]; exact hlt),
        List.getElem?_set_self (by rw [h.chairs]; exact hlt)]
      exact ⟨rfl, rfl⟩
    · have hne : botChair c k ≠ botChair c j := fun e => hjk (botChair_inj c k j e).symm
      rw [List.getElem?_set_ne hne, List.getElem?_set_ne hne]
      exact h.placed j (by omega)
  · intro i p hp
    have hp1 : (s.mPlayerList.set (botChair c k)
        (some (Player.bot { chairIndex := botChair c k })))[i]? = some (some p) := hp
    by_cases hik : botChair c k = i
    · exact ⟨k, by omega, hik.symm⟩
    · rw [List.getElem?_set_ne hik] at hp1
      obtain ⟨j, hj, hij⟩ := h.others i p hp1
      exact ⟨j, by omega, hij⟩
  · intro st hst
    have hst1 : st ∈ s.mChairStateList.set (botChair c k) ChairState.CHAIR_STATE_READY := hst
    rcases List.mem_or_eq_of_mem_set hst1 with h1 | h1
    · exact h.states st h1
    · exact Or.inr h1

theorem placeBots_botsPlaced (c : Nat) :
    ∀ (n k : Nat) (s : ServerRoom), BotsPlaced c k s → k + n ≤ c →
      BotsPlaced c (k + n) (placeBots n (botChair c k) s) := by
  intro n
  induction n with
  | zero =>
    intro k s h _
    exact h
  | succ n ih =>
    intro k s h hle
    have hstep := h.step (show k < c by omega)
    unfold placeBots
    simp only
    cases n with
    | zero => exact hstep
    | succ m =>
      have hnext : (if botChair c k + 2 ≥ s.mChairCount then 1 else botChair c k + 2) =
          botChair c (k + 1) := by
        rw [h.count]
        exact botChair_succ c k (by omega)
      rw [hnext, show k + (m + 1 + 1) = k + 1 + (m + 1) by omega]
      exact ih (k + 1) _ hstep (by omega)

theorem BotsPlaced.keeps_emit {c k : Nat} {s : ServerRoom} (h : BotsPlaced c k s)
    (actions : List Action) : BotsPlaced c k (s.emit actions) where
  count := h.count
  players := h.players
  chairs := h.chairs
  bots := h.bots
  placed := h.placed
  others := h.others
  states := h.states

theorem placeBots_from_zero (c n : Nat) (s : ServerRoom) (hc : 1 ≤ c)
    (h : BotsPlaced c 0 s) (hn : n ≤ c) : BotsPlaced c n (placeBots n 0 s) := by
  have := placeBots_botsPlaced c n 0 s h (by omega)
  rwa [botChair_zero c hc, Nat.zero_add] at this

/-- After `initialize` of a room with a chair, as many bots as the configuration
asks for, and at most as many as there are chairs, are placed. -/
theorem initialize_botsPlaced (roomId : Nat) (password : String) (roomConfig : RoomConfig)
    (hc : 1 ≤ roomConfig.draft_config.chair_count) :
    BotsPlaced roomConfig.draft_config.chair_count
      (min roomConfig.bot_count roomConfig.draft_config.chair_count)
      ( ServerRoom.initialize (ServerRoom.create roomId password roomConfig)) := by
  have hbase : BotsPlaced roomConfig.draft_config.chair_count 0
      ({ ServerRoom.create roomId password roomConfig with
        mPlayerList := (ServerRoom.create roomId password roomConfig).mPlayerList ++
          List.replicate (ServerRoom.create roomId password roomConfig).mChairCount none
        mChairStateList := (ServerRoom.create roomId password roomConfig).mChairStateList ++
          List.replicate (ServerRoom.create roomId password roomConfig).mChairCount
            ChairState.CHAIR_STATE_EMPTY
        mRoomExpirationTimer := some (CREATED_ROOM_EXPIRATION_SECONDS * 1000) } :
          ServerRoom) :=
    { count := rfl
      players := by simp [ServerRoom.create]
      chairs := by simp [ServerRoom.create]
      bots := rfl
      placed := fun j hj => absurd hj (Nat.not_lt_zero j)
      others := by
        intro i p hp
        simp only [ServerRoom.create, List.nil_append, List.getElem?_replicate] at hp
        split at hp <;> simp at hp
      states := by
        intro st hst
        simp only [ServerRoom.create, List.nil_append] at hst
        exact Or.inl (List.eq_of_mem_replicate hst) }
  have key := fun (n : Nat) (hn : n ≤ roomConfig.draft_config.chair_count) =>
    placeBots_from_zero roomConfig.draft_config.chair_count n _ hc hbase hn
  have hne : ¬ (ServerRoom.create roomId password roomConfig).mChairCount ≤ 0 := by
    show ¬ roomConfig.draft_config.chair_count ≤ 0
    omega
  unfold ServerRoom.initialize
  rw [if_neg hne]
  simp only
  by_cases hb : (ServerRoom.create roomId password roomConfig).mBotPlayerCount >
      (ServerRoom.create roomId password roomConfig).mChairCount
  · have hb1 : roomConfig.bot_count > roomConfig.draft_config.chair_count := hb
    have hmin : min roomConfig.bot_count roomConfig.draft_config.chair_count =
        roomConfig.draft_config.chair_count := by omega
    rw [hmin]
    simp only [hb, if_true]
    split
    · exact (key _ (Nat.le_refl _)).keeps_emit _
    · exact key _ (Nat.le_refl _)
  · have hb1 : ¬ roomConfig.bot_count > roomConfig.draft_config.chair_count := hb
    have hmin : min roomConfig.bot_count roomConfig.draft_config.chair_count =
        roomConfig.bot_count := by omega
    rw [hmin]
    simp only [hb, if_false]
    split
    · exact (key _ (by omega)).keeps_emit _
    · exact key _ (by omega)

/-! ## Theorems: invariant of the seats -/

theorem departed_of_set {cs : List ChairState} {k i : Nat} {st : ChairState}
    (hst : st ≠ ChairState.CHAIR_STATE_DEPARTED)
    (h : (cs.set k st)[i]? = some ChairState.CHAIR_STATE_DEPARTED) :
    k ≠ i ∧ cs[i]? = some ChairState.CHAIR_STATE_DEPARTED := by
  by_cases hki : k = i
  · subst hki
    rw [List.getElem?_set] at h
    simp only [if_true] at h
    split at h
    · exact absurd (Option.some.inj h) hst
    · cases h
  · rw [List.getElem?_set_ne hki] at h
    exact ⟨hki, h⟩

theorem player_of_set_none {ps : List (Option Player)} {k i : Nat} {p : Player}
    (h : (ps.set k none)[i]? = some (some p)) : k ≠ i ∧ ps[i]? = some (some p) := by
  by_cases hki : k = i
  · subst hki
    rw [List.getElem?_set] at h
    simp only [if_true] at h
    split at h <;> cases h
  · rw [List.getElem?_set_ne hki] at h
    exact ⟨hki, h⟩

theorem SeatInv.after_emit {s : ServerRoom} (h : SeatInv s) (actions : List Action)
    (hx : Action.draftStart ∉ actions) : SeatInv (s.emit actions) where
  length := h.length
  bots := h.bots
  botsNodup := h.botsNodup
  humanAt := h.humanAt
  botAt := h.botAt
  botState := by
    intro b hb
    have hiff : Action.draftStart ∈ (s.emit actions).log ↔ Action.draftStart ∈ s.log := by
      rw [emit_log, List.mem_append]
      constructor
      · rintro (hm | hm)
        · exact hm
        · exact absurd hm hx
      · exact Or.inl
    exact ⟨fun hn => (h.botState b hb).1 (fun hm => hn (hiff.2 hm)),
      fun hm => (h.botState b hb).2 (hiff.1 hm)⟩
  departed := h.departed

/-- The seats invariant holds once the bot loop of `initialize` is done, the
engine not being started. -/
theorem SeatInv.of_botsPlaced {c k : Nat} {s : ServerRoom} (h : BotsPlaced c k s)
    (hnot : Action.draftStart ∉ s.log) : SeatInv s where
  length := h.players.trans h.count.symm
  bots := by
    intro b hb
    rw [h.bots] at hb
    obtain ⟨j, hj, rfl⟩ := List.mem_map.1 hb
    exact (h.placed j (List.mem_range.1 hj)).1
  botsNodup := by
    rw [h.bots]
    refine List.Nodup.map ?_ (List.nodup_range k)
    intro i j hij
    injection hij with hij
    exact botChair_inj c i j hij
  humanAt := by
    intro i hu hp
    obtain ⟨j, hj, rfl⟩ := h.others i _ hp
    rw [(h.placed j hj).1] at hp
    cases hp
  botAt := by
    intro i b hp
    obtain ⟨j, hj, rfl⟩ := h.others i _ hp
    rw [(h.placed j hj).1] at hp
    injection hp with hp
    injection hp with hp
    injection hp with hp
    subst hp
    refine ⟨?_, rfl⟩
    rw [h.bots]
    exact List.mem_map.2 ⟨j, List.mem_range.2 hj, rfl⟩
  botState := by
    intro b hb
    rw [h.bots] at hb
    obtain ⟨j, hj, rfl⟩ := List.mem_map.1 hb
    exact ⟨fun _ => (h.placed j (List.mem_range.1 hj)).2, fun hm => absurd hm hnot⟩
  departed := by
    intro i hi
    rcases h.states _ (List.mem_iff_getElem?.2 ⟨i, hi⟩) with h1 | h1 <;> cases h1

theorem initialize_seatInv (roomId : Nat) (password : String) (roomConfig : RoomConfig) :
    SeatInv ( ServerRoom.initialize (ServerRoom.create roomId password roomConfig)) := by
  have hnot : Action.draftStart ∉
      ( ServerRoom.initialize (ServerRoom.create roomId password roomConfig)).log := by
    intro hm
    have := (initialize_frame (ServerRoom.create roomId password roomConfig)).2.2 hm
    simp [ServerRoom.create] at this
  by_cases hc : 1 ≤ roomConfig.draft_config.chair_count
  · exact SeatInv.of_botsPlaced (initialize_botsPlaced roomId password roomConfig hc) hnot
  · have hzero : (ServerRoom.create roomId password roomConfig).mChairCount ≤ 0 := by
      show roomConfig.draft_config.chair_count ≤ 0
      omega
    have hinit : ServerRoom.initialize (ServerRoom.create roomId password roomConfig) =
        (ServerRoom.create roomId password roomConfig).emit [Action.roomExpired] := by
      unfold ServerRoom.initialize
      rw [if_pos hzero]
    rw [hinit]
    refine SeatInv.after_emit ?_ _ (by simp)
    exact
      { length := by
          show (0 : Nat) = roomConfig.draft_config.chair_count
          omega
        bots := by intro b hb; cases hb
        botsNodup := List.nodup_nil
        humanAt := by intro i h hp; simp [ServerRoom.create] at hp
        botAt := by intro i b hp; simp [ServerRoom.create] at hp
        botState := by intro b hb; cases hb
        departed := by intro i hi; simp [ServerRoom.create] at hi }

/-- In a room that satisfies both invariants no bot sits in the chair of a human of
the roster. -/
theorem bot_chair_ne_human_chair {s : ServerRoom} (ri : RoomInv s) (si : SeatInv s)
    {h : HumanPlayer} (hm : h ∈ s.mHumanList) {b : BotPlayer} (hb : b ∈ s.mBotList) :
    h.chairIndex ≠ b.chairIndex := by
  intro e
  have h1 := ri.chairs h hm
  have h2 := si.bots b hb
  rw [e, h2] at h1
  cases h1

theorem rejoin_seatInv (s : ServerRoom) (si : SeatInv s) (c : ClientConnection)
    (name : String) : SeatInv (s.rejoin c name).1 := by
  cases hfind : s.getHumanPlayer name with
  | none =>
    unfold ServerRoom.rejoin
    simp only [hfind]
    exact si
  | some human =>
    by_cases hdep : s.mChairStateList[human.chairIndex]? =
        some ChairState.CHAIR_STATE_DEPARTED
    · rw [rejoin_eq s c name human hfind hdep]
      refine SeatInv.after_emit ?_ _ ?_
      · refine
          { length := si.length, bots := si.bots, botsNodup := si.botsNodup
            humanAt := si.humanAt, botAt := si.botAt, botState := ?_, departed := ?_ }
        · intro b hb
          have hne : human.chairIndex ≠ b.chairIndex := by
            intro e
            have hst := si.botState b hb
            rw [← e, hdep] at hst
            by_cases hm : Action.draftStart ∈ s.log
            · cases hst.2 hm
            · cases hst.1 hm
          show (_ → (s.mChairStateList.set _ _)[b.chairIndex]? = _) ∧
            (_ → (s.mChairStateList.set _ _)[b.chairIndex]? = _)
          rw [List.getElem?_set_ne hne]
          exact si.botState b hb
        · intro i hi
          exact si.departed i (departed_of_set (by decide) hi).2
      · cases hst : s.mDraft.state <;> cases hp : s.mPublicStatePresent <;> simp [hst, hp]
    · unfold ServerRoom.rejoin
      simp only [hfind, ne_eq, hdep, not_false_eq_true, if_true]
      exact si

theorem join_seatInv (s : ServerRoom) (si : SeatInv s) (c : ClientConnection)
    (name password : String) (chairIndex : Int) :
    SeatInv (s.join c name password chairIndex).room := by
  cases hfind : s.getHumanPlayer name with
  | some human =>
    have hjoin : (s.join c name password chairIndex).room = (s.rejoin c name).1 := by
      unfold ServerRoom.join
      simp only [hfind]
    rw [hjoin]
    exact rejoin_seatInv s si c name
  | none =>
    cases hcond : (!s.mPassword.isEmpty && password != s.mPassword) with
    | true =>
      have hjoin : (s.join c name password chairIndex).room =
          s.emit [Action.sendProtoMsg c (ServerToClientMsg.join_room_failure_rsp
            JoinRoomFailureResult.RESULT_INVALID_PASSWORD s.mRoomId)] := by
        unfold ServerRoom.join
        simp only [hfind, hcond, if_true, sendJoinRoomFailureRsp_eq_emit]
      rw [hjoin]
      exact si.after_emit _ (by simp)
    | false =>
      rcases getNextAvailablePlayerIndex_spec s with hidx | ⟨k, hidx, hk⟩
      · have hjoin : (s.join c name password chairIndex).room =
            s.emit [Action.sendProtoMsg c (ServerToClientMsg.join_room_failure_rsp
              JoinRoomFailureResult.RESULT_ROOM_FULL s.mRoomId)] := by
          unfold ServerRoom.join
          simp only [hfind, hcond, hidx, Bool.false_eq_true, if_false, if_true,
            sendJoinRoomFailureRsp_eq_emit]
        rw [hjoin]
        exact si.after_emit _ (by simp)
      · rw [join_new_eq s c name password chairIndex k hfind hcond hidx]
        have hklt : k < s.mPlayerList.length := (List.getElem?_eq_some.1 hk).1
        have hbot : ∀ b ∈ s.mBotList, k ≠ b.chairIndex := by
          intro b hb e
          have := si.bots b hb
          rw [← e, hk] at this
          cases this
        refine SeatInv.after_emit ?_ _ (by simp)
        refine
          { length := ?_, bots := ?_, botsNodup := si.botsNodup, humanAt := ?_
            botAt := ?_, botState := ?_, departed := ?_ }
        · show (s.mPlayerList.set _ _).length = _
          rw [List.length_set]
          exact si.length
        · intro b hb
          show (s.mPlayerList.set _ _)[b.chairIndex]? = _
          rw [List.getElem?_set_ne (hbot b hb)]
          exact si.bots b hb
        · intro i h hp
          show h ∈ s.mHumanList ++ [_] ∧ _
          have hp1 : (s.mPlayerList.set k (some (Player.human
              { id := s.nextHumanId, name := name, chairIndex := k })))[i]? =
              some (some (Player.human h)) := hp
          by_cases hki : k = i
          · subst hki
            rw [List.getElem?_set_self hklt] at hp1
            injection hp1 with hp1
            injection hp1 with hp1
            injection hp1 with hp1
            subst hp1
            exact ⟨List.mem_append_right _ (List.mem_singleton_self _), rfl⟩
          · rw [List.getElem?_set_ne hki] at hp1
            exact ⟨List.mem_append_left _ (si.humanAt i h hp1).1, (si.humanAt i h hp1).2⟩
        · intro i b hp
          have hp1 : (s.mPlayerList.set k (some (Player.human
              { id := s.nextHumanId, name := name, chairIndex := k })))[i]? =
              some (some (Player.bot b)) := hp
          by_cases hki : k = i
          · subst hki
            rw [List.getElem?_set_self hklt] at hp1
            injection hp1 with hp1
            injection hp1 with hp1
            cases hp1
          · rw [List.getElem?_set_ne hki] at hp1
            exact si.botAt i b hp1
        · intro b hb
          show (_ → (s.mChairStateList.set _ _)[b.chairIndex]? = _) ∧
            (_ → (s.mChairStateList.set _ _)[b.chairIndex]? = _)
          rw [List.getElem?_set_ne (hbot b hb)]
          exact si.botState b hb
        · intro i hi
          obtain ⟨hki, hold⟩ := departed_of_set (by decide) hi
          obtain ⟨h, hh⟩ := si.departed i hold
          refine ⟨h, ?_⟩
          show (s.mPlayerList.set _ _)[i]? = _
          rw [List.getElem?_set_ne hki]
          exact hh

theorem leave_seatInv (s : ServerRoom) (ri : RoomInv s) (si : SeatInv s)
    (c : ClientConnection) : SeatInv (s.leave c) := by
  cases hfind : mapFind c s.mClientConnectionMap with
  | none =>
    unfold ServerRoom.leave
    simp only [hfind]
    exact si
  | some human =>
    have hmem : human ∈ s.mHumanList := ri.mapped _ (mapFind_mem c human _ hfind)
    have hplayer := ri.chairs human hmem
    have hbot : ∀ b ∈ s.mBotList, human.chairIndex ≠ b.chairIndex :=
      fun b hb => bot_chair_ne_human_chair ri si hmem hb
    by_cases hact : s.mChairStateList[human.chairIndex]? = some ChairState.CHAIR_STATE_ACTIVE
    · rw [leave_active_eq s c human hfind hact]
      refine SeatInv.after_emit ?_ _ (by simp)
      refine
        { length := si.length, bots := si.bots, botsNodup := si.botsNodup
          humanAt := si.humanAt, botAt := si.botAt, botState := ?_, departed := ?_ }
      · intro b hb
        show (_ → (s.mChairStateList.set _ _)[b.chairIndex]? = _) ∧
          (_ → (s.mChairStateList.set _ _)[b.chairIndex]? = _)
        rw [List.getElem?_set_ne (hbot b hb)]
        exact si.botState b hb
      · intro i hi
        have hi1 : (s.mChairStateList.set human.chairIndex
            ChairState.CHAIR_STATE_DEPARTED)[i]? = some ChairState.CHAIR_STATE_DEPARTED := hi
        by_cases hki : human.chairIndex = i
        · exact ⟨human, hki ▸ hplayer⟩
        · rw [List.getElem?_set_ne hki] at hi1
          exact si.departed i hi1
    · rw [leave_inactive_eq s c human hfind hact]
      refine SeatInv.after_emit ?_ _ ?_
      · refine
          { length := ?_, bots := ?_, botsNodup := si.botsNodup, humanAt := ?_
            botAt := ?_, botState := ?_, departed := ?_ }
        · show (s.mPlayerList.set _ _).length = _
          rw [List.length_set]
          exact si.length
        · intro b hb
          show (s.mPlayerList.set _ _)[b.chairIndex]? = _
          rw [List.getElem?_set_ne (hbot b hb)]
          exact si.bots b hb
        · intro i h hp
          obtain ⟨hki, hold⟩ := player_of_set_none hp
          obtain ⟨h1, h2⟩ := si.humanAt i h hold
          refine ⟨?_, h2⟩
          have hne : h ≠ human := by
            intro e
            rw [e] at h2
            exact hki h2
          exact (List.mem_erase_of_ne hne).2 h1
        · intro i b hp
          exact si.botAt i b (player_of_set_none hp).2
        · intro b hb
          show (_ → (s.mChairStateList.set _ _)[b.chairIndex]? = _) ∧
            (_ → (s.mChairStateList.set _ _)[b.chairIndex]? = _)
          rw [List.getElem?_set_ne (hbot b hb)]
          exact si.botState b hb
        · intro i hi
          obtain ⟨hki, hold⟩ := departed_of_set (by decide) hi
          obtain ⟨h, hh⟩ := si.departed i hold
          refine ⟨h, ?_⟩
          show (s.mPlayerList.set _ _)[i]? = _
          rw [List.getElem?_set_ne hki]
          exact hh
      · cases he : (mapRemove c s.mClientConnectionMap).isEmpty <;> simp

theorem handleHumanReadyUpdate_seatInv (s : ServerRoom) (ri : RoomInv s) (si : SeatInv s)
    (human : HumanPlayer) (hmem : human ∈ s.mHumanList) (ready : Bool) :
    SeatInv (s.handleHumanReadyUpdate human ready) := by
  have hbot : ∀ b ∈ s.mBotList, human.chairIndex ≠ b.chairIndex :=
    fun b hb => bot_chair_ne_human_chair ri si hmem hb
  have hsets : ∀ st1 : ChairState, st1 ≠ ChairState.CHAIR_STATE_DEPARTED →
      SeatInv ({ s with mChairStateList := s.mChairStateList.set human.chairIndex st1 } :
        ServerRoom) := by
    intro st1 h1
    refine
      { length := si.length, bots := si.bots, botsNodup := si.botsNodup
        humanAt := si.humanAt, botAt := si.botAt, botState := ?_, departed := ?_ }
    · intro b hb
      show (_ → (s.mChairStateList.set _ _)[b.chairIndex]? = _) ∧
        (_ → (s.mChairStateList.set _ _)[b.chairIndex]? = _)
      rw [List.getElem?_set_ne (hbot b hb)]
      exact si.botState b hb
    · intro i hi
      exact si.departed i (departed_of_set h1 hi).2
  by_cases h1 : s.mChairStateList[human.chairIndex]? = some ChairState.CHAIR_STATE_READY ∧
      ready = false
  · obtain ⟨hst, rfl⟩ := h1
    rw [handleHumanReadyUpdate_unready s human hst, broadcastRoomOccupantsInfo_eq_emit]
    exact (hsets _ (by decide)).after_emit _ (draftStart_not_mem_sends _ _)
  · by_cases h2 : s.mChairStateList[human.chairIndex]? =
        some ChairState.CHAIR_STATE_STANDBY ∧ ready = true
    · obtain ⟨hst, rfl⟩ := h2
      cases hall : (s.mChairStateList.set human.chairIndex ChairState.CHAIR_STATE_READY).all
          (fun st => decide (st = ChairState.CHAIR_STATE_READY)) with
      | false =>
        rw [handleHumanReadyUpdate_ready s human hst hall, broadcastRoomOccupantsInfo_eq_emit]
        exact (hsets _ (by decide)).after_emit _ (draftStart_not_mem_sends _ _)
      | true =>
        rw [handleHumanReadyUpdate_start s human hst hall]
        refine
          { length := si.length, bots := si.bots, botsNodup := si.botsNodup
            humanAt := si.humanAt, botAt := si.botAt, botState := ?_, departed := ?_ }
        · intro b hb
          have hlt : b.chairIndex < s.mChairStateList.length := by
            rw [← ri.seats.1]
            exact (List.getElem?_eq_some.1 (si.bots b hb)).1
          refine ⟨?_, ?_⟩
          · intro hn
            exact absurd (by rw [emit_log]; simp) hn
          · intro _
            show (List.map _ _)[b.chairIndex]? = _
            rw [List.getElem?_map, List.getElem?_eq_getElem (by rw [List.length_set]; exact hlt)]
            rfl
        · intro i hi
          have hi1 : ((s.mChairStateList.set human.chairIndex
              ChairState.CHAIR_STATE_READY).map (fun _ => ChairState.CHAIR_STATE_ACTIVE))[i]? =
              some ChairState.CHAIR_STATE_DEPARTED := hi
          rw [List.getElem?_map] at hi1
          cases hx : (s.mChairStateList.set human.chairIndex
              ChairState.CHAIR_STATE_READY)[i]? <;> rw [hx] at hi1 <;> cases hi1
    · rw [handleHumanReadyUpdate_noop s human ready h1 h2, broadcastRoomOccupantsInfo_eq_emit]
      exact si.after_emit _ (draftStart_not_mem_sends _ _)

/-- Every room reachable by joins, leaves and ready updates satisfies the seats
invariant. -/
theorem reachable_seatInv (s : ServerRoom) (h : Reachable s) : SeatInv s := by
  induction h with
  | init roomId password roomConfig => exact initialize_seatInv roomId password roomConfig
  | join s c name password chairIndex _ ih => exact join_seatInv s ih c name password chairIndex
  | leave s c hs ih => exact leave_seatInv s (reachable_roomInv s hs) ih c
  | ready s human ready hs hmem ih =>
    exact handleHumanReadyUpdate_seatInv s (reachable_roomInv s hs) ih human hmem ready

/-! ## Theorems: roster, chairs and bots of the reachable rooms -/

theorem length_le_of_nodup_lt (l : List Nat) (n : Nat) (hnd : l.Nodup)
    (hlt : ∀ x ∈ l, x < n) : l.length ≤ n := by
  have hsub : l.toFinset ⊆ Finset.range n := by
    intro x hx
    exact Finset.mem_range.2 (hlt x (List.mem_toFinset.1 hx))
  have := Finset.card_le_card hsub
  rwa [List.toFinset_card_of_nodup hnd, Finset.card_range] at this

/-- The chairs of the humans of the roster and of the bots are pairwise distinct. -/
theorem chairs_nodup {s : ServerRoom} (ri : RoomInv s) (si : SeatInv s) :
    (s.mHumanList.map HumanPlayer.chairIndex ++ s.mBotList.map BotPlayer.chairIndex).Nodup := by
  rw [List.nodup_append]
  refine ⟨?_, ?_, ?_⟩
  · refine List.Nodup.map_on ?_ ri.humans_nodup
    intro h1 m1 h2 m2 e
    exact ri.chair_injective m1 m2 e
  · refine List.Nodup.map_on ?_ si.botsNodup
    intro b1 _ b2 _ e
    cases b1
    cases b2
    simp only at e
    rw [e]
  · intro x hx1 hx2
    obtain ⟨h, hm, rfl⟩ := List.mem_map.1 hx1
    obtain ⟨b, hb, e⟩ := List.mem_map.1 hx2
    exact bot_chair_ne_human_chair ri si hm hb e.symm

/-- C21: in every room reachable from `initialize` by joins (rejoins included),
leaves and ready updates, the humans and the bots together are at most as many as
the chairs; every human of the roster and every bot is the player of the chair it
names and of no other chair; every player of a chair is a human of the roster or a
bot of the bot list; and the chairs of the humans and the bots are pairwise
distinct, so that no chair holds more than one of them. -/
theorem roster_fits_chairs (s : ServerRoom) (hs : Reachable s) :
    s.mHumanList.length + s.mBotList.length ≤ s.mChairCount ∧
    (∀ h ∈ s.mHumanList, ∀ i : Nat,
      s.mPlayerList[i]? = some (some (Player.human h)) ↔ i = h.chairIndex) ∧
    (∀ b ∈ s.mBotList, ∀ i : Nat,
      s.mPlayerList[i]? = some (some (Player.bot b)) ↔ i = b.chairIndex) ∧
    (∀ (i : Nat) (p : Player), s.mPlayerList[i]? = some (some p) →
      (∃ h ∈ s.mHumanList, p = Player.human h) ∨ (∃ b ∈ s.mBotList, p = Player.bot b)) ∧
    (s.mHumanList.map HumanPlayer.chairIndex ++ s.mBotList.map BotPlayer.chairIndex).Nodup ∧
    s.mHumanList.Nodup ∧ s.mBotList.Nodup := by
  have ri := reachable_roomInv s hs
  have si := reachable_seatInv s hs
  have hnd := chairs_nodup ri si
  refine ⟨?_, ?_, ?_, ?_, hnd, ri.humans_nodup, si.botsNodup⟩
  · have hlen := length_le_of_nodup_lt _ s.mChairCount hnd (by
      intro x hx
      rw [← si.length]
      rcases List.mem_append.1 hx with hx | hx
      · obtain ⟨h, hm, rfl⟩ := List.mem_map.1 hx
        exact (List.getElem?_eq_some.1 (ri.chairs h hm)).1
      · obtain ⟨b, hb, rfl⟩ := List.mem_map.1 hx
        exact (List.getElem?_eq_some.1 (si.bots b hb)).1)
    simpa using hlen
  · intro h hm i
    constructor
    · intro hp
      exact (si.humanAt i h hp).2.symm
    · intro e
      rw [e]
      exact ri.chairs h hm
  · intro b hb i
    constructor
    · intro hp
      exact (si.botAt i b hp).2.symm
    · intro e
      rw [e]
      exact si.bots b hb
  · intro i p hp
    cases p with
    | human h => exact Or.inl ⟨h, (si.humanAt i h hp).1, rfl⟩
    | bot b => exact Or.inr ⟨b, (si.botAt i b hp).1, rfl⟩

/-- Instance of `roster_fits_chairs`: the sample room with its bot in chair 0 and
`alice` in chair 1 has one human and one bot on two chairs. -/
theorem roster_fits_chairs_witness :
    roomWithAlice.mHumanList.length + roomWithAlice.mBotList.length ≤ 2 ∧
    (roomWithAlice.mHumanList.map HumanPlayer.chairIndex ++
      roomWithAlice.mBotList.map BotPlayer.chairIndex).Nodup ∧
    roomWithAlice.mHumanList.length + roomWithAlice.mBotList.length = 2 :=
  have h := roster_fits_chairs roomWithAlice
    (Reachable.join _ 5 "alice" "" 0 (Reachable.init _ _ _))
  ⟨h.1, h.2.2.2.2.1, by decide⟩

/-- C22: in every room reachable from `initialize` by joins (rejoins included),
leaves and ready updates, a DEPARTED chair still holds a human, who is in the
roster of the room, names that chair, and has no connection in the connection
map. -/
theorem departed_chair_keeps_human (s : ServerRoom) (hs : Reachable s) (i : Nat)
    (hdep : s.mChairStateList[i]? = some ChairState.CHAIR_STATE_DEPARTED) :
    ∃ h, s.mPlayerList[i]? = some (some (Player.human h)) ∧ h ∈ s.mHumanList ∧
      h.chairIndex = i ∧ (∀ e ∈ s.mClientConnectionMap, e.2 ≠ h) ∧
      ∀ c, mapFind c s.mClientConnectionMap ≠ some h := by
  have ri := reachable_roomInv s hs
  have si := reachable_seatInv s hs
  obtain ⟨h, hp⟩ := si.departed i hdep
  obtain ⟨hm, hi⟩ := si.humanAt i h hp
  have hno : ∀ e ∈ s.mClientConnectionMap, e.2 ≠ h := by
    intro e he heq
    have := ri.connected e he
    rw [heq, hi] at this
    exact this hdep
  refine ⟨h, hp, hm, hi, hno, ?_⟩
  intro c hc
  exact hno _ (mapFind_mem c h _ hc) rfl

/-- Instance of `departed_chair_keeps_human`: after `alice` left the running sample
room, chair 1 is DEPARTED and still holds her, with no connection. -/
theorem departed_chair_keeps_human_witness :
    departedRoom.mChairStateList[1]? = some ChairState.CHAIR_STATE_DEPARTED ∧
    (∃ h, departedRoom.mPlayerList[1]? = some (some (Player.human h)) ∧
      h ∈ departedRoom.mHumanList ∧ h.chairIndex = 1 ∧
      (∀ e ∈ departedRoom.mClientConnectionMap, e.2 ≠ h) ∧
      ∀ c, mapFind c departedRoom.mClientConnectionMap ≠ some h) ∧
    departedRoom.mPlayerList[1]? =
      some (some (Player.human { id := 0, name := "alice", chairIndex := 1 })) :=
  ⟨by decide,
    departed_chair_keeps_human departedRoom
      (Reachable.leave _ 5
        (Reachable.ready _ { id := 0, name := "alice", chairIndex := 1 } true
          (Reachable.join _ 5 "alice" "" 0 (Reachable.init _ _ _)) (by decide)))
      1 (by decide),
    by decide⟩

/-- C23, as stated, fails: the running sample room is reachable, its chair 0 is
occupied by a bot, and the state of that chair is ACTIVE, not READY. -/
theorem bot_chair_active_after_start :
    Reachable runningRoom ∧
    runningRoom.mPlayerList[0]? = some (some (Player.bot { chairIndex := 0 })) ∧
    runningRoom.mChairStateList[0]? = some ChairState.CHAIR_STATE_ACTIVE ∧
    runningRoom.mChairStateList[0]? ≠ some ChairState.CHAIR_STATE_READY :=
  ⟨Reachable.ready _ { id := 0, name := "alice", chairIndex := 1 } true
      (Reachable.join _ 5 "alice" "" 0 (Reachable.init _ _ _)) (by decide),
    by decide, by decide, by decide⟩

/-- C23, amended: in every room reachable from `initialize` by joins (rejoins
included), leaves and ready updates, every chair occupied by a bot is READY until
the draft engine is started and ACTIVE from then on. -/
theorem bot_chair_ready_until_start (s : ServerRoom) (hs : Reachable s) (i : Nat)
    (b : BotPlayer) (hocc : s.mPlayerList[i]? = some (some (Player.bot b))) :
    (Action.draftStart ∉ s.log →
      s.mChairStateList[i]? = some ChairState.CHAIR_STATE_READY) ∧
    (Action.draftStart ∈ s.log →
      s.mChairStateList[i]? = some ChairState.CHAIR_STATE_ACTIVE) := by
  have si := reachable_seatInv s hs
  obtain ⟨hb, hi⟩ := si.botAt i b hocc
  rw [← hi]
  exact si.botState b hb

/-- Instance of `bot_chair_ready_until_start`: chair 0 of the sample room, where
the bot sits, is READY once `alice` has joined and ACTIVE once the draft is
started. -/
theorem bot_chair_ready_until_start_witness :
    roomWithAlice.mChairStateList[0]? = some ChairState.CHAIR_STATE_READY ∧
    runningRoom.mChairStateList[0]? = some ChairState.CHAIR_STATE_ACTIVE :=
  ⟨(bot_chair_ready_until_start roomWithAlice
      (Reachable.join _ 5 "alice" "" 0 (Reachable.init _ _ _)) 0 { chairIndex := 0 }
      (by decide)).1 (by decide),
    (bot_chair_ready_until_start runningRoom
      (Reachable.ready _ { id := 0, name := "alice", chairIndex := 1 } true
        (Reachable.join _ 5 "alice" "" 0 (Reachable.init _ _ _)) (by decide))
      0 { chairIndex := 0 } (by decide)).2 (by decide)⟩

theorem join_mBotList (s : ServerRoom) (c : ClientConnection) (name password : String)
    (chairIndex : Int) : (s.join c name password chairIndex).room.mBotList = s.mBotList := by
  rcases Bool.eq_false_or_eq_true (s.join c name password chairIndex).result with hr | hr
  · cases hfind : s.getHumanPlayer name with
    | some human =>
      have hjoin : s.join c name password chairIndex =
          { room := (s.rejoin c name).1, result := (s.rejoin c name).2,
            chairIndex := chairIndex } := by
        unfold ServerRoom.join
        simp only [hfind]
      by_cases hdep : s.mChairStateList[human.chairIndex]? =
          some ChairState.CHAIR_STATE_DEPARTED
      · rw [hjoin, rejoin_eq s c name human hfind hdep]
        rfl
      · have hre : s.rejoin c name = (s, false) := by
          unfold ServerRoom.rejoin
          simp only [hfind, ne_eq, hdep, not_false_eq_true, if_true]
        rw [hjoin, hre]
    | none =>
      cases hcond : (!s.mPassword.isEmpty && password != s.mPassword) with
      | true =>
        have hf : (s.join c name password chairIndex).result = false := by
          unfold ServerRoom.join
          simp only [hfind, hcond, if_true]
        rw [hf] at hr
        cases hr
      | false =>
        rcases getNextAvailablePlayerIndex_spec s with hidx | ⟨k, hidx, _⟩
        · have hf : (s.join c name password chairIndex).result = false := by
            unfold ServerRoom.join
            simp only [hfind, hcond, hidx, Bool.false_eq_true, if_false, if_true]
          rw [hf] at hr
          cases hr
        · rw [join_new_eq s c name password chairIndex k hfind hcond hidx]
          rfl
  · obtain ⟨added, hadd⟩ := join_failure_unchanged s c name password chairIndex hr
    rw [hadd]
    rfl

theorem leave_mBotList (s : ServerRoom) (c : ClientConnection) :
    (s.leave c).mBotList = s.mBotList := by
  cases hfind : mapFind c s.mClientConnectionMap with
  | none =>
    unfold ServerRoom.leave
    simp only [hfind]
  | some human =>
    by_cases hact : s.mChairStateList[human.chairIndex]? = some ChairState.CHAIR_STATE_ACTIVE
    · rw [leave_active_eq s c human hfind hact]
      rfl
    · rw [leave_inactive_eq s c human hfind hact]
      rfl

theorem handleHumanReadyUpdate_mBotList (s : ServerRoom) (human : HumanPlayer)
    (ready : Bool) : (s.handleHumanReadyUpdate human ready).mBotList = s.mBotList := by
  unfold ServerRoom.handleHumanReadyUpdate
  simp only
  split
  · rfl
  · split
    · split <;> rfl
    · rfl

theorem reachableFrom_reachable (s0 s : ServerRoom) (h0 : Reachable s0)
    (h : ReachableFrom s0 s) : Reachable s := by
  induction h with
  | start => exact h0
  | join s c name password chairIndex _ ih => exact Reachable.join s c name password chairIndex ih
  | leave s c _ ih => exact Reachable.leave s c ih
  | ready s human ready _ hmem ih => exact Reachable.ready s human ready ih hmem

theorem reachableFrom_mBotList (s0 s : ServerRoom) (h : ReachableFrom s0 s) :
    s.mBotList = s0.mBotList := by
  induction h with
  | start => rfl
  | join s c name password chairIndex _ ih =>
    rw [join_mBotList]
    exact ih
  | leave s c _ ih =>
    rw [leave_mBotList]
    exact ih
  | ready s human ready _ _ ih =>
    rw [handleHumanReadyUpdate_mBotList]
    exact ih

/-- C28: bot chairs are fixed by `initialize`. For every room with a chair or more,
`initialize` places as many bots as the configuration asks for, and at most as many
as there are chairs: bot number `j` in chair `botChair chair_count j`, the even
chairs first and then the odd ones; these chairs are pairwise distinct, each is a
chair of the room and holds its bot. In every room reached from there by joins
(rejoins included), leaves and ready updates the bot list is the same and every
bot chair still holds its bot. -/
theorem bots_fixed_by_initialize (roomId : Nat) (password : String) (roomConfig : RoomConfig)
    (hc : 1 ≤ roomConfig.draft_config.chair_count) (s : ServerRoom)
    (hs : ReachableFrom
      ( ServerRoom.initialize (ServerRoom.create roomId password roomConfig)) s) :
    ( ServerRoom.initialize (ServerRoom.create roomId password roomConfig)).mBotList =
      (List.range (min roomConfig.bot_count roomConfig.draft_config.chair_count)).map
        (fun j => ({ chairIndex := botChair roomConfig.draft_config.chair_count j } :
          BotPlayer)) ∧
    ( ServerRoom.initialize (ServerRoom.create roomId password roomConfig)).mBotList.length =
      min roomConfig.bot_count roomConfig.draft_config.chair_count ∧
    (( ServerRoom.initialize (ServerRoom.create roomId password roomConfig)).mBotList.map
      BotPlayer.chairIndex).Nodup ∧
    (∀ b ∈ ( ServerRoom.initialize (ServerRoom.create roomId password roomConfig)).mBotList,
      b.chairIndex < roomConfig.draft_config.chair_count ∧
      ( ServerRoom.initialize
        (ServerRoom.create roomId password roomConfig)).mPlayerList[b.chairIndex]? =
          some (some (Player.bot b))) ∧
    s.mBotList =
      ( ServerRoom.initialize (ServerRoom.create roomId password roomConfig)).mBotList ∧
    (∀ b ∈ ( ServerRoom.initialize (ServerRoom.create roomId password roomConfig)).mBotList,
      s.mPlayerList[b.chairIndex]? = some (some (Player.bot b))) := by
  have hplaced := initialize_botsPlaced roomId password roomConfig hc
  have hinit := Reachable.init roomId password roomConfig
  have si0 := reachable_seatInv _ hinit
  have hsame := reachableFrom_mBotList _ s hs
  have si := reachable_seatInv s (reachableFrom_reachable _ s hinit hs)
  refine ⟨hplaced.bots, ?_, ?_, ?_, hsame, ?_⟩
  · rw [hplaced.bots]
    simp
  · refine List.Nodup.map_on ?_ si0.botsNodup
    intro b1 _ b2 _ e
    cases b1
    cases b2
    simp only at e
    rw [e]
  · intro b hb
    refine ⟨?_, si0.bots b hb⟩
    have := (List.getElem?_eq_some.1 (si0.bots b hb)).1
    rw [hplaced.players] at this
    exact this
  · intro b hb
    exact si.bots b (hsame ▸ hb)

/-- Instance of `bots_fixed_by_initialize`: with five chairs and four bots the bots
sit in the chairs 0, 2, 4 and 1, and after a human has joined, in chair 3, they
still do. -/
theorem bots_fixed_by_initialize_witness :
    (( ServerRoom.initialize (ServerRoom.create 9 "" fiveChairConfig)).mBotList.map
      BotPlayer.chairIndex = [0, 2, 4, 1] ∧
      (( ServerRoom.initialize (ServerRoom.create 9 "" fiveChairConfig)).join 5 "alice" ""
        0).chairIndex = 3) ∧
    (( ServerRoom.initialize (ServerRoom.create 9 "" fiveChairConfig)).join 5 "alice" ""
        0).room.mBotList =
      ( ServerRoom.initialize (ServerRoom.create 9 "" fiveChairConfig)).mBotList ∧
    (∀ b ∈ ( ServerRoom.initialize (ServerRoom.create 9 "" fiveChairConfig)).mBotList,
      (( ServerRoom.initialize (ServerRoom.create 9 "" fiveChairConfig)).join 5 "alice" ""
        0).room.mPlayerList[b.chairIndex]? = some (some (Player.bot b))) :=
  have h := bots_fixed_by_initialize 9 "" fiveChairConfig (by decide)
    (( ServerRoom.initialize (ServerRoom.create 9 "" fiveChairConfig)).join 5 "alice" "" 0).room
    (ReachableFrom.join _ 5 "alice" "" 0 ReachableFrom.start)
  ⟨⟨by decide, by decide⟩, h.2.2.2.2.1, h.2.2.2.2.2⟩

/-! ## Theorems: the reader needs no more iterations -/

/-- Once the loop of `readFromServer` has had as many iterations as there are bytes
available, and one more when a header is kept, a further iteration changes
nothing: the fuel of `readFromServer` is enough for the loop to end by itself. -/
theorem readLoop_fuel_enough (qUncompress : List Byte → List Byte) :
    ∀ (fuel : Nat) (st : ReadState),
      st.available.length + (if st.mIncomingMsgHeader = 0 then 0 else 1) ≤ fuel →
      readLoop qUncompress (fuel + 1) st = readLoop qUncompress fuel st := by
  intro fuel
  induction fuel with
  | zero =>
    intro st h
    have h0 : st.available.length = 0 := by omega
    simp only [readLoop, h0, if_true]
  | succ fuel ih =>
    intro st h
    rw [readLoop, readLoop]
    by_cases h0 : st.available.length = 0
    · rw [if_pos h0, if_pos h0]
    · rw [if_neg h0, if_neg h0]
      by_cases h1 : st.mIncomingMsgHeader = 0 ∧ st.available.length < 2
      · rw [if_pos h1, if_pos h1]
      · rw [if_neg h1, if_neg h1]
        by_cases hh : st.mIncomingMsgHeader = 0
        · have h2 : ¬ st.available.length < 2 := fun hlt => h1 ⟨hh, hlt⟩
          simp only [hh, if_true] at h ⊢
          by_cases hs : (List.drop 2 st.available).length < readUInt16 st.available &&& 32767
          · rw [if_pos hs, if_pos hs]
          · rw [if_neg hs, if_neg hs]
            apply ih
            simp only [List.length_drop, if_true]
            omega
        · simp only [hh, if_false] at h ⊢
          by_cases hs : st.available.length < st.mIncomingMsgHeader &&& 32767
          · rw [if_pos hs, if_pos hs]
          · rw [if_neg hs, if_neg hs]
            apply ih
            simp only [List.length_drop, if_true]
            omega

end Thicket
